import Mathlib

/-! # Device controller driver for the LPC43xx USB core (`dcd_lpc43xx.c`)

A shallow embedding of the descriptor pool, the pipe manager and the completion
interrupt service of `src/tinyusb/device/dcd_lpc43xx.c`.

* Machine integers are natural numbers; a store into a narrower object is an explicit `%`.
* C arrays are lists; `a[i]` is `List.getD` and `a[i] = v` is `List.set`.  The theorems
  assume the indices they use to be inside the arrays (an access outside is undefined in C).
* The global `dcd_data`, the register block `LPC_USB0` and the sequence of calls made into
  the device stack (`usbd_*`) form the state `system_t`.
* A `while` loop over software state takes a fuel argument and yields `none` when the fuel
  does not suffice, so that termination is a statement about the model.
-/

namespace DcdLpc43xx

/-! ## Constants -/

/-- Number of queue heads, `#define DCD_QHD_MAX 12`. -/
def DCD_QHD_MAX : Nat := 12

/-- Number of queue transfer descriptors, `#define DCD_QTD_MAX 12`. -/
def DCD_QTD_MAX : Nat := 12

/-- Maximum number of qtd linked into one queue head, `#define DCD_QTD_PER_QHD_MAX 2`. -/
def DCD_QTD_PER_QHD_MAX : Nat := 2

/-- Terminate bit of a next pointer, `#define QTD_NEXT_INVALID 0x01`. -/
def QTD_NEXT_INVALID : Nat := 0x01

/-- Modelled from the spec: the macro `BIT_` of the common headers is not part of the
sources at hand; `BIT_(n)` is the word with only bit position `n` set. -/
def BIT_ (n : Nat) : Nat := 1 <<< n

/-- Modelled from the spec: the macro `BIT_TEST_` of the common headers is not part of the
sources at hand; it tells whether bit position `n` of `x` is set. -/
def BIT_TEST_ (x n : Nat) : Bool := x &&& BIT_ n != 0

/-- Modelled from the spec: the macro `align4k` of the common headers is not part of the
sources at hand; it clears the low 12 bits (4 KiB boundary). -/
def align4k (x : Nat) : Nat := x - x % 4096

def ENDPTCTRL_MASK_STALL : Nat := BIT_ 0
def ENDPTCTRL_MASK_TOGGLE_INHIBIT : Nat := BIT_ 5
def ENDPTCTRL_MASK_TOGGLE_RESET : Nat := BIT_ 6
def ENDPTCTRL_MASK_ENABLE : Nat := BIT_ 7

def INT_MASK_USB : Nat := BIT_ 0
def INT_MASK_ERROR : Nat := BIT_ 1
def INT_MASK_PORT_CHANGE : Nat := BIT_ 2
def INT_MASK_RESET : Nat := BIT_ 6
def INT_MASK_SOF : Nat := BIT_ 7
def INT_MASK_SUSPEND : Nat := BIT_ 8
def INT_MASK_NAK : Nat := BIT_ 16

/-- Modelled from the spec: the enumeration of transfer types is declared in a header that
is not part of the sources at hand; the values are the USB ones (control, isochronous,
bulk, interrupt). -/
def TUSB_XFER_CONTROL : Nat := 0

/-- Modelled from the spec: see `TUSB_XFER_CONTROL`. -/
def TUSB_XFER_ISOCHRONOUS : Nat := 1

/-- Modelled from the spec: see `TUSB_XFER_CONTROL`. -/
def TUSB_XFER_BULK : Nat := 2

/-- Modelled from the spec: see `TUSB_XFER_CONTROL`. -/
def TUSB_XFER_INTERRUPT : Nat := 3

/-- Modelled from the spec: direction bit of an endpoint address (device-to-host), declared
in a header that is not part of the sources at hand. -/
def TUSB_DIR_DEV_TO_HOST_MASK : Nat := 0x80

/-- Modelled from the spec: the enumeration `tusb_direction_t` is declared in a header that
is not part of the sources at hand; host-to-device is 0. -/
def TUSB_DIR_HOST_TO_DEV : Nat := 0

/-- Modelled from the spec: see `TUSB_DIR_HOST_TO_DEV`; device-to-host is 1. -/
def TUSB_DIR_DEV_TO_HOST : Nat := 1

/-- Error codes returned by the functions of this file (the ones it uses). -/
inductive tusb_error_t where
  | TUSB_ERROR_NONE
  | TUSB_ERROR_FAILED
  | TUSB_ERROR_NOT_SUPPORTED_YET
  | TUSB_ERROR_DCD_NOT_ENOUGH_QTD
  deriving DecidableEq, Repr

/-- Events reported through `usbd_xfer_isr` (the ones this file uses). -/
inductive tusb_event_t where
  | TUSB_EVENT_XFER_COMPLETE
  | TUSB_EVENT_XFER_ERROR
  deriving DecidableEq, Repr

/-- Properties of the build that the C file takes from outside: the address at which the
linker places `dcd_data` and the configured control endpoint size. -/
structure build_t where
  dcd_data_addr : Nat
  TUSB_CFG_DEVICE_CONTROL_ENDOINT_SIZE : Nat
  deriving DecidableEq, Repr

/-! ## Data model -/

/-- Queue transfer descriptor `dcd_qtd_t` (32 bytes). -/
structure dcd_qtd_t where
  next : Nat
  xact_err : Nat
  buffer_err : Nat
  halted : Nat
  active : Nat
  iso_mult_override : Nat
  int_on_complete : Nat
  total_bytes : Nat
  buffer : List Nat
  expected_bytes : Nat
  used : Nat
  reserved : Nat
  deriving DecidableEq, Repr

/-- Result of `memclr_` on a `dcd_qtd_t`. -/
def dcd_qtd_t.zero : dcd_qtd_t :=
  { next := 0, xact_err := 0, buffer_err := 0, halted := 0, active := 0,
    iso_mult_override := 0, int_on_complete := 0, total_bytes := 0,
    buffer := [0, 0, 0, 0, 0], expected_bytes := 0, used := 0, reserved := 0 }

/-- Modelled from the spec: the captured 8-byte setup packet; the type is declared in a
header that is not part of the sources at hand. -/
structure tusb_control_request_t where
  bytes : List Nat
  deriving DecidableEq, Repr

/-- Result of `memclr_` on a setup request. -/
def tusb_control_request_t.zero : tusb_control_request_t :=
  { bytes := [0, 0, 0, 0, 0, 0, 0, 0] }

/-- Queue head `dcd_qhd_t` (64 bytes). -/
structure dcd_qhd_t where
  int_on_setup : Nat
  max_package_size : Nat
  zero_length_termination : Nat
  iso_mult : Nat
  qtd_addr : Nat
  qtd_overlay : dcd_qtd_t
  setup_request : tusb_control_request_t
  class_code : Nat
  xfer_type : Nat
  list_qtd_idx : List Nat
  reserved : List Nat
  deriving DecidableEq, Repr

/-- Result of `memclr_` on a `dcd_qhd_t`. -/
def dcd_qhd_t.zero : dcd_qhd_t :=
  { int_on_setup := 0, max_package_size := 0, zero_length_termination := 0, iso_mult := 0,
    qtd_addr := 0, qtd_overlay := dcd_qtd_t.zero,
    setup_request := tusb_control_request_t.zero,
    class_code := 0, xfer_type := 0,
    list_qtd_idx := List.replicate DCD_QTD_PER_QHD_MAX 0,
    reserved := List.replicate (14 - DCD_QTD_PER_QHD_MAX) 0 }

/-- The pool `dcd_data_t`: the queue heads and the queue transfer descriptors. -/
structure dcd_data_t where
  qhd : List dcd_qhd_t
  qtd : List dcd_qtd_t
  deriving DecidableEq, Repr

/-- Result of `memclr_(&dcd_data, sizeof(dcd_data_t))`. -/
def dcd_data_t.zero : dcd_data_t :=
  { qhd := List.replicate DCD_QHD_MAX dcd_qhd_t.zero,
    qtd := List.replicate DCD_QTD_MAX dcd_qtd_t.zero }

/-- Read of `dcd_data.qhd[i]`. -/
def dcd_data_t.qhd_at (d : dcd_data_t) (i : Nat) : dcd_qhd_t := d.qhd.getD i dcd_qhd_t.zero

/-- Read of `dcd_data.qtd[i]`. -/
def dcd_data_t.qtd_at (d : dcd_data_t) (i : Nat) : dcd_qtd_t := d.qtd.getD i dcd_qtd_t.zero

/-- Store into `dcd_data.qhd[i]`. -/
def dcd_data_t.set_qhd (d : dcd_data_t) (i : Nat) (v : dcd_qhd_t) : dcd_data_t :=
  { d with qhd := d.qhd.set i v }

/-- Store into `dcd_data.qtd[i]`. -/
def dcd_data_t.set_qtd (d : dcd_data_t) (i : Nat) (v : dcd_qtd_t) : dcd_data_t :=
  { d with qtd := d.qtd.set i v }

/-- The value of `(uint32_t) &dcd_data.qtd[i]`: the queue heads take 12 * 64 bytes, each
descriptor 32 bytes (the two `STATIC_ASSERT`s of the source). -/
def qtd_ptr (b : build_t) (i : Nat) : Nat := (b.dcd_data_addr + 64 * DCD_QHD_MAX + 32 * i) % 2 ^ 32

/-- Endpoint handle `endpoint_handle_t`, with the fields the source assigns. -/
structure endpoint_handle_t where
  coreid : Nat
  xfer_type : Nat
  index : Nat
  class_code : Nat
  deriving DecidableEq, Repr

/-- The fields of an endpoint descriptor `tusb_descriptor_endpoint_t` that the source reads:
`bEndpointAddress`, `bmAttributes.xfer` and `wMaxPacketSize.size`. -/
structure tusb_descriptor_endpoint_t where
  bEndpointAddress : Nat
  bmAttributes_xfer : Nat
  wMaxPacketSize_size : Nat
  deriving DecidableEq, Repr

/-- The registers of `LPC_USB0` that the source reads or writes; `ENDPTCTRL` holds
`ENDPTCTRL0` .. `ENDPTCTRL5`, which the source addresses as `(&ENDPTCTRL0) + n`. -/
structure LPC_USB0_t where
  USBCMD_D : Nat
  USBSTS_D : Nat
  USBINTR_D : Nat
  DEVICEADDR : Nat
  ENDPOINTLISTADDR : Nat
  ENDPTNAK : Nat
  ENDPTNAKEN : Nat
  ENDPTSETUPSTAT : Nat
  ENDPTPRIME : Nat
  ENDPTFLUSH : Nat
  ENDPTSTAT : Nat
  ENDPTCOMPLETE : Nat
  ENDPTCTRL : List Nat
  deriving DecidableEq, Repr

/-- A call made by the driver into a function defined elsewhere. -/
inductive call_t where
  | hal_debugger_breakpoint
  | usbd_bus_reset (coreid : Nat)
  | usbd_setup_received_isr (coreid : Nat) (request : tusb_control_request_t)
  | usbd_xfer_isr (edpt_hdl : endpoint_handle_t) (event : tusb_event_t) (xferred_bytes : Int)
  deriving DecidableEq, Repr

/-- The state the driver works on: the pool, the registers and the calls made so far
(oldest first). -/
structure system_t where
  dcd_data : dcd_data_t
  LPC_USB0 : LPC_USB0_t
  calls : List call_t
  deriving DecidableEq, Repr

/-- A write of `v` to a register whose bits are cleared by writing one (the source
acknowledges `USBSTS_D`, `ENDPTSETUPSTAT`, `ENDPTCOMPLETE` and `ENDPTNAK` by writing back
what it read). -/
def w1c (reg v : Nat) : Nat := reg ^^^ (reg &&& v)

/-! ## Pipe helpers -/

/-- Bit position to physical slot: `edpt_pos2phy` (the subtraction is done on `int` and the
result is stored into a `uint8_t`). -/
def edpt_pos2phy (pos : Nat) : Nat :=
  if pos < DCD_QHD_MAX / 2 then (2 * pos) % 256
  else ((2 * ((pos : Int) - 16) + 1) % 256).toNat

/-- Physical slot to bit position: `edpt_phy2pos`. -/
def edpt_phy2pos (physical_endpoint : Nat) : Nat :=
  (physical_endpoint / 2 + (if physical_endpoint % 2 ≠ 0 then 16 else 0)) % 256

/-- Endpoint address to physical slot: `edpt_addr2phy`. -/
def edpt_addr2phy (endpoint_addr : Nat) : Nat :=
  (2 * (endpoint_addr &&& 0x0F) +
    (if endpoint_addr &&& TUSB_DIR_DEV_TO_HOST_MASK ≠ 0 then 1 else 0)) % 256

/-- Physical slot to endpoint number: `edpt_phy2log`. -/
def edpt_phy2log (physical_endpoint : Nat) : Nat := physical_endpoint / 2

/-- The loop `for(i=1; i<5; i++) buffer[i] |= align4k(buffer[i-1]) + 4096` of `qtd_init`,
run for the indices `i`, `i+1`, ... (`n` of them). -/
def qtd_init_pages : Nat → Nat → List Nat → List Nat
  | 0, _, buffer => buffer
  | n + 1, i, buffer =>
    qtd_init_pages n (i + 1)
      (buffer.set i ((buffer.getD i 0 ||| (align4k (buffer.getD (i - 1) 0) + 4096)) % 2 ^ 32))

/-- The descriptor that `qtd_init` leaves at `p_qtd` (it does not depend on the previous
content, which `memclr_` erases). -/
def qtd_init (data_ptr total_bytes : Nat) : dcd_qtd_t :=
  let q0 : dcd_qtd_t := dcd_qtd_t.zero
  let q1 : dcd_qtd_t := { q0 with used := 1 }
  let q2 : dcd_qtd_t := { q1 with next := QTD_NEXT_INVALID }
  let q3 : dcd_qtd_t := { q2 with active := 1 }
  let q4 : dcd_qtd_t := { q3 with expected_bytes := total_bytes % 2 ^ 16 }
  let q5 : dcd_qtd_t := { q4 with total_bytes := q4.expected_bytes % 2 ^ 15 }
  if data_ptr ≠ 0 then
    { q5 with buffer := qtd_init_pages 4 1 (q5.buffer.set 0 (data_ptr % 2 ^ 32)) }
  else q5

/-- First free descriptor outside the control ones, `qtd_find_free`; 0 when there is none. -/
def qtd_find_free (_coreid : Nat) (d : dcd_data_t) : Nat :=
  ((List.range' 2 (DCD_QTD_MAX - 2)).find? (fun i => (d.qtd_at i).used == 0)).getD 0

/-- The loop of `pipe_add_xfer` that looks for a free slot in the list of a queue head:
the first position holding 0, or `DCD_QTD_PER_QHD_MAX` when there is none. -/
def find_free_slot (list_qtd_idx : List Nat) : Nat :=
  ((List.range DCD_QTD_PER_QHD_MAX).find? (fun k => list_qtd_idx.getD k 0 == 0)).getD
    DCD_QTD_PER_QHD_MAX

/-! ## Control pipe API -/

/-- Control transfer on the two reserved slots, `dcd_pipe_control_xfer`: refused with
`TUSB_ERROR_FAILED` while the overlay of one of the control queue heads is active; the data
phase uses descriptor 0, the status phase descriptor 1 on the other control queue head, and
both are handed to the controller by one write to `ENDPTPRIME`. -/
def dcd_pipe_control_xfer (b : build_t) (_coreid dir buffer length : Nat) (s : system_t) :
    tusb_error_t × system_t :=
  let endpoint_data : Nat := if dir = TUSB_DIR_DEV_TO_HOST then 1 else 0
  if (s.dcd_data.qhd_at 0).qtd_overlay.active ≠ 0 ∨ (s.dcd_data.qhd_at 1).qtd_overlay.active ≠ 0
  then (tusb_error_t.TUSB_ERROR_FAILED, s)
  else
    let d1 : dcd_data_t :=
      if length ≠ 0 then
        let d0 := s.dcd_data.set_qtd 0 (qtd_init buffer length)
        let q := d0.qhd_at endpoint_data
        d0.set_qhd endpoint_data
          { q with qtd_overlay := { q.qtd_overlay with next := qtd_ptr b 0 } }
      else s.dcd_data
    let d2 := d1.set_qtd 1 (qtd_init 0 0)
    let q := d2.qhd_at (1 - endpoint_data)
    let d3 := d2.set_qhd (1 - endpoint_data)
      { q with qtd_overlay := { q.qtd_overlay with next := qtd_ptr b 1 } }
    let regs : LPC_USB0_t :=
      { s.LPC_USB0 with
        ENDPTPRIME := (s.LPC_USB0.ENDPTPRIME |||
          (BIT_ (edpt_phy2pos (1 - endpoint_data)) |||
            (if length ≠ 0 then BIT_ (edpt_phy2pos endpoint_data) else 0))) % 2 ^ 32 }
    (tusb_error_t.TUSB_ERROR_NONE, { s with dcd_data := d3, LPC_USB0 := regs })

/-! ## Bulk/interrupt pipe API -/

/-- Stall of an endpoint, `dcd_pipe_stall`: the stall bit of the direction of the handle is
set in the control register of its endpoint. -/
def dcd_pipe_stall (edpt_hdl : endpoint_handle_t) (s : system_t) : tusb_error_t × system_t :=
  let n := edpt_phy2log edpt_hdl.index
  let reg_control := s.LPC_USB0.ENDPTCTRL.getD n 0
  let v := (reg_control |||
    (ENDPTCTRL_MASK_STALL <<< (if edpt_hdl.index &&& 0x01 ≠ 0 then 16 else 0))) % 2 ^ 32
  (tusb_error_t.TUSB_ERROR_NONE,
    { s with LPC_USB0 := { s.LPC_USB0 with ENDPTCTRL := s.LPC_USB0.ENDPTCTRL.set n v } })

/-- Busy test of an endpoint, `dcd_pipe_is_busy`:
`!p_qhd->qtd_overlay.halted && p_qhd->qtd_overlay.active`. -/
def dcd_pipe_is_busy (edpt_hdl : endpoint_handle_t) (s : system_t) : Bool :=
  let p_qhd := s.dcd_data.qhd_at edpt_hdl.index
  (p_qhd.qtd_overlay.halted == 0) && (p_qhd.qtd_overlay.active != 0)

/-- Opening of a non-control endpoint, `dcd_pipe_open`; the null handle is returned for an
isochronous endpoint and for an endpoint that is already enabled. -/
def dcd_pipe_open (coreid : Nat) (p_endpoint_desc : tusb_descriptor_endpoint_t)
    (class_code : Nat) (s : system_t) : endpoint_handle_t × system_t :=
  let null_handle : endpoint_handle_t := { coreid := 0, xfer_type := 0, index := 0, class_code := 0 }
  if p_endpoint_desc.bmAttributes_xfer = TUSB_XFER_ISOCHRONOUS then (null_handle, s)
  else
    let dir : Nat :=
      if p_endpoint_desc.bEndpointAddress &&& TUSB_DIR_DEV_TO_HOST_MASK ≠ 0 then 1 else 0
    let n := p_endpoint_desc.bEndpointAddress &&& 0x0f
    let reg_control := s.LPC_USB0.ENDPTCTRL.getD n 0
    if reg_control &&& (ENDPTCTRL_MASK_ENABLE <<< (if dir ≠ 0 then 16 else 0)) ≠ 0 then
      (null_handle, s)
    else
      let ep_idx := edpt_addr2phy p_endpoint_desc.bEndpointAddress
      let q0 : dcd_qhd_t := dcd_qhd_t.zero
      let q1 : dcd_qhd_t := { q0 with class_code := class_code % 2 ^ 8 }
      let q2 : dcd_qhd_t := { q1 with xfer_type := p_endpoint_desc.bmAttributes_xfer % 2 ^ 8 }
      let q3 : dcd_qhd_t := { q2 with zero_length_termination := 1 }
      let q4 : dcd_qhd_t := { q3 with max_package_size := p_endpoint_desc.wMaxPacketSize_size % 2 ^ 11 }
      let q5 : dcd_qhd_t := { q4 with qtd_overlay := { q4.qtd_overlay with next := QTD_NEXT_INVALID } }
      let v := (reg_control |||
        (((p_endpoint_desc.bmAttributes_xfer <<< 2) ||| ENDPTCTRL_MASK_ENABLE |||
          ENDPTCTRL_MASK_TOGGLE_RESET) <<< (if dir ≠ 0 then 16 else 0))) % 2 ^ 32
      ({ coreid := coreid, xfer_type := p_endpoint_desc.bmAttributes_xfer, index := ep_idx,
         class_code := class_code },
       { s with
         dcd_data := s.dcd_data.set_qhd ep_idx q5
         LPC_USB0 := { s.LPC_USB0 with ENDPTCTRL := s.LPC_USB0.ENDPTCTRL.set n v } })

/-- Enqueue of a transfer without touching the controller, `pipe_add_xfer`. -/
def pipe_add_xfer (b : build_t) (edpt_hdl : endpoint_handle_t) (buffer total_bytes : Nat)
    (int_on_complete : Bool) (s : system_t) : tusb_error_t × system_t :=
  if edpt_hdl.xfer_type = TUSB_XFER_ISOCHRONOUS then
    (tusb_error_t.TUSB_ERROR_NOT_SUPPORTED_YET, s)
  else
    let qtd_idx := qtd_find_free edpt_hdl.coreid s.dcd_data
    if qtd_idx = 0 then (tusb_error_t.TUSB_ERROR_DCD_NOT_ENOUGH_QTD, s)
    else
      let p_qhd := s.dcd_data.qhd_at edpt_hdl.index
      let free_slot := find_free_slot p_qhd.list_qtd_idx
      if ¬ free_slot < DCD_QTD_PER_QHD_MAX then (tusb_error_t.TUSB_ERROR_DCD_NOT_ENOUGH_QTD, s)
      else
        let p_qhd1 : dcd_qhd_t :=
          { p_qhd with list_qtd_idx := p_qhd.list_qtd_idx.set free_slot qtd_idx }
        let d1 := s.dcd_data.set_qhd edpt_hdl.index p_qhd1
        let p_qtd : dcd_qtd_t :=
          { qtd_init buffer total_bytes with int_on_complete := if int_on_complete then 1 else 0 }
        let d2 := d1.set_qtd qtd_idx p_qtd
        let d3 :=
          if free_slot > 0 then
            let tail := (d2.qhd_at edpt_hdl.index).list_qtd_idx.getD (free_slot - 1) 0
            d2.set_qtd tail { d2.qtd_at tail with next := qtd_ptr b qtd_idx }
          else d2
        (tusb_error_t.TUSB_ERROR_NONE, { s with dcd_data := d3 })

/-- Enqueue without notification, `dcd_pipe_queue_xfer`. -/
def dcd_pipe_queue_xfer (b : build_t) (edpt_hdl : endpoint_handle_t) (buffer total_bytes : Nat)
    (s : system_t) : tusb_error_t × system_t :=
  pipe_add_xfer b edpt_hdl buffer total_bytes false s

/-- Enqueue and hand the queue to the controller, `dcd_pipe_xfer`. -/
def dcd_pipe_xfer (b : build_t) (edpt_hdl : endpoint_handle_t) (buffer total_bytes : Nat)
    (int_on_complete : Bool) (s : system_t) : tusb_error_t × system_t :=
  match pipe_add_xfer b edpt_hdl buffer total_bytes int_on_complete s with
  | (tusb_error_t.TUSB_ERROR_NONE, s1) =>
    let p_qhd := s1.dcd_data.qhd_at edpt_hdl.index
    let head := p_qhd.list_qtd_idx.getD 0 0
    let p_qhd1 : dcd_qhd_t :=
      { p_qhd with qtd_overlay := { p_qhd.qtd_overlay with next := qtd_ptr b head } }
    let d1 := s1.dcd_data.set_qhd edpt_hdl.index p_qhd1
    let regs : LPC_USB0_t :=
      { s1.LPC_USB0 with
        ENDPTPRIME := (s1.LPC_USB0.ENDPTPRIME ||| BIT_ (edpt_phy2pos edpt_hdl.index)) % 2 ^ 32 }
    (tusb_error_t.TUSB_ERROR_NONE, { s1 with dcd_data := d1, LPC_USB0 := regs })
  | (e, s1) => (e, s1)

/-! ## Bus reset -/

/-- Bus reset, `bus_reset`.  The two polling loops `while (ENDPTPRIME);` and
`while (ENDPTFLUSH);` wait for the controller; they are modelled by the state in which they
are left (the register reads 0). -/
def bus_reset (b : build_t) (_coreid : Nat) (s : system_t) : system_t :=
  let r := s.LPC_USB0
  let v := ((TUSB_XFER_BULK <<< 2) ||| (TUSB_XFER_BULK <<< 18)) % 2 ^ 32
  let r1 : LPC_USB0_t :=
    { r with ENDPTCTRL := ((((r.ENDPTCTRL.set 5 v).set 4 v).set 3 v).set 2 v).set 1 v }
  let r2 : LPC_USB0_t := { r1 with ENDPTNAK := w1c r1.ENDPTNAK r1.ENDPTNAK }
  let r3 : LPC_USB0_t := { r2 with ENDPTNAKEN := 0 }
  let r4 : LPC_USB0_t := { r3 with USBSTS_D := w1c r3.USBSTS_D r3.USBSTS_D }
  let r5 : LPC_USB0_t := { r4 with ENDPTSETUPSTAT := w1c r4.ENDPTSETUPSTAT r4.ENDPTSETUPSTAT }
  let r6 : LPC_USB0_t := { r5 with ENDPTCOMPLETE := w1c r5.ENDPTCOMPLETE r5.ENDPTCOMPLETE }
  let r7 : LPC_USB0_t := { r6 with ENDPTPRIME := 0 }
  let r8 : LPC_USB0_t := { r7 with ENDPTFLUSH := 0 }
  let d0 := dcd_data_t.zero
  let q0 : dcd_qhd_t := { d0.qhd_at 0 with zero_length_termination := 1 }
  let q1 : dcd_qhd_t := { d0.qhd_at 1 with zero_length_termination := 1 }
  let q0a : dcd_qhd_t :=
    { q0 with max_package_size := b.TUSB_CFG_DEVICE_CONTROL_ENDOINT_SIZE % 2 ^ 11 }
  let q1a : dcd_qhd_t :=
    { q1 with max_package_size := b.TUSB_CFG_DEVICE_CONTROL_ENDOINT_SIZE % 2 ^ 11 }
  let q0b : dcd_qhd_t := { q0a with qtd_overlay := { q0a.qtd_overlay with next := QTD_NEXT_INVALID } }
  let q1b : dcd_qhd_t := { q1a with qtd_overlay := { q1a.qtd_overlay with next := QTD_NEXT_INVALID } }
  let q0c : dcd_qhd_t := { q0b with int_on_setup := 1 }
  { s with dcd_data := (d0.set_qhd 1 q1b).set_qhd 0 q0c, LPC_USB0 := r8 }

/-! ## Interrupt handler -/

/-- The effect of `memmove(a, a+1, n)` on a byte array `a`: the `n` bytes that follow the
first one are copied one place down, the rest of the array is left as it is. -/
def memmove_down (a : List Nat) (n : Nat) : List Nat := (a.drop 1).take n ++ a.drop n

/-- Outcome of one evaluation of a loop: the loop is left, or its body has run. -/
inductive iter_t where
  | leave : iter_t
  | again : system_t → iter_t
  deriving DecidableEq, Repr

/-- One pass through `while( p_qhd->list_qtd_idx[0] != 0 ) { ... }` of `xfer_complete_isr`
for the queue head `ep_idx`: the condition, the `break` on a still-active descriptor, and
the body that frees the head descriptor, shifts the list and reports the transfer. -/
def retire_body (ep_idx : Nat) (edpt_hdl : endpoint_handle_t) (s : system_t) : iter_t :=
  let p_qhd := s.dcd_data.qhd_at ep_idx
  let head := p_qhd.list_qtd_idx.getD 0 0
  if head = 0 then iter_t.leave
  else
    let p_qtd := s.dcd_data.qtd_at head
    if p_qtd.active ≠ 0 then iter_t.leave
    else
      let d1 := s.dcd_data.set_qtd head { p_qtd with used := 0 }
      let p_qhd1 := d1.qhd_at ep_idx
      let d2 := d1.set_qhd ep_idx
        { p_qhd1 with
          list_qtd_idx := memmove_down p_qhd1.list_qtd_idx (DCD_QTD_PER_QHD_MAX - 1) }
      let p_qtd1 := d2.qtd_at head
      if p_qtd1.int_on_complete ≠ 0 then
        let event :=
          if p_qtd1.xact_err ≠ 0 ∨ p_qtd1.halted ≠ 0 ∨ p_qtd1.buffer_err ≠ 0 then
            tusb_event_t.TUSB_EVENT_XFER_ERROR
          else tusb_event_t.TUSB_EVENT_XFER_COMPLETE
        iter_t.again
          { s with
            dcd_data := d2
            calls := s.calls ++
              [call_t.usbd_xfer_isr edpt_hdl event
                ((p_qtd1.expected_bytes : Int) - (p_qtd1.total_bytes : Int))] }
      else iter_t.again { s with dcd_data := d2 }

/-- The `while` loop of `xfer_complete_isr` for one queue head; `none` when `fuel`
evaluations of the loop do not reach its end. -/
def retire_loop (ep_idx : Nat) (edpt_hdl : endpoint_handle_t) : Nat → system_t → Option system_t
  | 0, _ => none
  | fuel + 1, s =>
    match retire_body ep_idx edpt_hdl s with
    | iter_t.leave => some s
    | iter_t.again s1 => retire_loop ep_idx edpt_hdl fuel s1

/-- The state after at most `n` runs of the body of the `while` loop of
`xfer_complete_isr` (fewer when the loop is left earlier). -/
def retire_steps (ep_idx : Nat) (edpt_hdl : endpoint_handle_t) : Nat → system_t → system_t
  | 0, s => s
  | n + 1, s =>
    match retire_body ep_idx edpt_hdl s with
    | iter_t.leave => s
    | iter_t.again s1 => retire_steps ep_idx edpt_hdl n s1

/-- The body of `for(ep_idx = 2; ep_idx < DCD_QHD_MAX; ep_idx++)` of `xfer_complete_isr`. -/
def xfer_complete_slot (fuel coreid reg_complete ep_idx : Nat) (s : system_t) :
    Option system_t :=
  if BIT_TEST_ reg_complete (edpt_phy2pos ep_idx) then
    let p_qhd := s.dcd_data.qhd_at ep_idx
    let edpt_hdl : endpoint_handle_t :=
      { coreid := coreid, xfer_type := p_qhd.xfer_type, index := ep_idx,
        class_code := p_qhd.class_code }
    retire_loop ep_idx edpt_hdl fuel s
  else some s

/-- Completion pass `xfer_complete_isr(uint8_t coreid, uint8_t reg_complete)`: the argument
is converted to the 8-bit parameter.  Each `while` loop may be evaluated `fuel` times. -/
def xfer_complete_isr (fuel coreid reg_complete : Nat) (s : system_t) : Option system_t :=
  let reg_complete := reg_complete % 2 ^ 8
  let s0 : system_t :=
    if reg_complete &&& BIT_ (3 + 16) ≠ 0 then
      { s with calls := s.calls ++ [call_t.hal_debugger_breakpoint] }
    else s
  (List.range' 2 (DCD_QHD_MAX - 2)).foldlM
    (fun s1 ep_idx => xfer_complete_slot fuel coreid reg_complete ep_idx s1) s0

/-- The setup part of `dcd_isr` (`if (LPC_USB0->ENDPTSETUPSTAT) { ... }`).  The polling
loops on `ENDPTFLUSH` and `ENDPTSTAT` wait for the controller; they are modelled by the
state in which they are left (`ENDPTFLUSH` reads 0 and bits 0 and 16 of `ENDPTSTAT` read 0). -/
def dcd_isr_setup (coreid : Nat) (s : system_t) : system_t :=
  if s.LPC_USB0.ENDPTSETUPSTAT ≠ 0 then
    let control_request := (s.dcd_data.qhd_at 0).setup_request
    let r1 : LPC_USB0_t :=
      { s.LPC_USB0 with
        ENDPTSETUPSTAT := w1c s.LPC_USB0.ENDPTSETUPSTAT s.LPC_USB0.ENDPTSETUPSTAT }
    let s1 : system_t := { s with LPC_USB0 := r1 }
    let s2 : system_t :=
      if (s1.dcd_data.qhd_at 0).qtd_overlay.active ≠ 0 ∨
          (s1.dcd_data.qhd_at 1).qtd_overlay.active ≠ 0 then
        let r2 : LPC_USB0_t :=
          { s1.LPC_USB0 with
            ENDPTFLUSH := 0
            ENDPTSTAT := w1c s1.LPC_USB0.ENDPTSTAT (BIT_ 0 ||| BIT_ 16) }
        let q1 := s1.dcd_data.qhd_at 1
        let d1 := s1.dcd_data.set_qhd 1 { q1 with qtd_overlay := { q1.qtd_overlay with active := 0 } }
        let q0 := d1.qhd_at 0
        let d2 := d1.set_qhd 0 { q0 with qtd_overlay := { q0.qtd_overlay with active := 0 } }
        { s1 with dcd_data := d2, LPC_USB0 := r2 }
      else s1
    { s2 with calls := s2.calls ++ [call_t.usbd_setup_received_isr coreid control_request] }
  else s

/-- The completion part of `dcd_isr` (`if (LPC_USB0->ENDPTCOMPLETE) { ... }`). -/
def dcd_isr_complete (fuel coreid : Nat) (s : system_t) : Option system_t :=
  if s.LPC_USB0.ENDPTCOMPLETE ≠ 0 then
    let edpt_complete := s.LPC_USB0.ENDPTCOMPLETE
    let r1 : LPC_USB0_t :=
      { s.LPC_USB0 with ENDPTCOMPLETE := w1c s.LPC_USB0.ENDPTCOMPLETE edpt_complete }
    xfer_complete_isr fuel coreid edpt_complete { s with LPC_USB0 := r1 }
  else some s

/-- Interrupt handler `dcd_isr`; `none` when a retire loop does not end within `fuel`
evaluations.  The handlers of the SOF, suspend, port change and NAK bits are empty in the
source and the error bit only asserts, so that none of them changes the state. -/
def dcd_isr (b : build_t) (fuel coreid : Nat) (s : system_t) : Option system_t :=
  let int_status := s.LPC_USB0.USBSTS_D &&& s.LPC_USB0.USBINTR_D
  let s1 : system_t :=
    { s with LPC_USB0 := { s.LPC_USB0 with USBSTS_D := w1c s.LPC_USB0.USBSTS_D int_status } }
  if int_status = 0 then some s1
  else
    let s2 : system_t :=
      if int_status &&& INT_MASK_RESET ≠ 0 then
        let s2a := bus_reset b coreid s1
        { s2a with calls := s2a.calls ++ [call_t.usbd_bus_reset coreid] }
      else s1
    if int_status &&& INT_MASK_USB ≠ 0 then
      dcd_isr_complete fuel coreid (dcd_isr_setup coreid s2)
    else some s2

/-! ## The controller -/

/-- Modelled from the spec: the controller finishing descriptor `i` without error (a
synthetic completion): it clears `active`, sets no error flag and leaves 0 bytes remaining. -/
def hw_qtd_done (i : Nat) (s : system_t) : system_t :=
  { s with
    dcd_data := s.dcd_data.set_qtd i { s.dcd_data.qtd_at i with active := 0, total_bytes := 0 } }

/-- Modelled from the spec: the controller raising the USB transaction interrupt with the
completion bit of physical slot `phy` set in `ENDPTCOMPLETE` (a synthetic completion
interrupt). -/
def hw_raise_complete (phy : Nat) (s : system_t) : system_t :=
  { s with
    LPC_USB0 :=
      { s.LPC_USB0 with
        USBSTS_D := s.LPC_USB0.USBSTS_D ||| INT_MASK_USB
        ENDPTCOMPLETE := s.LPC_USB0.ENDPTCOMPLETE ||| BIT_ (edpt_phy2pos phy) } }

/-! ## Example states -/

/-- A build: `dcd_data` at the start of the USB RAM, control endpoint size 64. -/
def ex_build : build_t := { dcd_data_addr := 0x20000000, TUSB_CFG_DEVICE_CONTROL_ENDOINT_SIZE := 64 }

/-- Registers after `dcd_init` (interrupts enabled), nothing pending. -/
def ex_regs : LPC_USB0_t :=
  { USBCMD_D := 0, USBSTS_D := 0, USBINTR_D := 0x147, DEVICEADDR := 0,
    ENDPOINTLISTADDR := 0x20000000, ENDPTNAK := 0, ENDPTNAKEN := 0, ENDPTSETUPSTAT := 0,
    ENDPTPRIME := 0, ENDPTFLUSH := 0, ENDPTSTAT := 0, ENDPTCOMPLETE := 0,
    ENDPTCTRL := [0, 0, 0, 0, 0, 0] }

/-- The state after a bus reset. -/
def ex_reset : system_t :=
  bus_reset ex_build 0 { dcd_data := dcd_data_t.zero, LPC_USB0 := ex_regs, calls := [] }

/-- Endpoint descriptor of the bulk OUT endpoint 1 (address 0x01, max packet 64). -/
def ex_desc_out : tusb_descriptor_endpoint_t :=
  { bEndpointAddress := 0x01, bmAttributes_xfer := TUSB_XFER_BULK, wMaxPacketSize_size := 64 }

/-- Endpoint descriptor of the bulk IN endpoint 1 (address 0x81, max packet 64). -/
def ex_desc_in : tusb_descriptor_endpoint_t :=
  { bEndpointAddress := 0x81, bmAttributes_xfer := TUSB_XFER_BULK, wMaxPacketSize_size := 64 }

/-- Handle of the bulk OUT endpoint 1 as `dcd_pipe_open` returns it (physical slot 2). -/
def ex_ep1_out : endpoint_handle_t := (dcd_pipe_open 0 ex_desc_out 3 ex_reset).1

/-- Handle of the bulk IN endpoint 1 as `dcd_pipe_open` returns it (physical slot 3). -/
def ex_ep1_in : endpoint_handle_t :=
  (dcd_pipe_open 0 ex_desc_in 3 (dcd_pipe_open 0 ex_desc_out 3 ex_reset).2).1

/-- The state after a bus reset and the opening of the endpoints 1 OUT and 1 IN. -/
def ex_opened : system_t :=
  (dcd_pipe_open 0 ex_desc_in 3 (dcd_pipe_open 0 ex_desc_out 3 ex_reset).2).2

/-- A handle for physical slot 2 whose transfer type is isochronous. -/
def ex_iso : endpoint_handle_t :=
  { coreid := 0, xfer_type := TUSB_XFER_ISOCHRONOUS, index := 2, class_code := 3 }

/-- One transfer enqueued on endpoint 1 OUT with `dcd_pipe_queue_xfer`. -/
def ex_one_queued : system_t := (dcd_pipe_queue_xfer ex_build ex_ep1_out 0x10000100 512 ex_opened).2

/-- Two transfers on endpoint 1 OUT: one enqueued, then one started with `dcd_pipe_xfer`. -/
def ex_two_queued : system_t :=
  (dcd_pipe_xfer ex_build ex_ep1_out 0x10000300 512 true ex_one_queued).2

/-- The two transfers on endpoint 1 OUT, the first one (descriptor 2) finished by the
controller, the second one (descriptor 3) still active. -/
def ex_first_done : system_t := hw_qtd_done 2 ex_two_queued

/-- The two transfers on endpoint 1 OUT, both finished by the controller. -/
def ex_both_done : system_t := hw_qtd_done 3 ex_first_done

/-- Two transfers started on endpoint 1 OUT with `dcd_pipe_xfer`, of 512 bytes (descriptor 2)
and of 256 bytes (descriptor 3), both with `int_on_complete`, both finished by the
controller. -/
def ex_two_notified : system_t :=
  hw_qtd_done 3
    (hw_qtd_done 2
      (dcd_pipe_xfer ex_build ex_ep1_out 0x10000300 256 true
        (dcd_pipe_xfer ex_build ex_ep1_out 0x10000100 512 true ex_opened).2).2)

/-- Two transfers started on endpoint 1 IN with `dcd_pipe_xfer` (descriptors 2 and 3), both
with `int_on_complete`, both finished by the controller, which raises the completion
interrupt for physical slot 3 (bit 17 of `ENDPTCOMPLETE`). -/
def ex_in_two_done : system_t :=
  hw_raise_complete 3
    (hw_qtd_done 3
      (hw_qtd_done 2
        (dcd_pipe_xfer ex_build ex_ep1_in 0x10000300 256 true
          (dcd_pipe_xfer ex_build ex_ep1_in 0x10000100 512 true ex_opened).2).2))

/-- One transfer started on endpoint 1 IN (descriptor 2), finished by the controller, which
raises the completion interrupt for physical slot 3 (bit 17 of `ENDPTCOMPLETE`). -/
def ex_in_done : system_t :=
  hw_raise_complete 3
    (hw_qtd_done 2 (dcd_pipe_xfer ex_build ex_ep1_in 0x10000100 512 true ex_opened).2)

/-- One transfer of 512 bytes started on endpoint 1 OUT (descriptor 2), finished by the
controller, which raises the completion interrupt for physical slot 2 (bit 1 of
`ENDPTCOMPLETE`). -/
def ex_out_done : system_t :=
  hw_raise_complete 2
    (hw_qtd_done 2 (dcd_pipe_xfer ex_build ex_ep1_out 0x10000100 512 true ex_opened).2)

/-- The endpoints 2 OUT, 2 IN, 3 OUT and 3 IN opened as well (physical slots 4 to 7). -/
def ex_opened_more : system_t :=
  [0x02, 0x82, 0x03, 0x83].foldl
    (fun s a =>
      (dcd_pipe_open 0
        { bEndpointAddress := a, bmAttributes_xfer := TUSB_XFER_BULK, wMaxPacketSize_size := 64 }
        3 s).2)
    ex_opened

/-- Two transfers enqueued on each of the physical slots 3 to 7, which takes the ten
descriptors 2..11; the queue of endpoint 1 OUT (physical slot 2) is empty. -/
def ex_pool_used : system_t :=
  [3, 4, 5, 6, 7].foldl
    (fun s i =>
      (dcd_pipe_queue_xfer ex_build
        { coreid := 0, xfer_type := TUSB_XFER_BULK, index := i, class_code := 3 } 0x10000100 64
        (dcd_pipe_queue_xfer ex_build
          { coreid := 0, xfer_type := TUSB_XFER_BULK, index := i, class_code := 3 } 0x10000100 64
          s).2).2)
    ex_opened_more

/-- The two transfers on endpoint 1 OUT after the completion pass for physical slot 2 that
follows the end of the first one (descriptor 2). -/
def ex_first_retired : system_t :=
  (xfer_complete_isr 2 0 (BIT_ (edpt_phy2pos 2)) ex_first_done).getD ex_reset

/-- A setup packet: GET_DESCRIPTOR (device), 64 bytes. -/
def ex_request : tusb_control_request_t :=
  { bytes := [0x80, 0x06, 0x00, 0x01, 0x00, 0x00, 0x40, 0x00] }

/-- A control transfer of 64 bytes, device-to-host, accepted after the endpoints were
opened; the controller then made the overlay of queue head 1 active, and before the
transfer ended it captured a new setup packet in queue head 0 (`ENDPTSETUPSTAT` bit 0) and
raised the USB transaction interrupt. -/
def ex_setup_pending : system_t :=
  let s := (dcd_pipe_control_xfer ex_build 0 TUSB_DIR_DEV_TO_HOST 0x10000100 64 ex_opened).2
  let q0 := s.dcd_data.qhd_at 0
  let q1 := s.dcd_data.qhd_at 1
  { s with
    dcd_data :=
      (s.dcd_data.set_qhd 1 { q1 with qtd_overlay := { q1.qtd_overlay with active := 1 } }).set_qhd
        0 { q0 with setup_request := ex_request }
    LPC_USB0 := { s.LPC_USB0 with USBSTS_D := INT_MASK_USB, ENDPTSETUPSTAT := 1 } }

/-- The state in which `dcd_isr` returns from `ex_setup_pending`. -/
def ex_setup_handled : system_t := (dcd_isr ex_build 0 0 ex_setup_pending).getD ex_reset

/-! ## Sequences of calls -/

/-- A sequence of `dcd_pipe_open` calls, each given by its core, its endpoint descriptor
and its class code; the handles returned are dropped. -/
def open_all : List (Nat × tusb_descriptor_endpoint_t × Nat) → system_t → system_t
  | [], s => s
  | (c, desc, cc) :: rest, s => open_all rest (dcd_pipe_open c desc cc s).2

/-- A sequence of `pipe_add_xfer` calls, each given by its handle, buffer, length and
`int_on_complete`, that all succeed; `none` as soon as one of them fails. -/
def enqueue_all (b : build_t) :
    List (endpoint_handle_t × Nat × Nat × Bool) → system_t → Option system_t
  | [], s => some s
  | (hdl, buf, len, ioc) :: rest, s =>
    if (pipe_add_xfer b hdl buf len ioc s).1 = tusb_error_t.TUSB_ERROR_NONE then
      enqueue_all b rest (pipe_add_xfer b hdl buf len ioc s).2
    else none

/-- The number of descriptors of the shared pool (index 2..11) that are in use. -/
def used_count (d : dcd_data_t) : Nat :=
  (List.range' 2 (DCD_QTD_MAX - 2)).countP (fun j => (d.qtd_at j).used != 0)

/-- The ten bulk endpoints 1 OUT, 1 IN, ..., 5 OUT, 5 IN, each opened on core 0 with class
code 3. -/
def ex_ten_opens : List (Nat × tusb_descriptor_endpoint_t × Nat) :=
  [0x01, 0x81, 0x02, 0x82, 0x03, 0x83, 0x04, 0x84, 0x05, 0x85].map (fun a =>
    (0, { bEndpointAddress := a, bmAttributes_xfer := TUSB_XFER_BULK,
          wMaxPacketSize_size := 64 }, 3))

/-- One transfer of 512 bytes for each of the physical slots 2..11. -/
def ex_ten_reqs : List (endpoint_handle_t × Nat × Nat × Bool) :=
  (List.range' 2 10).map (fun i =>
    ({ coreid := 0, xfer_type := TUSB_XFER_BULK, index := i, class_code := 3 },
      0x10000000 + 0x200 * i, 512, true))

/-- The state after a bus reset, the opening of the ten endpoints and one transfer enqueued
on each of them: the ten descriptors of the shared pool are in use. -/
def ex_pool_full : system_t :=
  (enqueue_all ex_build ex_ten_reqs (open_all ex_ten_opens
    (bus_reset ex_build 0 { dcd_data := dcd_data_t.zero, LPC_USB0 := ex_regs, calls := [] }))).getD
    ex_reset

/-- The full pool after the controller finished descriptor 2 (the transfer of endpoint
1 OUT) and the completion pass for physical slot 2 retired it. -/
def ex_pool_one_free : system_t :=
  (xfer_complete_isr 2 0 (BIT_ (edpt_phy2pos 2)) (hw_qtd_done 2 ex_pool_full)).getD ex_reset

/-! ## Reachable states -/

/-- Modelled from the spec: a step of the controller between two calls of the driver.  It
may clear `active` flags and write status, remaining bytes and overlays, but it changes
neither the size of the arrays, nor the list of a queue head, nor the `used` flag of a
descriptor, which only the driver maintains. -/
def hw_step (s t : system_t) : Prop :=
  t.dcd_data.qhd.length = s.dcd_data.qhd.length ∧
  t.dcd_data.qtd.length = s.dcd_data.qtd.length ∧
  (∀ i, (t.dcd_data.qhd_at i).list_qtd_idx = (s.dcd_data.qhd_at i).list_qtd_idx) ∧
  (∀ j, (t.dcd_data.qtd_at j).used = (s.dcd_data.qtd_at j).used)

/-- The states that the driver reaches from a bus reset through `dcd_pipe_open`,
`pipe_add_xfer`, `dcd_pipe_queue_xfer`, `dcd_pipe_xfer`, completion passes of
`xfer_complete_isr` that return, and steps of the controller. -/
inductive reachable (b : build_t) : system_t → Prop where
  | by_reset (c : Nat) (s0 : system_t) : reachable b (bus_reset b c s0)
  | by_open (c : Nat) (desc : tusb_descriptor_endpoint_t) (cc : Nat) (s : system_t) :
      reachable b s → reachable b (dcd_pipe_open c desc cc s).2
  | by_add (hdl : endpoint_handle_t) (buf len : Nat) (ioc : Bool) (s : system_t) :
      reachable b s → reachable b (pipe_add_xfer b hdl buf len ioc s).2
  | by_queue (hdl : endpoint_handle_t) (buf len : Nat) (s : system_t) :
      reachable b s → reachable b (dcd_pipe_queue_xfer b hdl buf len s).2
  | by_xfer (hdl : endpoint_handle_t) (buf len : Nat) (ioc : Bool) (s : system_t) :
      reachable b s → reachable b (dcd_pipe_xfer b hdl buf len ioc s).2
  | by_complete (fuel c reg_complete : Nat) (s t : system_t) :
      reachable b s → xfer_complete_isr fuel c reg_complete s = some t → reachable b t
  | by_hw (s t : system_t) : reachable b s → hw_step s t → reachable b t

/-- The invariant of the lists of the queue heads: the descriptor array has its
`DCD_QTD_MAX` entries; every list has two slots, the second one empty when the first one
is; every descriptor named in a list is used; a descriptor named in the list of one queue
head is not named in the list of another one. -/
def pool_inv (d : dcd_data_t) : Prop :=
  d.qtd.length = DCD_QTD_MAX ∧
  (∀ i, ∃ a c, (d.qhd_at i).list_qtd_idx = [a, c] ∧ (a = 0 → c = 0)) ∧
  (∀ i, ∀ e ∈ (d.qhd_at i).list_qtd_idx, e ≠ 0 → (d.qtd_at e).used = 1) ∧
  (∀ i j, i ≠ j → ∀ e ∈ (d.qhd_at i).list_qtd_idx, e ≠ 0 →
    e ∉ (d.qhd_at j).list_qtd_idx)

/-! ## Views of the pool used in the proofs -/

/-- The pool after the two stores of `pipe_add_xfer` into the list of queue head `index`
(slot `k` receives `q`) and into descriptor `q` (which receives `v`). -/
def add_stored (d : dcd_data_t) (index k q : Nat) (v : dcd_qtd_t) : dcd_data_t :=
  (d.set_qhd index
    { d.qhd_at index with list_qtd_idx := (d.qhd_at index).list_qtd_idx.set k q }).set_qtd q v

/-- The descriptor that `pipe_add_xfer` prepares: `qtd_init` followed by the store into
`int_on_complete`. -/
def add_qtd (buf len : Nat) (ioc : Bool) : dcd_qtd_t :=
  { qtd_init buf len with int_on_complete := if ioc then 1 else 0 }

/-- The pool after the last statement of `pipe_add_xfer`: when `k > 0` the descriptor in
slot `k - 1` of the list of queue head `index` gets the address of descriptor `q` as next
pointer. -/
def add_linked (b : build_t) (d : dcd_data_t) (index k q : Nat) : dcd_data_t :=
  if k > 0 then
    d.set_qtd ((d.qhd_at index).list_qtd_idx.getD (k - 1) 0)
      { d.qtd_at ((d.qhd_at index).list_qtd_idx.getD (k - 1) 0) with next := qtd_ptr b q }
  else d

/-- The pool after one run of the body of the retire loop of queue head `ep_idx`: the
descriptor at the head of the list is freed and the list is shifted by `memmove`. -/
def retired (d : dcd_data_t) (ep_idx : Nat) : dcd_data_t :=
  (d.set_qtd ((d.qhd_at ep_idx).list_qtd_idx.getD 0 0)
    { d.qtd_at ((d.qhd_at ep_idx).list_qtd_idx.getD 0 0) with used := 0 }).set_qhd ep_idx
    { d.qhd_at ep_idx with
      list_qtd_idx := memmove_down (d.qhd_at ep_idx).list_qtd_idx (DCD_QTD_PER_QHD_MAX - 1) }

/-- The calls that the body of the retire loop makes for the descriptor `q` it retires. -/
def xfer_report (edpt_hdl : endpoint_handle_t) (q : dcd_qtd_t) : List call_t :=
  if q.int_on_complete ≠ 0 then
    [call_t.usbd_xfer_isr edpt_hdl
      (if q.xact_err ≠ 0 ∨ q.halted ≠ 0 ∨ q.buffer_err ≠ 0 then
        tusb_event_t.TUSB_EVENT_XFER_ERROR
      else tusb_event_t.TUSB_EVENT_XFER_COMPLETE)
      ((q.expected_bytes : Int) - (q.total_bytes : Int))]
  else []

/-- The pool after the data phase of `dcd_pipe_control_xfer` on the control queue head `e`:
descriptor 0 is initialised and attached to the overlay of the queue head. -/
def control_data_phase (b : build_t) (d : dcd_data_t) (e buf len : Nat) : dcd_data_t :=
  (d.set_qtd 0 (qtd_init buf len)).set_qhd e
    { (d.set_qtd 0 (qtd_init buf len)).qhd_at e with
      qtd_overlay :=
        { ((d.set_qtd 0 (qtd_init buf len)).qhd_at e).qtd_overlay with next := qtd_ptr b 0 } }

/-- The pool after the status phase of `dcd_pipe_control_xfer`, the data phase being on the
control queue head `e`: descriptor 1 is initialised with length 0 and attached to the
overlay of the other control queue head. -/
def control_status_phase (b : build_t) (d : dcd_data_t) (e : Nat) : dcd_data_t :=
  (d.set_qtd 1 (qtd_init 0 0)).set_qhd (1 - e)
    { (d.set_qtd 1 (qtd_init 0 0)).qhd_at (1 - e) with
      qtd_overlay :=
        { ((d.set_qtd 1 (qtd_init 0 0)).qhd_at (1 - e)).qtd_overlay with next := qtd_ptr b 1 } }

/-- The handle that `dcd_pipe_open` returns when it refuses to open the endpoint. -/
def null_handle : endpoint_handle_t := { coreid := 0, xfer_type := 0, index := 0, class_code := 0 }

/-- The bit offset of the direction of an endpoint address in its control register
(`dir ? 16 : 0`). -/
def dir_shift (endpoint_addr : Nat) : Nat :=
  if endpoint_addr &&& TUSB_DIR_DEV_TO_HOST_MASK ≠ 0 then 16 else 0

/-- The queue head that `dcd_pipe_open` prepares. -/
def opened_qhd (desc : tusb_descriptor_endpoint_t) (class_code : Nat) : dcd_qhd_t :=
  { dcd_qhd_t.zero with
    class_code := class_code % 2 ^ 8
    xfer_type := desc.bmAttributes_xfer % 2 ^ 8
    zero_length_termination := 1
    max_package_size := desc.wMaxPacketSize_size % 2 ^ 11
    qtd_overlay := { dcd_qhd_t.zero.qtd_overlay with next := QTD_NEXT_INVALID } }

/-- The value that `dcd_pipe_open` writes to the control register of the endpoint, `r`
being the value read. -/
def opened_ctrl (desc : tusb_descriptor_endpoint_t) (r : Nat) : Nat :=
  (r ||| (((desc.bmAttributes_xfer <<< 2) ||| ENDPTCTRL_MASK_ENABLE |||
    ENDPTCTRL_MASK_TOGGLE_RESET) <<< dir_shift desc.bEndpointAddress)) % 2 ^ 32

/-- Whether a call is a call of `usbd_setup_received_isr`. -/
def is_setup_call : call_t → Bool
  | call_t.usbd_setup_received_isr _ _ => true
  | _ => false

/-- The state after `dcd_isr` acknowledged the interrupts it handles (the write back to
`USBSTS_D`). -/
def isr_acked (s : system_t) : system_t :=
  { s with
    LPC_USB0 :=
      { s.LPC_USB0 with
        USBSTS_D := w1c s.LPC_USB0.USBSTS_D (s.LPC_USB0.USBSTS_D &&& s.LPC_USB0.USBINTR_D) } }

/-- The state after the reset part of `dcd_isr`: `bus_reset`, then the call of
`usbd_bus_reset`. -/
def isr_reset_done (b : build_t) (coreid : Nat) (s : system_t) : system_t :=
  { bus_reset b coreid (isr_acked s) with
    calls := (bus_reset b coreid (isr_acked s)).calls ++ [call_t.usbd_bus_reset coreid] }

/-! ## Auxiliary facts on the data model -/

theorem getD_set_eq {α : Type} (l : List α) (i j : Nat) (v d : α) :
    (l.set i v).getD j d = if i = j ∧ i < l.length then v else l.getD j d := by
  simp only [List.getD_eq_getElem?_getD, List.getElem?_set]
  by_cases h : i = j
  · subst h
    by_cases h2 : i < l.length
    · simp [h2]
    · have h3 : l.length ≤ i := Nat.le_of_not_lt h2
      simp [h2, List.getElem?_eq_none h3]
  · simp [h]

theorem qhd_at_set_qtd (d : dcd_data_t) (i j : Nat) (v : dcd_qtd_t) :
    (d.set_qtd i v).qhd_at j = d.qhd_at j := rfl

theorem qtd_at_set_qhd (d : dcd_data_t) (i j : Nat) (v : dcd_qhd_t) :
    (d.set_qhd i v).qtd_at j = d.qtd_at j := rfl

theorem qtd_at_set_qtd (d : dcd_data_t) (i j : Nat) (v : dcd_qtd_t) :
    (d.set_qtd i v).qtd_at j = if i = j ∧ i < d.qtd.length then v else d.qtd_at j := by
  exact getD_set_eq d.qtd i j v dcd_qtd_t.zero

theorem qhd_at_set_qhd (d : dcd_data_t) (i j : Nat) (v : dcd_qhd_t) :
    (d.set_qhd i v).qhd_at j = if i = j ∧ i < d.qhd.length then v else d.qhd_at j := by
  exact getD_set_eq d.qhd i j v dcd_qhd_t.zero

theorem qtd_length_set_qtd (d : dcd_data_t) (i : Nat) (v : dcd_qtd_t) :
    (d.set_qtd i v).qtd.length = d.qtd.length := by
  simp [dcd_data_t.set_qtd]

theorem qtd_length_set_qhd (d : dcd_data_t) (i : Nat) (v : dcd_qhd_t) :
    (d.set_qhd i v).qtd.length = d.qtd.length := rfl

theorem qhd_length_set_qhd (d : dcd_data_t) (i : Nat) (v : dcd_qhd_t) :
    (d.set_qhd i v).qhd.length = d.qhd.length := by
  simp [dcd_data_t.set_qhd]

theorem qhd_length_set_qtd (d : dcd_data_t) (i : Nat) (v : dcd_qtd_t) :
    (d.set_qtd i v).qhd.length = d.qhd.length := rfl

theorem qtd_init_used (data_ptr total_bytes : Nat) : (qtd_init data_ptr total_bytes).used = 1 := by
  unfold qtd_init
  by_cases h : data_ptr ≠ 0 <;> simp [h]

/-- What `qtd_find_free` returns: the least index from 2 on whose descriptor is free, and 0
exactly when no descriptor from 2 on is free. -/
theorem qtd_find_free_spec (c : Nat) (d : dcd_data_t) :
    (qtd_find_free c d ≠ 0 →
      2 ≤ qtd_find_free c d ∧ qtd_find_free c d < DCD_QTD_MAX ∧
      (d.qtd_at (qtd_find_free c d)).used = 0 ∧
      ∀ j, 2 ≤ j → j < qtd_find_free c d → (d.qtd_at j).used ≠ 0) ∧
    (qtd_find_free c d = 0 ↔ ∀ j, 2 ≤ j → j < DCD_QTD_MAX → (d.qtd_at j).used ≠ 0) := by
  unfold qtd_find_free
  cases h : (List.range' 2 (DCD_QTD_MAX - 2)).find? (fun i => (d.qtd_at i).used == 0) with
  | none =>
    rw [List.find?_eq_none] at h
    refine ⟨fun h0 => absurd rfl h0, ?_⟩
    simp only [Option.getD_none, true_iff]
    intro j h2 h12
    have := h j (by rw [List.mem_range'_1]; simp [DCD_QTD_MAX] at *; omega)
    simpa using this
  | some i =>
    rw [List.find?_range'_eq_some] at h
    obtain ⟨hp, hmem, hmin⟩ := h
    have hr : 2 ≤ i ∧ i < DCD_QTD_MAX := by
      rw [List.mem_range'_1] at hmem; simp [DCD_QTD_MAX] at hmem ⊢; omega
    have hu : (d.qtd_at i).used = 0 := by simpa using hp
    simp only [Option.getD_some]
    refine ⟨fun _ => ⟨hr.1, hr.2, hu, ?_⟩, ?_⟩
    · intro j h2 hj
      have := hmin j h2 hj
      simpa using this
    · constructor
      · intro h0; omega
      · intro hall; exact absurd hu (hall i hr.1 hr.2)

/-- The three checks of `pipe_add_xfer`: it succeeds exactly when the handle is not
isochronous, a descriptor is free and the list of the queue head has a free slot. -/
theorem pipe_add_xfer_ok_iff (b : build_t) (hdl : endpoint_handle_t) (buf len : Nat)
    (ioc : Bool) (s : system_t) :
    (pipe_add_xfer b hdl buf len ioc s).1 = tusb_error_t.TUSB_ERROR_NONE ↔
      hdl.xfer_type ≠ TUSB_XFER_ISOCHRONOUS ∧ qtd_find_free hdl.coreid s.dcd_data ≠ 0 ∧
      find_free_slot (s.dcd_data.qhd_at hdl.index).list_qtd_idx < DCD_QTD_PER_QHD_MAX := by
  unfold pipe_add_xfer
  by_cases h1 : hdl.xfer_type = TUSB_XFER_ISOCHRONOUS
  · simp [h1]
  · by_cases h2 : qtd_find_free hdl.coreid s.dcd_data = 0
    · simp [h1, h2]
    · by_cases h3 : find_free_slot (s.dcd_data.qhd_at hdl.index).list_qtd_idx < DCD_QTD_PER_QHD_MAX
      · simp [h1, h2, h3]
      · simp [h1, h2, h3]

theorem qhd_at_add_stored (d : dcd_data_t) (index k q i : Nat) (v : dcd_qtd_t) :
    (add_stored d index k q v).qhd_at i =
      if index = i ∧ index < d.qhd.length then
        { d.qhd_at index with list_qtd_idx := (d.qhd_at index).list_qtd_idx.set k q }
      else d.qhd_at i := by
  unfold add_stored
  rw [qhd_at_set_qtd, qhd_at_set_qhd]

theorem qtd_at_add_stored (d : dcd_data_t) (index k q j : Nat) (v : dcd_qtd_t) :
    (add_stored d index k q v).qtd_at j =
      if q = j ∧ q < d.qtd.length then v else d.qtd_at j := by
  unfold add_stored
  rw [qtd_at_set_qtd, qtd_length_set_qhd, qtd_at_set_qhd]

theorem qhd_at_add_linked (b : build_t) (d : dcd_data_t) (index k q i : Nat) :
    (add_linked b d index k q).qhd_at i = d.qhd_at i := by
  unfold add_linked
  split
  · rw [qhd_at_set_qtd]
  · rfl

theorem qtd_at_add_linked (b : build_t) (d : dcd_data_t) (index k q j : Nat) :
    (add_linked b d index k q).qtd_at j =
      if 0 < k ∧ (d.qhd_at index).list_qtd_idx.getD (k - 1) 0 = j ∧
          (d.qhd_at index).list_qtd_idx.getD (k - 1) 0 < d.qtd.length then
        { d.qtd_at j with next := qtd_ptr b q }
      else d.qtd_at j := by
  unfold add_linked
  by_cases hk : k > 0
  · rw [if_pos hk, qtd_at_set_qtd]
    by_cases h2 : (d.qhd_at index).list_qtd_idx.getD (k - 1) 0 = j ∧
        (d.qhd_at index).list_qtd_idx.getD (k - 1) 0 < d.qtd.length
    · rw [if_pos h2, if_pos ⟨hk, h2⟩, h2.1]
    · rw [if_neg h2, if_neg (fun hh => h2 hh.2)]
  · rw [if_neg hk, if_neg (fun hh => hk hh.1)]

theorem used_add_linked (b : build_t) (d : dcd_data_t) (index k q j : Nat) :
    ((add_linked b d index k q).qtd_at j).used = (d.qtd_at j).used := by
  rw [qtd_at_add_linked]
  split <;> rfl

theorem add_qtd_used (buf len : Nat) (ioc : Bool) : (add_qtd buf len ioc).used = 1 :=
  qtd_init_used buf len

/-- The pool after a successful `pipe_add_xfer`. -/
theorem pipe_add_xfer_ok_data (b : build_t) (hdl : endpoint_handle_t) (buf len : Nat)
    (ioc : Bool) (s : system_t)
    (h : (pipe_add_xfer b hdl buf len ioc s).1 = tusb_error_t.TUSB_ERROR_NONE) :
    (pipe_add_xfer b hdl buf len ioc s).2.dcd_data =
      add_linked b
        (add_stored s.dcd_data hdl.index
          (find_free_slot (s.dcd_data.qhd_at hdl.index).list_qtd_idx)
          (qtd_find_free hdl.coreid s.dcd_data) (add_qtd buf len ioc))
        hdl.index (find_free_slot (s.dcd_data.qhd_at hdl.index).list_qtd_idx)
        (qtd_find_free hdl.coreid s.dcd_data) := by
  obtain ⟨h1, h2, h3⟩ := (pipe_add_xfer_ok_iff b hdl buf len ioc s).1 h
  unfold pipe_add_xfer add_linked add_stored add_qtd
  simp [h1, h2, h3]

/-- The registers are not touched by `pipe_add_xfer`. -/
theorem pipe_add_xfer_regs (b : build_t) (hdl : endpoint_handle_t) (buf len : Nat)
    (ioc : Bool) (s : system_t) :
    (pipe_add_xfer b hdl buf len ioc s).2.LPC_USB0 = s.LPC_USB0 := by
  unfold pipe_add_xfer
  by_cases h1 : hdl.xfer_type = TUSB_XFER_ISOCHRONOUS
  · simp [h1]
  · by_cases h2 : qtd_find_free hdl.coreid s.dcd_data = 0
    · simp [h1, h2]
    · by_cases h3 : find_free_slot (s.dcd_data.qhd_at hdl.index).list_qtd_idx < DCD_QTD_PER_QHD_MAX
      · simp [h1, h2, h3]
      · simp [h1, h2, h3]

/-- No call into the device stack is made by `pipe_add_xfer`. -/
theorem pipe_add_xfer_calls (b : build_t) (hdl : endpoint_handle_t) (buf len : Nat)
    (ioc : Bool) (s : system_t) :
    (pipe_add_xfer b hdl buf len ioc s).2.calls = s.calls := by
  unfold pipe_add_xfer
  by_cases h1 : hdl.xfer_type = TUSB_XFER_ISOCHRONOUS
  · simp [h1]
  · by_cases h2 : qtd_find_free hdl.coreid s.dcd_data = 0
    · simp [h1, h2]
    · by_cases h3 : find_free_slot (s.dcd_data.qhd_at hdl.index).list_qtd_idx < DCD_QTD_PER_QHD_MAX
      · simp [h1, h2, h3]
      · simp [h1, h2, h3]

theorem pipe_add_xfer_fail_state (b : build_t) (hdl : endpoint_handle_t) (buf len : Nat)
    (ioc : Bool) (s : system_t)
    (h : (pipe_add_xfer b hdl buf len ioc s).1 ≠ tusb_error_t.TUSB_ERROR_NONE) :
    (pipe_add_xfer b hdl buf len ioc s).2 = s := by
  unfold pipe_add_xfer at h ⊢
  by_cases h1 : hdl.xfer_type = TUSB_XFER_ISOCHRONOUS
  · simp [h1]
  · by_cases h2 : qtd_find_free hdl.coreid s.dcd_data = 0
    · simp [h1, h2]
    · by_cases h3 : find_free_slot (s.dcd_data.qhd_at hdl.index).list_qtd_idx < DCD_QTD_PER_QHD_MAX
      · simp [h1, h2, h3] at h
      · simp [h1, h2, h3]

theorem find_free_slot_full (l : List Nat)
    (hfull : ∀ k, k < DCD_QTD_PER_QHD_MAX → l.getD k 0 ≠ 0) :
    find_free_slot l = DCD_QTD_PER_QHD_MAX := by
  unfold find_free_slot
  have : (List.range DCD_QTD_PER_QHD_MAX).find? (fun k => l.getD k 0 == 0) = none := by
    rw [List.find?_eq_none]
    intro k hk
    have := hfull k (List.mem_range.1 hk)
    simpa using this
  rw [this]; rfl

/-- C9: `dcd_pipe_queue_xfer` only enqueues: whatever the handle, the buffer and the length,
and whether it succeeds or fails, every register of the controller (`ENDPTPRIME` among
them) and the transfer overlay of every queue head are left as they were. -/
theorem C9_queue_xfer_pure_enqueue (b : build_t) (hdl : endpoint_handle_t) (buf len : Nat)
    (s : system_t) :
    (dcd_pipe_queue_xfer b hdl buf len s).2.LPC_USB0 = s.LPC_USB0 ∧
    (dcd_pipe_queue_xfer b hdl buf len s).2.LPC_USB0.ENDPTPRIME = s.LPC_USB0.ENDPTPRIME ∧
    ∀ i, ((dcd_pipe_queue_xfer b hdl buf len s).2.dcd_data.qhd_at i).qtd_overlay =
      (s.dcd_data.qhd_at i).qtd_overlay := by
  unfold dcd_pipe_queue_xfer
  by_cases h : (pipe_add_xfer b hdl buf len false s).1 = tusb_error_t.TUSB_ERROR_NONE
  · refine ⟨pipe_add_xfer_regs _ _ _ _ _ _, by rw [pipe_add_xfer_regs], fun i => ?_⟩
    rw [pipe_add_xfer_ok_data b hdl buf len false s h, qhd_at_add_linked, qhd_at_add_stored]
    split
    · next h2 => rw [← h2.1]
    · rfl
  · rw [pipe_add_xfer_fail_state b hdl buf len false s h]
    exact ⟨rfl, rfl, fun _ => rfl⟩

/-- C8 (as amended): for every handle that is not isochronous and whose queue head has both
slots of its list occupied, `pipe_add_xfer` and `dcd_pipe_queue_xfer` return
`TUSB_ERROR_DCD_NOT_ENOUGH_QTD` and leave the whole state (every QHD, every QTD) as it was,
whether or not a descriptor is free; and no call of `pipe_add_xfer`, on any state whose
lists have `DCD_QTD_PER_QHD_MAX` slots, leaves a list with more than `DCD_QTD_PER_QHD_MAX`
occupied slots. -/
theorem C8_full_queue_rejected (b : build_t) (hdl : endpoint_handle_t) (buf len : Nat)
    (ioc : Bool) (s : system_t)
    (hiso : hdl.xfer_type ≠ TUSB_XFER_ISOCHRONOUS)
    (hfull : ∀ k, k < DCD_QTD_PER_QHD_MAX →
      (s.dcd_data.qhd_at hdl.index).list_qtd_idx.getD k 0 ≠ 0) :
    pipe_add_xfer b hdl buf len ioc s = (tusb_error_t.TUSB_ERROR_DCD_NOT_ENOUGH_QTD, s) ∧
    dcd_pipe_queue_xfer b hdl buf len s = (tusb_error_t.TUSB_ERROR_DCD_NOT_ENOUGH_QTD, s) ∧
    ∀ (hdl2 : endpoint_handle_t) (buf2 len2 : Nat) (ioc2 : Bool) (s2 : system_t) (i : Nat),
      (∀ j, (s2.dcd_data.qhd_at j).list_qtd_idx.length = DCD_QTD_PER_QHD_MAX) →
      (((pipe_add_xfer b hdl2 buf2 len2 ioc2 s2).2.dcd_data.qhd_at i).list_qtd_idx.filter
        (fun q => q != 0)).length ≤ DCD_QTD_PER_QHD_MAX := by
  have key : ∀ ioc1, pipe_add_xfer b hdl buf len ioc1 s =
      (tusb_error_t.TUSB_ERROR_DCD_NOT_ENOUGH_QTD, s) := by
    intro ioc1
    have hf := find_free_slot_full _ hfull
    unfold pipe_add_xfer
    by_cases h2 : qtd_find_free hdl.coreid s.dcd_data = 0
    · simp [hiso, h2]
    · simp [hiso, h2, hf]
  refine ⟨key ioc, key false, ?_⟩
  intro hdl2 buf2 len2 ioc2 s2 i hlen
  refine le_trans (List.length_filter_le _ _) (le_of_eq ?_)
  by_cases h : (pipe_add_xfer b hdl2 buf2 len2 ioc2 s2).1 = tusb_error_t.TUSB_ERROR_NONE
  · rw [pipe_add_xfer_ok_data b hdl2 buf2 len2 ioc2 s2 h, qhd_at_add_linked, qhd_at_add_stored]
    split
    · next h2 => simp only [List.length_set]; exact hlen _
    · exact hlen i
  · rw [pipe_add_xfer_fail_state b hdl2 buf2 len2 ioc2 s2 h]
    exact hlen i

/-- C8, witness: endpoint 1 OUT with two transfers queued while descriptor 4 is free. -/
theorem C8_full_queue_rejected_witness :
    ex_ep1_out.xfer_type ≠ TUSB_XFER_ISOCHRONOUS ∧
    (∀ k, k < DCD_QTD_PER_QHD_MAX →
      (ex_two_queued.dcd_data.qhd_at ex_ep1_out.index).list_qtd_idx.getD k 0 ≠ 0) ∧
    qtd_find_free 0 ex_two_queued.dcd_data = 4 ∧
    pipe_add_xfer ex_build ex_ep1_out 0x10000500 64 true ex_two_queued =
      (tusb_error_t.TUSB_ERROR_DCD_NOT_ENOUGH_QTD, ex_two_queued) :=
  ⟨by decide, by decide, by decide,
    (C8_full_queue_rejected ex_build ex_ep1_out 0x10000500 64 true ex_two_queued
      (by decide) (by decide)).1⟩

/-- C8, counterexample to the claim as stated: the list of queue head 2 is full, yet for a
handle of that queue head whose transfer type is isochronous `pipe_add_xfer` and
`dcd_pipe_queue_xfer` return `TUSB_ERROR_NOT_SUPPORTED_YET`, not
`TUSB_ERROR_DCD_NOT_ENOUGH_QTD`. -/
theorem C8_counterexample_iso_handle :
    (∀ k, k < DCD_QTD_PER_QHD_MAX →
      (ex_two_queued.dcd_data.qhd_at ex_iso.index).list_qtd_idx.getD k 0 ≠ 0) ∧
    pipe_add_xfer ex_build ex_iso 0x10000500 64 false ex_two_queued =
      (tusb_error_t.TUSB_ERROR_NOT_SUPPORTED_YET, ex_two_queued) ∧
    dcd_pipe_queue_xfer ex_build ex_iso 0x10000500 64 ex_two_queued =
      (tusb_error_t.TUSB_ERROR_NOT_SUPPORTED_YET, ex_two_queued) := by
  decide

/-- C10: `qtd_find_free` returns the least index in 2..11 whose descriptor has `used = 0`,
and 0 exactly when there is none.  A successful `pipe_add_xfer` takes that descriptor: it
was free at the call, it is used afterwards, the `used` flag of every other descriptor is
unchanged, and a second successful `pipe_add_xfer` that follows (on any handle) takes a
descriptor with another index. -/
theorem C10_lowest_free_descriptor (b : build_t) (s : system_t) (c : Nat)
    (hlen : s.dcd_data.qtd.length = DCD_QTD_MAX) :
    (qtd_find_free c s.dcd_data ≠ 0 →
      2 ≤ qtd_find_free c s.dcd_data ∧ qtd_find_free c s.dcd_data < DCD_QTD_MAX ∧
      (s.dcd_data.qtd_at (qtd_find_free c s.dcd_data)).used = 0 ∧
      ∀ j, 2 ≤ j → j < qtd_find_free c s.dcd_data → (s.dcd_data.qtd_at j).used ≠ 0) ∧
    (qtd_find_free c s.dcd_data = 0 ↔
      ∀ j, 2 ≤ j → j < DCD_QTD_MAX → (s.dcd_data.qtd_at j).used ≠ 0) ∧
    ∀ (hdl : endpoint_handle_t) (buf len : Nat) (ioc : Bool),
      (pipe_add_xfer b hdl buf len ioc s).1 = tusb_error_t.TUSB_ERROR_NONE →
      (s.dcd_data.qtd_at (qtd_find_free hdl.coreid s.dcd_data)).used = 0 ∧
      ((pipe_add_xfer b hdl buf len ioc s).2.dcd_data.qtd_at
        (qtd_find_free hdl.coreid s.dcd_data)).used = 1 ∧
      (∀ j, j ≠ qtd_find_free hdl.coreid s.dcd_data →
        ((pipe_add_xfer b hdl buf len ioc s).2.dcd_data.qtd_at j).used =
          (s.dcd_data.qtd_at j).used) ∧
      ∀ (hdl2 : endpoint_handle_t) (buf2 len2 : Nat) (ioc2 : Bool),
        (pipe_add_xfer b hdl2 buf2 len2 ioc2 (pipe_add_xfer b hdl buf len ioc s).2).1 =
          tusb_error_t.TUSB_ERROR_NONE →
        qtd_find_free hdl2.coreid (pipe_add_xfer b hdl buf len ioc s).2.dcd_data ≠
          qtd_find_free hdl.coreid s.dcd_data := by
  refine ⟨(qtd_find_free_spec c s.dcd_data).1, (qtd_find_free_spec c s.dcd_data).2, ?_⟩
  intro hdl buf len ioc hok
  obtain ⟨_, hq, _⟩ := (pipe_add_xfer_ok_iff b hdl buf len ioc s).1 hok
  obtain ⟨_, hq12, hfree, _⟩ := (qtd_find_free_spec hdl.coreid s.dcd_data).1 hq
  have hused : ∀ j, ((pipe_add_xfer b hdl buf len ioc s).2.dcd_data.qtd_at j).used =
      if j = qtd_find_free hdl.coreid s.dcd_data then 1 else (s.dcd_data.qtd_at j).used := by
    intro j
    rw [pipe_add_xfer_ok_data b hdl buf len ioc s hok, used_add_linked, qtd_at_add_stored]
    by_cases hj : j = qtd_find_free hdl.coreid s.dcd_data
    · rw [if_pos ⟨hj.symm, by rw [hlen]; exact hq12⟩, if_pos hj]; exact add_qtd_used buf len ioc
    · rw [if_neg (fun hh => hj hh.1.symm), if_neg hj]
  refine ⟨hfree, ?_, ?_, ?_⟩
  · rw [hused, if_pos rfl]
  · intro j hj; rw [hused, if_neg hj]
  · intro hdl2 buf2 len2 ioc2 hok2 heq
    obtain ⟨_, hq2, _⟩ := (pipe_add_xfer_ok_iff b hdl2 buf2 len2 ioc2 _).1 hok2
    obtain ⟨_, _, hfree2, _⟩ := (qtd_find_free_spec hdl2.coreid _).1 hq2
    rw [heq, hused, if_pos rfl] at hfree2
    exact absurd hfree2 (by decide)

/-- C10, witness: the state after a bus reset, where descriptor 2 is the lowest free one. -/
theorem C10_lowest_free_descriptor_witness :
    ex_reset.dcd_data.qtd.length = DCD_QTD_MAX ∧
    (qtd_find_free 0 ex_reset.dcd_data ≠ 0 →
      2 ≤ qtd_find_free 0 ex_reset.dcd_data ∧ qtd_find_free 0 ex_reset.dcd_data < DCD_QTD_MAX ∧
      (ex_reset.dcd_data.qtd_at (qtd_find_free 0 ex_reset.dcd_data)).used = 0 ∧
      ∀ j, 2 ≤ j → j < qtd_find_free 0 ex_reset.dcd_data →
        (ex_reset.dcd_data.qtd_at j).used ≠ 0) ∧
    qtd_find_free 0 ex_reset.dcd_data = 2 :=
  ⟨by decide, (C10_lowest_free_descriptor ex_build ex_reset 0 (by decide)).1, by decide⟩

theorem find_free_slot_eq (l : List Nat) :
    find_free_slot l =
      if l.getD 0 0 = 0 then 0 else if l.getD 1 0 = 0 then 1 else 2 := by
  unfold find_free_slot
  show (([0, 1] : List Nat).find? (fun k => l.getD k 0 == 0)).getD 2 = _
  simp only [List.find?]
  generalize l.getD 0 0 = a
  generalize l.getD 1 0 = c
  by_cases h0 : a = 0
  · simp [h0]
  · have e0 : (a == 0) = false := by simpa using h0
    by_cases h1 : c = 0
    · simp [h0, h1, e0]
    · have e1 : (c == 0) = false := by simpa using h1
      simp [h0, h1, e0, e1]

/-- The outcome of `dcd_pipe_xfer` is the one of `pipe_add_xfer`. -/
theorem dcd_pipe_xfer_fst (b : build_t) (hdl : endpoint_handle_t) (buf len : Nat)
    (ioc : Bool) (s : system_t) :
    (dcd_pipe_xfer b hdl buf len ioc s).1 = (pipe_add_xfer b hdl buf len ioc s).1 := by
  unfold dcd_pipe_xfer
  cases h : pipe_add_xfer b hdl buf len ioc s with
  | mk e s1 => cases e <;> rfl

/-- The state after a successful `dcd_pipe_xfer`, from the one after `pipe_add_xfer`. -/
theorem dcd_pipe_xfer_ok_state (b : build_t) (hdl : endpoint_handle_t) (buf len : Nat)
    (ioc : Bool) (s : system_t)
    (h : (pipe_add_xfer b hdl buf len ioc s).1 = tusb_error_t.TUSB_ERROR_NONE) :
    (dcd_pipe_xfer b hdl buf len ioc s).2 =
      { (pipe_add_xfer b hdl buf len ioc s).2 with
        dcd_data := (pipe_add_xfer b hdl buf len ioc s).2.dcd_data.set_qhd hdl.index
          { (pipe_add_xfer b hdl buf len ioc s).2.dcd_data.qhd_at hdl.index with
            qtd_overlay :=
              { ((pipe_add_xfer b hdl buf len ioc s).2.dcd_data.qhd_at hdl.index).qtd_overlay with
                next := qtd_ptr b
                  (((pipe_add_xfer b hdl buf len ioc s).2.dcd_data.qhd_at
                    hdl.index).list_qtd_idx.getD 0 0) } }
        LPC_USB0 :=
          { (pipe_add_xfer b hdl buf len ioc s).2.LPC_USB0 with
            ENDPTPRIME := ((pipe_add_xfer b hdl buf len ioc s).2.LPC_USB0.ENDPTPRIME |||
              BIT_ (edpt_phy2pos hdl.index)) % 2 ^ 32 } } := by
  unfold dcd_pipe_xfer
  cases h2 : pipe_add_xfer b hdl buf len ioc s with
  | mk e s1 =>
    rw [h2] at h
    simp only at h
    subst h
    rfl

/-- C7 (as amended): a successful `dcd_pipe_xfer` always attaches the descriptor at the head
of the list of the queue head (`list_qtd_idx[0]`) to the overlay and always ORs the prime
bit of the endpoint into `ENDPTPRIME`, whether or not the queue was empty before the call;
when the queue was not empty, the head is the descriptor that was the head before. -/
theorem C7_xfer_attaches_head_and_primes (b : build_t) (hdl : endpoint_handle_t)
    (buf len : Nat) (ioc : Bool) (s : system_t)
    (hidx : hdl.index < s.dcd_data.qhd.length)
    (hok : (dcd_pipe_xfer b hdl buf len ioc s).1 = tusb_error_t.TUSB_ERROR_NONE) :
    ((dcd_pipe_xfer b hdl buf len ioc s).2.dcd_data.qhd_at hdl.index).qtd_overlay.next =
      qtd_ptr b
        (((dcd_pipe_xfer b hdl buf len ioc s).2.dcd_data.qhd_at hdl.index).list_qtd_idx.getD 0 0) ∧
    (dcd_pipe_xfer b hdl buf len ioc s).2.LPC_USB0.ENDPTPRIME =
      (s.LPC_USB0.ENDPTPRIME ||| BIT_ (edpt_phy2pos hdl.index)) % 2 ^ 32 ∧
    ((s.dcd_data.qhd_at hdl.index).list_qtd_idx.getD 0 0 ≠ 0 →
      ((dcd_pipe_xfer b hdl buf len ioc s).2.dcd_data.qhd_at hdl.index).list_qtd_idx.getD 0 0 =
        (s.dcd_data.qhd_at hdl.index).list_qtd_idx.getD 0 0) := by
  rw [dcd_pipe_xfer_fst] at hok
  rw [dcd_pipe_xfer_ok_state b hdl buf len ioc s hok]
  have hlen : hdl.index < (pipe_add_xfer b hdl buf len ioc s).2.dcd_data.qhd.length := by
    rw [pipe_add_xfer_ok_data b hdl buf len ioc s hok]
    unfold add_linked add_stored
    split
    · rw [qhd_length_set_qtd, qhd_length_set_qtd, qhd_length_set_qhd]; exact hidx
    · rw [qhd_length_set_qtd, qhd_length_set_qhd]; exact hidx
  dsimp only
  rw [qhd_at_set_qhd, if_pos ⟨rfl, hlen⟩]
  refine ⟨rfl, ?_, ?_⟩
  · rw [pipe_add_xfer_regs]
  · intro hne
    dsimp only
    rw [pipe_add_xfer_ok_data b hdl buf len ioc s hok, qhd_at_add_linked, qhd_at_add_stored,
      if_pos ⟨rfl, hidx⟩]
    dsimp only
    rw [getD_set_eq, if_neg]
    intro hh
    rw [find_free_slot_eq, if_neg hne] at hh
    split at hh <;> omega

/-- C7, witness: endpoint 1 OUT with one transfer already enqueued. -/
theorem C7_xfer_attaches_head_and_primes_witness :
    ex_ep1_out.index < ex_one_queued.dcd_data.qhd.length ∧
    (dcd_pipe_xfer ex_build ex_ep1_out 0x10000300 512 true ex_one_queued).1 =
      tusb_error_t.TUSB_ERROR_NONE ∧
    (dcd_pipe_xfer ex_build ex_ep1_out 0x10000300 512 true ex_one_queued).2.LPC_USB0.ENDPTPRIME =
      (ex_one_queued.LPC_USB0.ENDPTPRIME ||| BIT_ (edpt_phy2pos ex_ep1_out.index)) % 2 ^ 32 :=
  ⟨by decide, by decide,
    (C7_xfer_attaches_head_and_primes ex_build ex_ep1_out 0x10000300 512 true ex_one_queued
      (by decide) (by decide)).2.1⟩

/-- C7, counterexample to the claim as stated: the queue of endpoint 1 OUT already holds one
descriptor (descriptor 2), `dcd_pipe_xfer` succeeds, and both the overlay next pointer of
the queue head (from `QTD_NEXT_INVALID` to the address of descriptor 2) and `ENDPTPRIME`
(from 0 to bit 1) change. -/
theorem C7_counterexample_nonempty_queue :
    (ex_one_queued.dcd_data.qhd_at ex_ep1_out.index).list_qtd_idx = [2, 0] ∧
    (dcd_pipe_xfer ex_build ex_ep1_out 0x10000300 512 true ex_one_queued).1 =
      tusb_error_t.TUSB_ERROR_NONE ∧
    (ex_one_queued.dcd_data.qhd_at ex_ep1_out.index).qtd_overlay.next = QTD_NEXT_INVALID ∧
    ((dcd_pipe_xfer ex_build ex_ep1_out 0x10000300 512 true ex_one_queued).2.dcd_data.qhd_at
      ex_ep1_out.index).qtd_overlay.next = qtd_ptr ex_build 2 ∧
    qtd_ptr ex_build 2 ≠ QTD_NEXT_INVALID ∧
    ex_one_queued.LPC_USB0.ENDPTPRIME = 0 ∧
    (dcd_pipe_xfer ex_build ex_ep1_out 0x10000300 512 true ex_one_queued).2.LPC_USB0.ENDPTPRIME =
      2 := by
  decide
/-- Reading back a descriptor right after its `used` flag has been cleared. -/
theorem qtd_at_clear_used (d : dcd_data_t) (i : Nat) :
    (d.set_qtd i { d.qtd_at i with used := 0 }).qtd_at i = { d.qtd_at i with used := 0 } := by
  rw [qtd_at_set_qtd]
  by_cases h : i < d.qtd.length
  · rw [if_pos ⟨rfl, h⟩]
  · rw [if_neg (fun hh => h hh.2)]
    have h0 : d.qtd_at i = dcd_qtd_t.zero := by
      unfold dcd_data_t.qtd_at
      exact List.getD_eq_default _ _ (Nat.le_of_not_lt h)
    rw [h0]; rfl

/-- The pool after one run of the body of the retire loop of queue head `ep_idx`. -/
theorem retire_body_again (ep_idx : Nat) (hdl : endpoint_handle_t) (s : system_t)
    (hhead : (s.dcd_data.qhd_at ep_idx).list_qtd_idx.getD 0 0 ≠ 0)
    (hinactive :
      (s.dcd_data.qtd_at ((s.dcd_data.qhd_at ep_idx).list_qtd_idx.getD 0 0)).active = 0) :
    retire_body ep_idx hdl s =
      iter_t.again
        { s with
          dcd_data := retired s.dcd_data ep_idx
          calls := s.calls ++
            xfer_report hdl (s.dcd_data.qtd_at ((s.dcd_data.qhd_at ep_idx).list_qtd_idx.getD 0 0)) } := by
  unfold retire_body retired xfer_report
  simp only [qtd_at_set_qhd, qhd_at_set_qtd, qtd_at_clear_used]
  rw [if_neg hhead, if_neg (not_not.2 hinactive)]
  split
  · rfl
  · simp
/-- The retire loop leaves at once when the list is empty or the head descriptor is active. -/
theorem retire_body_leave (ep_idx : Nat) (hdl : endpoint_handle_t) (s : system_t)
    (h : (s.dcd_data.qhd_at ep_idx).list_qtd_idx.getD 0 0 = 0 ∨
      (s.dcd_data.qtd_at ((s.dcd_data.qhd_at ep_idx).list_qtd_idx.getD 0 0)).active ≠ 0) :
    retire_body ep_idx hdl s = iter_t.leave := by
  unfold retire_body
  by_cases h0 : (s.dcd_data.qhd_at ep_idx).list_qtd_idx.getD 0 0 = 0
  · simp only []
    rw [if_pos h0]
  · have h1 := h.resolve_left h0
    simp only []
    rw [if_neg h0, if_pos h1]

/-- A queue head whose list has a non-zero head lies inside the array. -/
theorem qhd_in_range (d : dcd_data_t) (ep_idx : Nat)
    (h : (d.qhd_at ep_idx).list_qtd_idx.getD 0 0 ≠ 0) : ep_idx < d.qhd.length := by
  by_contra hc
  have h0 : d.qhd_at ep_idx = dcd_qhd_t.zero := by
    unfold dcd_data_t.qhd_at
    exact List.getD_eq_default _ _ (Nat.le_of_not_lt hc)
  rw [h0] at h
  exact h rfl

/-- Retiring changes only the `used` flag of a descriptor. -/
theorem qtd_at_retired (d : dcd_data_t) (ep_idx j : Nat) :
    (retired d ep_idx).qtd_at j =
      if (d.qhd_at ep_idx).list_qtd_idx.getD 0 0 = j then { d.qtd_at j with used := 0 }
      else d.qtd_at j := by
  unfold retired
  rw [qtd_at_set_qhd]
  by_cases h : (d.qhd_at ep_idx).list_qtd_idx.getD 0 0 = j
  · rw [if_pos h, ← h, qtd_at_clear_used]
  · rw [if_neg h, qtd_at_set_qtd, if_neg (fun hh => h hh.1)]

theorem active_retired (d : dcd_data_t) (ep_idx j : Nat) :
    ((retired d ep_idx).qtd_at j).active = (d.qtd_at j).active := by
  rw [qtd_at_retired]
  split <;> rfl

/-- Retiring shifts the list of the queue head with `memmove`. -/
theorem list_retired (d : dcd_data_t) (ep_idx : Nat) (h : ep_idx < d.qhd.length) :
    ((retired d ep_idx).qhd_at ep_idx).list_qtd_idx =
      memmove_down (d.qhd_at ep_idx).list_qtd_idx (DCD_QTD_PER_QHD_MAX - 1) := by
  unfold retired
  rw [qhd_at_set_qhd, if_pos ⟨rfl, by rw [qhd_length_set_qtd]; exact h⟩]

/-- The retire loop of a queue head whose list holds two descriptors, both inactive, does
not end: `memmove` copies the second entry over the first one and keeps the second one, so
that the head of the list never becomes 0. -/
theorem retire_loop_diverges (ep_idx : Nat) (hdl : endpoint_handle_t) (D2 : Nat) (h2 : D2 ≠ 0) :
    ∀ (fuel : Nat) (s : system_t) (D1 : Nat), D1 ≠ 0 →
      (s.dcd_data.qhd_at ep_idx).list_qtd_idx = [D1, D2] →
      (s.dcd_data.qtd_at D1).active = 0 → (s.dcd_data.qtd_at D2).active = 0 →
      retire_loop ep_idx hdl fuel s = none := by
  intro fuel
  induction fuel with
  | zero => intro s D1 _ _ _ _; rfl
  | succ n ih =>
    intro s D1 h1 hl ha1 ha2
    have hh : (s.dcd_data.qhd_at ep_idx).list_qtd_idx.getD 0 0 = D1 := by rw [hl]; rfl
    unfold retire_loop
    rw [retire_body_again ep_idx hdl s (by rw [hh]; exact h1) (by rw [hh]; exact ha1)]
    refine ih _ D2 h2 ?_ ?_ ?_
    · show ((retired s.dcd_data ep_idx).qhd_at ep_idx).list_qtd_idx = [D2, D2]
      rw [list_retired _ _ (qhd_in_range _ _ (by rw [hh]; exact h1)), hl]
      rfl
    · show ((retired s.dcd_data ep_idx).qtd_at D2).active = 0
      rw [active_retired]; exact ha2
    · show ((retired s.dcd_data ep_idx).qtd_at D2).active = 0
      rw [active_retired]; exact ha2

/-- C3, the code at the failing input: endpoint 1 OUT holds two descriptors, both finished
by the controller; the completion pass for its completion bit does not end, whatever number
of evaluations its retire loop is given. -/
theorem C3_completion_pass_diverges (fuel : Nat) :
    (ex_both_done.dcd_data.qhd_at 2).list_qtd_idx = [2, 3] ∧
    (ex_both_done.dcd_data.qtd_at 2).active = 0 ∧ (ex_both_done.dcd_data.qtd_at 3).active = 0 ∧
    xfer_complete_isr fuel 0 (BIT_ (edpt_phy2pos 2)) ex_both_done = none := by
  refine ⟨by decide, by decide, by decide, ?_⟩
  unfold xfer_complete_isr
  rw [show List.range' 2 (DCD_QHD_MAX - 2) = 2 :: List.range' 3 9 from rfl, List.foldlM_cons]
  have h1 : xfer_complete_slot fuel 0 (BIT_ (edpt_phy2pos 2) % 2 ^ 8) 2 ex_both_done = none := by
    unfold xfer_complete_slot
    rw [if_pos (by decide)]
    exact retire_loop_diverges 2 _ 3 (by decide) fuel ex_both_done 2 (by decide) (by decide)
      (by decide) (by decide)
  rw [if_neg (by decide), h1]
  rfl
/-- C1, the code at the failing input: endpoint 1 IN (physical slot 3) has one finished
descriptor (descriptor 2) at the head of its list and its completion bit (bit 17) is set
in `ENDPTCOMPLETE` with the USB transaction interrupt pending; `dcd_isr` returns with the
descriptor still used and still at the head of the list, and reports nothing. -/
theorem C1_in_endpoint_not_retired (fuel : Nat) :
    BIT_TEST_ ex_in_done.LPC_USB0.ENDPTCOMPLETE (edpt_phy2pos 3) = true ∧
    ex_in_done.LPC_USB0.USBSTS_D &&& ex_in_done.LPC_USB0.USBINTR_D &&& INT_MASK_USB ≠ 0 ∧
    (ex_in_done.dcd_data.qhd_at 3).list_qtd_idx.getD 0 0 = 2 ∧
    (ex_in_done.dcd_data.qtd_at 2).active = 0 ∧
    (dcd_isr ex_build fuel 0 ex_in_done).map
      (fun s => ((s.dcd_data.qhd_at 3).list_qtd_idx.getD 0 0, (s.dcd_data.qtd_at 2).used,
        s.calls)) = some (2, 1, []) :=
  ⟨by decide, by decide, by decide, by decide, rfl⟩

/-- C2, the code at the failing input: the list of endpoint 1 OUT is `[2, 3]`, descriptor 2
finished and descriptor 3 still active; after the completion pass descriptor 2 is free and
descriptor 3 used, but the list is `[3, 3]`, not `[3, 0]`, and a further `pipe_add_xfer` on
the endpoint is refused. -/
theorem C2_shift_keeps_last_entry (fuel : Nat) :
    (ex_first_done.dcd_data.qhd_at 2).list_qtd_idx = [2, 3] ∧
    (ex_first_done.dcd_data.qtd_at 2).active = 0 ∧
    (ex_first_done.dcd_data.qtd_at 3).active = 1 ∧
    (xfer_complete_isr (fuel + 2) 0 (BIT_ (edpt_phy2pos 2)) ex_first_done).map
      (fun s => ((s.dcd_data.qhd_at 2).list_qtd_idx, (s.dcd_data.qtd_at 2).used,
        (s.dcd_data.qtd_at 3).used,
        (pipe_add_xfer ex_build ex_ep1_out 0x10000500 64 true s).1)) =
      some ([3, 3], 0, 1, tusb_error_t.TUSB_ERROR_DCD_NOT_ENOUGH_QTD) :=
  ⟨by decide, by decide, by decide, rfl⟩

/-- One run of the body of the retire loop on a head descriptor that is inactive: the body
runs, the descriptor is freed, and: if its `int_on_complete` is set, one call `usbd_xfer_isr`
is added, with event `TUSB_EVENT_XFER_ERROR` if one of `xact_err`, `halted`, `buffer_err` is
set and `TUSB_EVENT_XFER_COMPLETE` otherwise, and with byte count
`expected_bytes - total_bytes`; if `int_on_complete` is clear, no call is added. -/
theorem retire_body_report (ep_idx : Nat) (hdl : endpoint_handle_t) (s : system_t)
    (hhead : (s.dcd_data.qhd_at ep_idx).list_qtd_idx.getD 0 0 ≠ 0)
    (hinactive :
      (s.dcd_data.qtd_at ((s.dcd_data.qhd_at ep_idx).list_qtd_idx.getD 0 0)).active = 0) :
    ∃ s1, retire_body ep_idx hdl s = iter_t.again s1 ∧
      (s1.dcd_data.qtd_at ((s.dcd_data.qhd_at ep_idx).list_qtd_idx.getD 0 0)).used = 0 ∧
      ((s.dcd_data.qtd_at ((s.dcd_data.qhd_at ep_idx).list_qtd_idx.getD 0 0)).int_on_complete ≠ 0 →
        s1.calls = s.calls ++
          [call_t.usbd_xfer_isr hdl
            (if (s.dcd_data.qtd_at ((s.dcd_data.qhd_at ep_idx).list_qtd_idx.getD 0 0)).xact_err ≠ 0 ∨
                (s.dcd_data.qtd_at ((s.dcd_data.qhd_at ep_idx).list_qtd_idx.getD 0 0)).halted ≠ 0 ∨
                (s.dcd_data.qtd_at ((s.dcd_data.qhd_at ep_idx).list_qtd_idx.getD 0 0)).buffer_err ≠ 0
              then tusb_event_t.TUSB_EVENT_XFER_ERROR
              else tusb_event_t.TUSB_EVENT_XFER_COMPLETE)
            (((s.dcd_data.qtd_at
                ((s.dcd_data.qhd_at ep_idx).list_qtd_idx.getD 0 0)).expected_bytes : Int) -
              ((s.dcd_data.qtd_at
                ((s.dcd_data.qhd_at ep_idx).list_qtd_idx.getD 0 0)).total_bytes : Int))]) ∧
      ((s.dcd_data.qtd_at ((s.dcd_data.qhd_at ep_idx).list_qtd_idx.getD 0 0)).int_on_complete = 0 →
        s1.calls = s.calls) := by
  refine ⟨_, retire_body_again ep_idx hdl s hhead hinactive, ?_, ?_, ?_⟩
  · show ((retired s.dcd_data ep_idx).qtd_at _).used = 0
    rw [qtd_at_retired, if_pos rfl]
  · intro hioc
    show s.calls ++ xfer_report hdl _ = _
    unfold xfer_report
    rw [if_pos hioc]
  · intro hioc
    show s.calls ++ xfer_report hdl _ = _
    unfold xfer_report
    rw [if_neg (not_not.2 hioc), List.append_nil]

/-- Every run of the body of the retire loop only appends to the calls made. -/
theorem retire_steps_calls (ep_idx : Nat) (hdl : endpoint_handle_t) :
    ∀ (n : Nat) (s : system_t), s.calls <+: (retire_steps ep_idx hdl n s).calls := by
  intro n
  induction n with
  | zero => intro s; exact List.prefix_refl _
  | succ n ih =>
    intro s
    unfold retire_steps
    by_cases h : (s.dcd_data.qhd_at ep_idx).list_qtd_idx.getD 0 0 = 0 ∨
        (s.dcd_data.qtd_at ((s.dcd_data.qhd_at ep_idx).list_qtd_idx.getD 0 0)).active ≠ 0
    · rw [retire_body_leave ep_idx hdl s h]
    · have h0 : (s.dcd_data.qhd_at ep_idx).list_qtd_idx.getD 0 0 ≠ 0 := fun hh => h (Or.inl hh)
      have h1 : (s.dcd_data.qtd_at ((s.dcd_data.qhd_at ep_idx).list_qtd_idx.getD 0 0)).active = 0 :=
        not_not.1 (fun hh => h (Or.inr hh))
      rw [retire_body_again ep_idx hdl s h0 h1]
      exact List.IsPrefix.trans (List.prefix_append _ _)
        (ih { s with
              dcd_data := retired s.dcd_data ep_idx
              calls := s.calls ++
                xfer_report hdl
                  (s.dcd_data.qtd_at ((s.dcd_data.qhd_at ep_idx).list_qtd_idx.getD 0 0)) })

/-- Runs of the body of the retire loop compose. -/
theorem retire_steps_add (ep_idx : Nat) (hdl : endpoint_handle_t) (n : Nat) :
    ∀ (m : Nat) (s : system_t),
      retire_steps ep_idx hdl (m + n) s =
        retire_steps ep_idx hdl n (retire_steps ep_idx hdl m s) := by
  intro m
  induction m with
  | zero => intro s; rw [Nat.zero_add]; rfl
  | succ m ih =>
    intro s
    rw [Nat.succ_add]
    by_cases h : (s.dcd_data.qhd_at ep_idx).list_qtd_idx.getD 0 0 = 0 ∨
        (s.dcd_data.qtd_at ((s.dcd_data.qhd_at ep_idx).list_qtd_idx.getD 0 0)).active ≠ 0
    · have hl := retire_body_leave ep_idx hdl s h
      have e1 : ∀ k, retire_steps ep_idx hdl (k + 1) s = s := by
        intro k; unfold retire_steps; rw [hl]
      rw [e1, e1]
      cases n with
      | zero => rfl
      | succ k => rw [e1]
    · have h0 : (s.dcd_data.qhd_at ep_idx).list_qtd_idx.getD 0 0 ≠ 0 := fun hh => h (Or.inl hh)
      have h1 : (s.dcd_data.qtd_at ((s.dcd_data.qhd_at ep_idx).list_qtd_idx.getD 0 0)).active = 0 :=
        not_not.1 (fun hh => h (Or.inr hh))
      have ha := retire_body_again ep_idx hdl s h0 h1
      have e1 : ∀ k, retire_steps ep_idx hdl (k + 1) s = retire_steps ep_idx hdl k
          { s with
            dcd_data := retired s.dcd_data ep_idx
            calls := s.calls ++
              xfer_report hdl
                (s.dcd_data.qtd_at ((s.dcd_data.qhd_at ep_idx).list_qtd_idx.getD 0 0)) } := by
        intro k
        conv => lhs; unfold retire_steps
        rw [ha]
      rw [e1, e1, ih]

/-- The first two runs of the body of the retire loop of a queue head whose list is
`[D1, D2]`, both descriptors inactive: the first run frees `D1` and reports it (if its
`int_on_complete` is set) while `D2` is still used, the second run frees `D2` and reports
it; whatever further runs do comes after these calls. -/
theorem retire_steps_first_two (ep_idx : Nat) (hdl : endpoint_handle_t) (s : system_t) (D1 D2 : Nat)
    (hl : (s.dcd_data.qhd_at ep_idx).list_qtd_idx = [D1, D2])
    (h1 : D1 ≠ 0) (h2 : D2 ≠ 0) (hne : D1 ≠ D2)
    (hu2 : (s.dcd_data.qtd_at D2).used = 1)
    (ha1 : (s.dcd_data.qtd_at D1).active = 0) (ha2 : (s.dcd_data.qtd_at D2).active = 0) :
    ((retire_steps ep_idx hdl 1 s).dcd_data.qtd_at D1).used = 0 ∧
    ((retire_steps ep_idx hdl 1 s).dcd_data.qtd_at D2).used = 1 ∧
    (retire_steps ep_idx hdl 1 s).calls = s.calls ++ xfer_report hdl (s.dcd_data.qtd_at D1) ∧
    ((retire_steps ep_idx hdl 2 s).dcd_data.qtd_at D2).used = 0 ∧
    (retire_steps ep_idx hdl 2 s).calls =
      s.calls ++ xfer_report hdl (s.dcd_data.qtd_at D1) ++
        xfer_report hdl (s.dcd_data.qtd_at D2) ∧
    ∀ n, 2 ≤ n →
      (s.calls ++ xfer_report hdl (s.dcd_data.qtd_at D1) ++
        xfer_report hdl (s.dcd_data.qtd_at D2)) <+: (retire_steps ep_idx hdl n s).calls := by
  have hh : (s.dcd_data.qhd_at ep_idx).list_qtd_idx.getD 0 0 = D1 := by rw [hl]; rfl
  have hin := qhd_in_range s.dcd_data ep_idx (by rw [hh]; exact h1)
  have hb1 := retire_body_again ep_idx hdl s (by rw [hh]; exact h1) (by rw [hh]; exact ha1)
  rw [hh] at hb1
  have e1 : retire_steps ep_idx hdl 1 s =
      { s with
        dcd_data := retired s.dcd_data ep_idx
        calls := s.calls ++ xfer_report hdl (s.dcd_data.qtd_at D1) } := by
    unfold retire_steps; rw [hb1]; rfl
  have hl1 : ((retired s.dcd_data ep_idx).qhd_at ep_idx).list_qtd_idx = [D2, D2] := by
    rw [list_retired _ _ hin, hl]; rfl
  have hq2 : (retired s.dcd_data ep_idx).qtd_at D2 = s.dcd_data.qtd_at D2 := by
    rw [qtd_at_retired, hh, if_neg hne]
  have hh1 : ((retired s.dcd_data ep_idx).qhd_at ep_idx).list_qtd_idx.getD 0 0 = D2 := by
    rw [hl1]; rfl
  have e2 : retire_steps ep_idx hdl 2 s =
      { s with
        dcd_data := retired (retired s.dcd_data ep_idx) ep_idx
        calls := s.calls ++ xfer_report hdl (s.dcd_data.qtd_at D1) ++
          xfer_report hdl (s.dcd_data.qtd_at D2) } := by
    rw [show (2 : Nat) = 1 + 1 from rfl, retire_steps_add, e1]
    unfold retire_steps
    rw [retire_body_again ep_idx hdl _ (by dsimp only; rw [hh1]; exact h2)
      (by dsimp only; rw [hh1, hq2]; exact ha2)]
    dsimp only [retire_steps]
    rw [hh1, hq2]
  refine ⟨?_, ?_, ?_, ?_, ?_, ?_⟩
  · rw [e1]; dsimp only; rw [qtd_at_retired, hh, if_pos rfl]
  · rw [e1]; dsimp only; rw [hq2]; exact hu2
  · rw [e1]
  · rw [e2]; dsimp only; rw [qtd_at_retired, hh1, if_pos rfl]
  · rw [e2]
  · intro n hn
    obtain ⟨k, rfl⟩ := Nat.exists_eq_add_of_le hn
    rw [retire_steps_add]
    have := retire_steps_calls ep_idx hdl k (retire_steps ep_idx hdl 2 s)
    rw [e2] at this ⊢
    exact this
/-- The fields of the descriptor that `pipe_add_xfer` prepares. -/
theorem add_qtd_fields (buf len : Nat) (ioc : Bool) :
    (add_qtd buf len ioc).int_on_complete = (if ioc then 1 else 0) ∧
    (add_qtd buf len ioc).xact_err = 0 ∧ (add_qtd buf len ioc).halted = 0 ∧
    (add_qtd buf len ioc).buffer_err = 0 ∧
    (add_qtd buf len ioc).expected_bytes = len % 2 ^ 16 ∧
    (add_qtd buf len ioc).active = 1 := by
  unfold add_qtd qtd_init
  by_cases h : buf = 0
  · simp [h, dcd_qtd_t.zero]
  · simp [h, dcd_qtd_t.zero]

/-- A slot whose completion bit is clear is skipped by the completion pass. -/
theorem xfer_complete_slot_skip (fuel c r ep : Nat) (t : system_t)
    (h : BIT_TEST_ r (edpt_phy2pos ep) = false) :
    xfer_complete_slot fuel c r ep t = some t := by
  unfold xfer_complete_slot
  rw [if_neg (by rw [h]; decide)]

/-- The loop over the slots when the completion bit of every slot of the list is clear. -/
theorem fold_slots_none (fuel c r : Nat) :
    ∀ (l : List Nat) (t : system_t),
      (∀ ep ∈ l, BIT_TEST_ r (edpt_phy2pos ep) = false) →
      l.foldlM (fun s1 ep => xfer_complete_slot fuel c r ep s1) t = some t := by
  intro l
  induction l with
  | nil => intro t _; rfl
  | cons a l ih =>
    intro t h
    rw [List.foldlM_cons, xfer_complete_slot_skip fuel c r a t (h a (List.mem_cons_self _ _))]
    exact ih t (fun ep hep => h ep (List.mem_cons_of_mem _ hep))

/-- The loop over the slots when the completion bit of one slot only is set. -/
theorem fold_slots_one (fuel c r idx : Nat) :
    ∀ (l : List Nat) (t : system_t), l.Nodup → idx ∈ l →
      (∀ ep ∈ l, ep ≠ idx → BIT_TEST_ r (edpt_phy2pos ep) = false) →
      l.foldlM (fun s1 ep => xfer_complete_slot fuel c r ep s1) t =
        xfer_complete_slot fuel c r idx t := by
  intro l
  induction l with
  | nil => intro t _ hm _; exact absurd hm (List.not_mem_nil _)
  | cons a l ih =>
    intro t hnd hm h
    rw [List.foldlM_cons]
    rw [List.nodup_cons] at hnd
    by_cases ha : a = idx
    · subst ha
      cases hs : xfer_complete_slot fuel c r a t with
      | none => rfl
      | some t1 =>
        show l.foldlM (fun s1 ep => xfer_complete_slot fuel c r ep s1) t1 = some t1
        exact fold_slots_none fuel c r l t1
          (fun ep hep => h ep (List.mem_cons_of_mem _ hep) (fun he => hnd.1 (he ▸ hep)))
    · rw [xfer_complete_slot_skip fuel c r a t (h a (List.mem_cons_self _ _) ha)]
      have hm2 : idx ∈ l := by
        rcases List.mem_cons.1 hm with h1 | h1
        · exact absurd h1.symm ha
        · exact h1
      exact ih t hnd.2 hm2 (fun ep hep => h ep (List.mem_cons_of_mem _ hep))

/-- The completion pass on a slot whose list holds one descriptor, which is inactive: the
descriptor is retired and the loop ends. -/
theorem xfer_complete_slot_single (n c r idx q : Nat) (t : system_t)
    (hbit : BIT_TEST_ r (edpt_phy2pos idx) = true)
    (hl : (t.dcd_data.qhd_at idx).list_qtd_idx = [q, 0]) (hq : q ≠ 0)
    (ha : (t.dcd_data.qtd_at q).active = 0) :
    xfer_complete_slot (n + 2) c r idx t =
      some
        { t with
          dcd_data := retired t.dcd_data idx
          calls := t.calls ++
            xfer_report
              { coreid := c, xfer_type := (t.dcd_data.qhd_at idx).xfer_type, index := idx,
                class_code := (t.dcd_data.qhd_at idx).class_code }
              (t.dcd_data.qtd_at q) } := by
  have hh : (t.dcd_data.qhd_at idx).list_qtd_idx.getD 0 0 = q := by rw [hl]; rfl
  unfold xfer_complete_slot
  rw [if_pos hbit]
  dsimp only
  unfold retire_loop
  rw [retire_body_again idx _ t (by rw [hh]; exact hq) (by rw [hh]; exact ha), hh]
  dsimp only
  unfold retire_loop
  rw [retire_body_leave]
  left
  show ((retired t.dcd_data idx).qhd_at idx).list_qtd_idx.getD 0 0 = 0
  rw [list_retired _ _ (qhd_in_range _ _ (by rw [hh]; exact hq)), hl]
  rfl

/-- The completion bits of the OUT slots: the bit of a slot is seen by the completion pass,
it is not the bit of another slot, and it is not the bit tested for the breakpoint. -/
theorem out_slot_bits :
    ∀ idx, idx < 12 → 2 ≤ idx → idx % 2 = 0 →
      BIT_ (edpt_phy2pos idx) ≠ 0 ∧
      BIT_ (edpt_phy2pos idx) % 2 ^ 8 &&& BIT_ (3 + 16) = 0 ∧
      BIT_TEST_ (BIT_ (edpt_phy2pos idx) % 2 ^ 8) (edpt_phy2pos idx) = true ∧
      ∀ ep, ep < 12 → ep ≠ idx →
        BIT_TEST_ (BIT_ (edpt_phy2pos idx) % 2 ^ 8) (edpt_phy2pos ep) = false := by
  intro idx h1 h2 h3
  interval_cases idx <;> first
    | exact absurd h3 (by decide)
    | (refine ⟨by decide, by decide, by decide, ?_⟩
       intro ep he hne
       interval_cases ep <;> first
         | exact absurd rfl hne
         | decide)

/-- The completion pass when the only completion bit set is the one of an OUT slot whose
list holds one descriptor, which is inactive. -/
theorem xfer_complete_isr_single (n c idx q : Nat) (t : system_t)
    (hidx : idx < 12 ∧ 2 ≤ idx ∧ idx % 2 = 0)
    (hl : (t.dcd_data.qhd_at idx).list_qtd_idx = [q, 0]) (hq : q ≠ 0)
    (ha : (t.dcd_data.qtd_at q).active = 0) :
    xfer_complete_isr (n + 2) c (BIT_ (edpt_phy2pos idx)) t =
      some
        { t with
          dcd_data := retired t.dcd_data idx
          calls := t.calls ++
            xfer_report
              { coreid := c, xfer_type := (t.dcd_data.qhd_at idx).xfer_type, index := idx,
                class_code := (t.dcd_data.qhd_at idx).class_code }
              (t.dcd_data.qtd_at q) } := by
  obtain ⟨_, hbp, hbit, hoth⟩ := out_slot_bits idx hidx.1 hidx.2.1 hidx.2.2
  unfold xfer_complete_isr
  dsimp only
  rw [if_neg (not_not.2 hbp)]
  rw [fold_slots_one (n + 2) c _ idx _ t (List.nodup_range' _ _)
    (by rw [List.mem_range'_1]; simp only [DCD_QHD_MAX]; omega)
    (fun ep hep hne => hoth ep (by
      rw [List.mem_range'_1] at hep; simp only [DCD_QHD_MAX] at hep; omega) hne)]
  exact xfer_complete_slot_single n c _ idx q t hbit hl hq ha
/-- A bit that is set is seen by `BIT_TEST_`. -/
theorem BIT_TEST_of_testBit (x n : Nat) (h : x.testBit n = true) : BIT_TEST_ x n = true := by
  unfold BIT_TEST_ BIT_
  rw [Nat.one_shiftLeft]
  have h1 : (x &&& 2 ^ n).testBit n = true := by
    rw [Nat.testBit_and, h, Nat.testBit_two_pow_self]; rfl
  have hne : x &&& 2 ^ n ≠ 0 := by
    intro h0
    rw [h0] at h1
    simp at h1
  simpa using hne

/-- The bit that `dcd_pipe_xfer` ORs into `ENDPTPRIME` is set afterwards. -/
theorem prime_bit_set (a p : Nat) (hp : p < 32) :
    BIT_TEST_ ((a ||| BIT_ p) % 2 ^ 32) p = true := by
  apply BIT_TEST_of_testBit
  unfold BIT_
  rw [Nat.one_shiftLeft, Nat.testBit_mod_two_pow, Nat.testBit_or, Nat.testBit_two_pow_self]
  simp [hp]

/-- The setup part of `dcd_isr` does not touch the descriptors. -/
theorem dcd_isr_setup_qtd (c : Nat) (t : system_t) (j : Nat) :
    (dcd_isr_setup c t).dcd_data.qtd_at j = t.dcd_data.qtd_at j := by
  unfold dcd_isr_setup
  split
  · dsimp only
    split
    · rfl
    · rfl
  · rfl

/-- The setup part of `dcd_isr` does not touch the queue heads of the non-control slots. -/
theorem dcd_isr_setup_qhd (c : Nat) (t : system_t) (i : Nat) (hi : 2 ≤ i) :
    (dcd_isr_setup c t).dcd_data.qhd_at i = t.dcd_data.qhd_at i := by
  unfold dcd_isr_setup
  split
  · dsimp only
    split
    · dsimp only
      rw [qhd_at_set_qhd, if_neg (by omega), qhd_at_set_qhd, if_neg (by omega)]
    · rfl
  · rfl

/-- The setup part of `dcd_isr` does not touch `ENDPTCOMPLETE`. -/
theorem dcd_isr_setup_complete (c : Nat) (t : system_t) :
    (dcd_isr_setup c t).LPC_USB0.ENDPTCOMPLETE = t.LPC_USB0.ENDPTCOMPLETE := by
  unfold dcd_isr_setup
  split
  · dsimp only
    split
    · rfl
    · rfl
  · rfl

/-- The call made by the setup part of `dcd_isr`. -/
theorem dcd_isr_setup_calls (c : Nat) (t : system_t) :
    (dcd_isr_setup c t).calls = t.calls ++
      (if t.LPC_USB0.ENDPTSETUPSTAT ≠ 0 then
        [call_t.usbd_setup_received_isr c (t.dcd_data.qhd_at 0).setup_request]
      else []) := by
  unfold dcd_isr_setup
  split
  · dsimp only
    split
    · rfl
    · rfl
  · rw [List.append_nil]

/-- The interrupt handler when the USB transaction interrupt is pending and enabled and no
reset is: the setup part, then the completion part. -/
theorem dcd_isr_usb (b : build_t) (fuel c : Nat) (t : system_t)
    (husb : t.LPC_USB0.USBSTS_D &&& t.LPC_USB0.USBINTR_D &&& INT_MASK_USB ≠ 0)
    (hnoreset : t.LPC_USB0.USBSTS_D &&& t.LPC_USB0.USBINTR_D &&& INT_MASK_RESET = 0) :
    dcd_isr b fuel c t =
      dcd_isr_complete fuel c
        (dcd_isr_setup c
          { t with
            LPC_USB0 :=
              { t.LPC_USB0 with
                USBSTS_D := w1c t.LPC_USB0.USBSTS_D
                  (t.LPC_USB0.USBSTS_D &&& t.LPC_USB0.USBINTR_D) } }) := by
  have h0 : t.LPC_USB0.USBSTS_D &&& t.LPC_USB0.USBINTR_D ≠ 0 := by
    intro h
    rw [h, Nat.zero_and] at husb
    exact husb rfl
  unfold dcd_isr
  dsimp only
  rw [if_neg h0, if_neg (not_not.2 hnoreset), if_pos husb]
/-- The state after `dcd_pipe_xfer` on a queue head whose list is empty, a descriptor being
free: the new descriptor is alone in the list, the type and class of the queue head, the
calls and the other registers are kept. -/
theorem dcd_pipe_xfer_empty_queue (b : build_t) (hdl : endpoint_handle_t) (buf len : Nat)
    (ioc : Bool) (s : system_t)
    (hqhd : hdl.index < s.dcd_data.qhd.length) (hqtd : s.dcd_data.qtd.length = DCD_QTD_MAX)
    (hiso : hdl.xfer_type ≠ TUSB_XFER_ISOCHRONOUS)
    (hempty : (s.dcd_data.qhd_at hdl.index).list_qtd_idx = [0, 0])
    (hfree : qtd_find_free hdl.coreid s.dcd_data ≠ 0) :
    (dcd_pipe_xfer b hdl buf len ioc s).1 = tusb_error_t.TUSB_ERROR_NONE ∧
    ((dcd_pipe_xfer b hdl buf len ioc s).2.dcd_data.qhd_at hdl.index).list_qtd_idx =
      [qtd_find_free hdl.coreid s.dcd_data, 0] ∧
    ((dcd_pipe_xfer b hdl buf len ioc s).2.dcd_data.qhd_at hdl.index).xfer_type =
      (s.dcd_data.qhd_at hdl.index).xfer_type ∧
    ((dcd_pipe_xfer b hdl buf len ioc s).2.dcd_data.qhd_at hdl.index).class_code =
      (s.dcd_data.qhd_at hdl.index).class_code ∧
    (dcd_pipe_xfer b hdl buf len ioc s).2.dcd_data.qtd_at (qtd_find_free hdl.coreid s.dcd_data) =
      add_qtd buf len ioc ∧
    (∀ i, i ≠ hdl.index →
      (dcd_pipe_xfer b hdl buf len ioc s).2.dcd_data.qhd_at i = s.dcd_data.qhd_at i) ∧
    (dcd_pipe_xfer b hdl buf len ioc s).2.LPC_USB0 =
      { s.LPC_USB0 with
        ENDPTPRIME := (s.LPC_USB0.ENDPTPRIME ||| BIT_ (edpt_phy2pos hdl.index)) % 2 ^ 32 } ∧
    (dcd_pipe_xfer b hdl buf len ioc s).2.calls = s.calls := by
  have hk : find_free_slot (s.dcd_data.qhd_at hdl.index).list_qtd_idx = 0 := by
    rw [find_free_slot_eq, hempty]; rfl
  have hadd : (pipe_add_xfer b hdl buf len ioc s).1 = tusb_error_t.TUSB_ERROR_NONE :=
    (pipe_add_xfer_ok_iff b hdl buf len ioc s).2 ⟨hiso, hfree, by rw [hk]; decide⟩
  obtain ⟨_, hq12, _, _⟩ := (qtd_find_free_spec hdl.coreid s.dcd_data).1 hfree
  have hdata := pipe_add_xfer_ok_data b hdl buf len ioc s hadd
  rw [hk] at hdata
  have hlink : ∀ d q, add_linked b d hdl.index 0 q = d := by
    intro d q; unfold add_linked; rw [if_neg (by decide)]
  rw [hlink] at hdata
  have hst := dcd_pipe_xfer_ok_state b hdl buf len ioc s hadd
  have hlen1 : hdl.index < (pipe_add_xfer b hdl buf len ioc s).2.dcd_data.qhd.length := by
    rw [hdata]; unfold add_stored
    rw [qhd_length_set_qtd, qhd_length_set_qhd]; exact hqhd
  refine ⟨by rw [dcd_pipe_xfer_fst]; exact hadd, ?_, ?_, ?_, ?_, ?_, ?_, ?_⟩
  · rw [hst]; dsimp only
    rw [qhd_at_set_qhd, if_pos ⟨rfl, hlen1⟩]
    dsimp only
    rw [hdata, qhd_at_add_stored, if_pos ⟨rfl, hqhd⟩]
    dsimp only
    rw [hempty]; rfl
  · rw [hst]; dsimp only
    rw [qhd_at_set_qhd, if_pos ⟨rfl, hlen1⟩]
    dsimp only
    rw [hdata, qhd_at_add_stored, if_pos ⟨rfl, hqhd⟩]
  · rw [hst]; dsimp only
    rw [qhd_at_set_qhd, if_pos ⟨rfl, hlen1⟩]
    dsimp only
    rw [hdata, qhd_at_add_stored, if_pos ⟨rfl, hqhd⟩]
  · rw [hst]; dsimp only
    rw [qtd_at_set_qhd, hdata, qtd_at_add_stored, if_pos ⟨rfl, by rw [hqtd]; exact hq12⟩]
  · intro i hi
    rw [hst]; dsimp only
    rw [qhd_at_set_qhd, if_neg (fun hh => hi hh.1.symm), hdata, qhd_at_add_stored,
      if_neg (fun hh => hi hh.1.symm)]
  · rw [hst]; dsimp only
    rw [pipe_add_xfer_regs]
  · rw [hst]; dsimp only
    rw [pipe_add_xfer_calls]
/-- C6 (as amended), scenario B: for every handle of a non-control OUT endpoint (even
physical slot in 2..10) that is not isochronous and whose queue is empty, whenever a
descriptor is free, and for every 16-bit length: `dcd_pipe_xfer(handle, buf, len, true)`
succeeds and sets bit `edpt_phy2pos(handle.index)` in `ENDPTPRIME`; if the controller then
finishes the descriptor without error, leaving 0 bytes, and raises the USB transaction
interrupt with only the completion bit of the endpoint set, one `dcd_isr` (no reset
pending) returns and makes exactly one call `usbd_xfer_isr`, with event
`TUSB_EVENT_XFER_COMPLETE` and byte count `len`. -/
theorem C6_scenario_B_out_endpoint (b : build_t) (hdl : endpoint_handle_t)
    (buf len coreid : Nat) (s : system_t)
    (hqhd : s.dcd_data.qhd.length = DCD_QHD_MAX) (hqtd : s.dcd_data.qtd.length = DCD_QTD_MAX)
    (hidx : hdl.index < 12 ∧ 2 ≤ hdl.index ∧ hdl.index % 2 = 0)
    (hiso : hdl.xfer_type ≠ TUSB_XFER_ISOCHRONOUS)
    (hempty : (s.dcd_data.qhd_at hdl.index).list_qtd_idx = [0, 0])
    (hfree : qtd_find_free hdl.coreid s.dcd_data ≠ 0)
    (hlen : len < 2 ^ 16)
    (hcomplete : s.LPC_USB0.ENDPTCOMPLETE = 0)
    (husb : (s.LPC_USB0.USBSTS_D ||| INT_MASK_USB) &&& s.LPC_USB0.USBINTR_D &&& INT_MASK_USB ≠ 0)
    (hnoreset :
      (s.LPC_USB0.USBSTS_D ||| INT_MASK_USB) &&& s.LPC_USB0.USBINTR_D &&& INT_MASK_RESET = 0) :
    (dcd_pipe_xfer b hdl buf len true s).1 = tusb_error_t.TUSB_ERROR_NONE ∧
    BIT_TEST_ (dcd_pipe_xfer b hdl buf len true s).2.LPC_USB0.ENDPTPRIME
      (edpt_phy2pos hdl.index) = true ∧
    ((dcd_pipe_xfer b hdl buf len true s).2.dcd_data.qhd_at hdl.index).list_qtd_idx =
      [qtd_find_free hdl.coreid s.dcd_data, 0] ∧
    ∀ fuel, 2 ≤ fuel →
      ∃ s3,
        dcd_isr b fuel coreid
          (hw_raise_complete hdl.index
            (hw_qtd_done (qtd_find_free hdl.coreid s.dcd_data)
              (dcd_pipe_xfer b hdl buf len true s).2)) = some s3 ∧
        s3.calls = s.calls ++
          (if s.LPC_USB0.ENDPTSETUPSTAT ≠ 0 then
            [call_t.usbd_setup_received_isr coreid (s.dcd_data.qhd_at 0).setup_request]
          else []) ++
          [call_t.usbd_xfer_isr
            { coreid := coreid, xfer_type := (s.dcd_data.qhd_at hdl.index).xfer_type,
              index := hdl.index, class_code := (s.dcd_data.qhd_at hdl.index).class_code }
            tusb_event_t.TUSB_EVENT_XFER_COMPLETE (len : Int)] := by
  obtain ⟨hok, hlist, htype, hclass, hq, hoth, hregs, hcalls⟩ :=
    dcd_pipe_xfer_empty_queue b hdl buf len true s (by rw [hqhd]; exact hidx.1) hqtd hiso hempty
      hfree
  obtain ⟨_, hq12, _, _⟩ := (qtd_find_free_spec hdl.coreid s.dcd_data).1 hfree
  refine ⟨hok, ?_, hlist, ?_⟩
  · rw [hregs]
    dsimp only
    apply prime_bit_set
    unfold edpt_phy2pos
    rw [if_neg (not_not.2 hidx.2.2)]
    have := hidx.1
    omega
  · intro fuel hfuel
    obtain ⟨n, rfl⟩ := Nat.exists_eq_add_of_le hfuel
    rw [Nat.add_comm 2 n]
    -- the state in which the interrupt handler runs
    generalize hP : (dcd_pipe_xfer b hdl buf len true s).2 = P at hlist htype hclass hq hoth hregs hcalls
    have hqP : ∀ (t : system_t), t.dcd_data = (hw_qtd_done (qtd_find_free hdl.coreid s.dcd_data) P).dcd_data →
        (t.dcd_data.qhd_at hdl.index).list_qtd_idx = [qtd_find_free hdl.coreid s.dcd_data, 0] ∧
        (t.dcd_data.qhd_at hdl.index).xfer_type = (s.dcd_data.qhd_at hdl.index).xfer_type ∧
        (t.dcd_data.qhd_at hdl.index).class_code = (s.dcd_data.qhd_at hdl.index).class_code ∧
        (t.dcd_data.qhd_at 0).setup_request = (s.dcd_data.qhd_at 0).setup_request ∧
        t.dcd_data.qtd_at (qtd_find_free hdl.coreid s.dcd_data) =
          { add_qtd buf len true with active := 0, total_bytes := 0 } := by
      intro t ht
      have e1 : P.dcd_data.qtd.length = s.dcd_data.qtd.length := by
        rw [← hP, dcd_pipe_xfer_ok_state b hdl buf len true s
          (by rw [← dcd_pipe_xfer_fst]; exact hok)]
        dsimp only
        rw [qtd_length_set_qhd, pipe_add_xfer_ok_data b hdl buf len true s
          (by rw [← dcd_pipe_xfer_fst]; exact hok)]
        unfold add_linked add_stored
        split
        · rw [qtd_length_set_qtd, qtd_length_set_qtd, qtd_length_set_qhd]
        · rw [qtd_length_set_qtd, qtd_length_set_qhd]
      have hin : qtd_find_free hdl.coreid s.dcd_data < P.dcd_data.qtd.length := by
        rw [e1, hqtd]; exact hq12
      rw [ht]
      unfold hw_qtd_done
      dsimp only
      rw [qhd_at_set_qtd, qhd_at_set_qtd, qtd_at_set_qtd, hq, hoth 0 (by omega),
        if_pos ⟨rfl, hin⟩]
      exact ⟨hlist, htype, hclass, rfl, rfl⟩
    obtain ⟨hTl, hTt, hTc, hTs, hTq⟩ :=
      hqP (hw_raise_complete hdl.index (hw_qtd_done (qtd_find_free hdl.coreid s.dcd_data) P)) rfl
    have hT1 : (hw_raise_complete hdl.index
        (hw_qtd_done (qtd_find_free hdl.coreid s.dcd_data) P)).LPC_USB0.USBSTS_D =
        s.LPC_USB0.USBSTS_D ||| INT_MASK_USB := by
      show P.LPC_USB0.USBSTS_D ||| _ = _
      rw [hregs]
    have hT2 : (hw_raise_complete hdl.index
        (hw_qtd_done (qtd_find_free hdl.coreid s.dcd_data) P)).LPC_USB0.USBINTR_D =
        s.LPC_USB0.USBINTR_D := by
      show P.LPC_USB0.USBINTR_D = _
      rw [hregs]
    have hT3 : (hw_raise_complete hdl.index
        (hw_qtd_done (qtd_find_free hdl.coreid s.dcd_data) P)).LPC_USB0.ENDPTCOMPLETE =
        BIT_ (edpt_phy2pos hdl.index) := by
      show P.LPC_USB0.ENDPTCOMPLETE ||| _ = _
      rw [hregs]
      dsimp only
      rw [hcomplete, Nat.zero_or]
    have hT4 : (hw_raise_complete hdl.index
        (hw_qtd_done (qtd_find_free hdl.coreid s.dcd_data) P)).LPC_USB0.ENDPTSETUPSTAT =
        s.LPC_USB0.ENDPTSETUPSTAT := by
      show P.LPC_USB0.ENDPTSETUPSTAT = _
      rw [hregs]
    have hT5 : (hw_raise_complete hdl.index
        (hw_qtd_done (qtd_find_free hdl.coreid s.dcd_data) P)).calls = s.calls := hcalls
    generalize hw_raise_complete hdl.index
      (hw_qtd_done (qtd_find_free hdl.coreid s.dcd_data) P) = T at hTl hTt hTc hTs hTq hT1 hT2 hT3 hT4 hT5 ⊢
    rw [dcd_isr_usb b _ coreid T (by rw [hT1, hT2]; exact husb) (by rw [hT1, hT2]; exact hnoreset)]
    have hU1 := dcd_isr_setup_complete coreid
      { T with
        LPC_USB0 :=
          { T.LPC_USB0 with
            USBSTS_D := w1c T.LPC_USB0.USBSTS_D (T.LPC_USB0.USBSTS_D &&& T.LPC_USB0.USBINTR_D) } }
    have hU2 := dcd_isr_setup_calls coreid
      { T with
        LPC_USB0 :=
          { T.LPC_USB0 with
            USBSTS_D := w1c T.LPC_USB0.USBSTS_D (T.LPC_USB0.USBSTS_D &&& T.LPC_USB0.USBINTR_D) } }
    have hU3 := dcd_isr_setup_qhd coreid
      { T with
        LPC_USB0 :=
          { T.LPC_USB0 with
            USBSTS_D := w1c T.LPC_USB0.USBSTS_D (T.LPC_USB0.USBSTS_D &&& T.LPC_USB0.USBINTR_D) } }
      hdl.index hidx.2.1
    have hU4 := dcd_isr_setup_qtd coreid
      { T with
        LPC_USB0 :=
          { T.LPC_USB0 with
            USBSTS_D := w1c T.LPC_USB0.USBSTS_D (T.LPC_USB0.USBSTS_D &&& T.LPC_USB0.USBINTR_D) } }
      (qtd_find_free hdl.coreid s.dcd_data)
    generalize dcd_isr_setup coreid
      { T with
        LPC_USB0 :=
          { T.LPC_USB0 with
            USBSTS_D := w1c T.LPC_USB0.USBSTS_D (T.LPC_USB0.USBSTS_D &&& T.LPC_USB0.USBINTR_D) } } = U
      at hU1 hU2 hU3 hU4 ⊢
    dsimp only at hU1 hU2 hU3 hU4
    rw [hT3] at hU1
    rw [hT4, hT5, hTs] at hU2
    rw [hTq] at hU4
    obtain ⟨hbne, _, _, _⟩ := out_slot_bits hdl.index hidx.1 hidx.2.1 hidx.2.2
    unfold dcd_isr_complete
    rw [if_pos (by rw [hU1]; exact hbne)]
    dsimp only
    rw [hU1]
    rw [xfer_complete_isr_single n coreid hdl.index (qtd_find_free hdl.coreid s.dcd_data) _ hidx
      (by dsimp only; rw [hU3, hTl]) (by omega) (by dsimp only; rw [hU4])]
    refine ⟨_, rfl, ?_⟩
    dsimp only
    rw [hU2, hU3, hU4, hTt, hTc]
    unfold xfer_report
    obtain ⟨f1, f2, f3, f4, f5, _⟩ := add_qtd_fields buf len true
    dsimp only
    rw [f1, f2, f3, f4, f5, Nat.mod_eq_of_lt hlen]
    simp
/-- C6, witness: endpoint 1 OUT (address 0x01) right after its opening, `len = 512`. -/
theorem C6_scenario_B_out_endpoint_witness :
    ex_opened.dcd_data.qhd.length = DCD_QHD_MAX ∧ ex_opened.dcd_data.qtd.length = DCD_QTD_MAX ∧
    (ex_ep1_out.index < 12 ∧ 2 ≤ ex_ep1_out.index ∧ ex_ep1_out.index % 2 = 0) ∧
    ex_ep1_out.xfer_type ≠ TUSB_XFER_ISOCHRONOUS ∧
    (ex_opened.dcd_data.qhd_at ex_ep1_out.index).list_qtd_idx = [0, 0] ∧
    qtd_find_free ex_ep1_out.coreid ex_opened.dcd_data ≠ 0 ∧
    (512 : Nat) < 2 ^ 16 ∧
    ex_opened.LPC_USB0.ENDPTCOMPLETE = 0 ∧
    (ex_opened.LPC_USB0.USBSTS_D ||| INT_MASK_USB) &&& ex_opened.LPC_USB0.USBINTR_D &&&
      INT_MASK_USB ≠ 0 ∧
    (ex_opened.LPC_USB0.USBSTS_D ||| INT_MASK_USB) &&& ex_opened.LPC_USB0.USBINTR_D &&&
      INT_MASK_RESET = 0 ∧
    (dcd_pipe_xfer ex_build ex_ep1_out 0x10000100 512 true ex_opened).1 =
      tusb_error_t.TUSB_ERROR_NONE ∧
    BIT_TEST_ (dcd_pipe_xfer ex_build ex_ep1_out 0x10000100 512 true ex_opened).2.LPC_USB0.ENDPTPRIME
      (edpt_phy2pos ex_ep1_out.index) = true ∧
    ∃ s3,
      dcd_isr ex_build 2 0
        (hw_raise_complete ex_ep1_out.index
          (hw_qtd_done (qtd_find_free ex_ep1_out.coreid ex_opened.dcd_data)
            (dcd_pipe_xfer ex_build ex_ep1_out 0x10000100 512 true ex_opened).2)) = some s3 ∧
      s3.calls = ex_opened.calls ++
        (if ex_opened.LPC_USB0.ENDPTSETUPSTAT ≠ 0 then
          [call_t.usbd_setup_received_isr 0 (ex_opened.dcd_data.qhd_at 0).setup_request]
        else []) ++
        [call_t.usbd_xfer_isr
          { coreid := 0, xfer_type := (ex_opened.dcd_data.qhd_at ex_ep1_out.index).xfer_type,
            index := ex_ep1_out.index,
            class_code := (ex_opened.dcd_data.qhd_at ex_ep1_out.index).class_code }
          tusb_event_t.TUSB_EVENT_XFER_COMPLETE ((512 : Nat) : Int)] :=
  ⟨by decide, by decide, by decide, by decide, by decide, by decide, by decide, by decide,
    by decide, by decide,
    (C6_scenario_B_out_endpoint ex_build ex_ep1_out 0x10000100 512 0 ex_opened (by decide)
      (by decide) (by decide) (by decide) (by decide) (by decide) (by decide) (by decide)
      (by decide) (by decide)).1,
    (C6_scenario_B_out_endpoint ex_build ex_ep1_out 0x10000100 512 0 ex_opened (by decide)
      (by decide) (by decide) (by decide) (by decide) (by decide) (by decide) (by decide)
      (by decide) (by decide)).2.1,
    (C6_scenario_B_out_endpoint ex_build ex_ep1_out 0x10000100 512 0 ex_opened (by decide)
      (by decide) (by decide) (by decide) (by decide) (by decide) (by decide) (by decide)
      (by decide) (by decide)).2.2.2 2 (Nat.le_refl 2)⟩

set_option maxRecDepth 4096 in
/-- C6, counterexample to the claim as stated.  First, endpoint 1 OUT is open and its queue
is empty, but the ten descriptors 2..11 are taken by transfers of other endpoints:
`dcd_pipe_xfer` fails with `TUSB_ERROR_DCD_NOT_ENOUGH_QTD`.  Second, on endpoint 1 IN (queue
empty, descriptors free) `dcd_pipe_xfer` succeeds and sets the prime bit, the controller
finishes the descriptor and sets the completion bit of the endpoint, and `dcd_isr` returns
without any call `usbd_xfer_isr`. -/
theorem C6_counterexample_pool_used_and_in_endpoint :
    ((ex_pool_used.dcd_data.qhd_at ex_ep1_out.index).list_qtd_idx = [0, 0] ∧
      ex_ep1_out.xfer_type ≠ TUSB_XFER_ISOCHRONOUS ∧
      (dcd_pipe_xfer ex_build ex_ep1_out 0x10000100 512 true ex_pool_used).1 =
        tusb_error_t.TUSB_ERROR_DCD_NOT_ENOUGH_QTD) ∧
    ((ex_opened.dcd_data.qhd_at ex_ep1_in.index).list_qtd_idx = [0, 0] ∧
      ex_ep1_in.xfer_type ≠ TUSB_XFER_ISOCHRONOUS ∧
      (dcd_pipe_xfer ex_build ex_ep1_in 0x10000100 512 true ex_opened).1 =
        tusb_error_t.TUSB_ERROR_NONE ∧
      BIT_TEST_ (dcd_pipe_xfer ex_build ex_ep1_in 0x10000100 512 true ex_opened).2.LPC_USB0.ENDPTPRIME
        (edpt_phy2pos ex_ep1_in.index) = true ∧
      BIT_TEST_ ex_in_done.LPC_USB0.ENDPTCOMPLETE (edpt_phy2pos ex_ep1_in.index) = true ∧
      (dcd_isr ex_build 2 0 ex_in_done).map (fun s => s.calls) = some []) :=
  ⟨⟨rfl, by decide, rfl⟩, ⟨by decide, by decide, by decide, by decide, by decide, rfl⟩⟩
/-- C12 (as amended): for every buffer and every 16-bit length `len`, the descriptor left by
`qtd_init` has `used = 1`, `next = QTD_NEXT_INVALID`, `active = 1`, `expected_bytes = len`
and `total_bytes = len mod 2^15` (the field has 15 bits); hence
`expected_bytes = total_bytes = len` whenever `len < 2^15`. -/
theorem C12_qtd_init_fields (buf len : Nat) (hlen : len < 2 ^ 16) :
    (qtd_init buf len).used = 1 ∧ (qtd_init buf len).next = QTD_NEXT_INVALID ∧
    (qtd_init buf len).active = 1 ∧ (qtd_init buf len).expected_bytes = len ∧
    (qtd_init buf len).total_bytes = len % 2 ^ 15 ∧
    (len < 2 ^ 15 → (qtd_init buf len).total_bytes = len) := by
  have h16 : len % 2 ^ 16 = len := Nat.mod_eq_of_lt hlen
  have key : (qtd_init buf len).used = 1 ∧ (qtd_init buf len).next = QTD_NEXT_INVALID ∧
      (qtd_init buf len).active = 1 ∧ (qtd_init buf len).expected_bytes = len % 2 ^ 16 ∧
      (qtd_init buf len).total_bytes = len % 2 ^ 16 % 2 ^ 15 := by
    unfold qtd_init
    by_cases h : buf = 0
    · simp [h, dcd_qtd_t.zero]
    · simp [h, dcd_qtd_t.zero]
  rw [h16] at key
  obtain ⟨k1, k2, k3, k4, k5⟩ := key
  exact ⟨k1, k2, k3, k4, k5, fun h15 => by rw [k5, Nat.mod_eq_of_lt h15]⟩

/-- C12, witness: a transfer of 512 bytes. -/
theorem C12_qtd_init_fields_witness :
    (512 : Nat) < 2 ^ 16 ∧ (qtd_init 0x10000100 512).expected_bytes = 512 ∧
    (qtd_init 0x10000100 512).total_bytes = 512 % 2 ^ 15 :=
  ⟨by decide, (C12_qtd_init_fields 0x10000100 512 (by decide)).2.2.2.1,
    (C12_qtd_init_fields 0x10000100 512 (by decide)).2.2.2.2.1⟩

/-- C12, counterexample to the claim as stated: for the 16-bit length 40000 the 15-bit
field `total_bytes` holds 7232 while `expected_bytes` holds 40000. -/
theorem C12_counterexample_length_40000 :
    (40000 : Nat) < 2 ^ 16 ∧ (qtd_init 0x10000100 40000).expected_bytes = 40000 ∧
    (qtd_init 0x10000100 40000).total_bytes = 7232 ∧
    (qtd_init 0x10000100 40000).total_bytes ≠ (qtd_init 0x10000100 40000).expected_bytes := by
  decide

/-- C13 (as amended): after `qtd_init` with a null buffer argument (whatever the length, 0
included) no page pointer is populated, all five entries of `buffer` are 0; with a buffer
argument that is not null the first page pointer is the buffer address, also for length 0. -/
theorem C13_qtd_init_null_buffer (len : Nat) :
    (qtd_init 0 len).buffer = [0, 0, 0, 0, 0] ∧
    ∀ buf, buf ≠ 0 → (qtd_init buf len).buffer.getD 0 0 = buf % 2 ^ 32 := by
  constructor
  · unfold qtd_init
    simp [dcd_qtd_t.zero]
  · intro buf hbuf
    unfold qtd_init
    simp only [hbuf, ne_eq, not_false_eq_true, if_true]
    rfl

/-- C13, counterexample to the claim as stated: with the buffer address `0x10000100` and
length 0 the five page pointers are populated. -/
theorem C13_counterexample_buffer_length_0 :
    (qtd_init 0x10000100 0).buffer =
      [0x10000100, 0x10001000, 0x10002000, 0x10003000, 0x10004000] ∧
    (qtd_init 0x10000100 0).total_bytes = 0 := by
  decide
theorem qtd_at_control_data (b : build_t) (d : dcd_data_t) (e buf len j : Nat) :
    (control_data_phase b d e buf len).qtd_at j =
      if 0 = j ∧ 0 < d.qtd.length then qtd_init buf len else d.qtd_at j := by
  unfold control_data_phase
  rw [qtd_at_set_qhd, qtd_at_set_qtd]

theorem qhd_at_control_data (b : build_t) (d : dcd_data_t) (e buf len i : Nat) :
    (control_data_phase b d e buf len).qhd_at i =
      if e = i ∧ e < d.qhd.length then
        { d.qhd_at e with qtd_overlay := { (d.qhd_at e).qtd_overlay with next := qtd_ptr b 0 } }
      else d.qhd_at i := by
  unfold control_data_phase
  rw [qhd_at_set_qhd, qhd_length_set_qtd, qhd_at_set_qtd, qhd_at_set_qtd]

theorem qtd_at_control_status (b : build_t) (d : dcd_data_t) (e j : Nat) :
    (control_status_phase b d e).qtd_at j =
      if 1 = j ∧ 1 < d.qtd.length then qtd_init 0 0 else d.qtd_at j := by
  unfold control_status_phase
  rw [qtd_at_set_qhd, qtd_at_set_qtd]

theorem qhd_at_control_status (b : build_t) (d : dcd_data_t) (e i : Nat) :
    (control_status_phase b d e).qhd_at i =
      if 1 - e = i ∧ 1 - e < d.qhd.length then
        { d.qhd_at (1 - e) with
          qtd_overlay := { (d.qhd_at (1 - e)).qtd_overlay with next := qtd_ptr b 1 } }
      else d.qhd_at i := by
  unfold control_status_phase
  rw [qhd_at_set_qhd, qhd_length_set_qtd, qhd_at_set_qtd, qhd_at_set_qtd]

theorem qtd_length_control_data (b : build_t) (d : dcd_data_t) (e buf len : Nat) :
    (control_data_phase b d e buf len).qtd.length = d.qtd.length := by
  unfold control_data_phase
  rw [qtd_length_set_qhd, qtd_length_set_qtd]

theorem qhd_length_control_data (b : build_t) (d : dcd_data_t) (e buf len : Nat) :
    (control_data_phase b d e buf len).qhd.length = d.qhd.length := by
  unfold control_data_phase
  rw [qhd_length_set_qhd, qhd_length_set_qtd]

/-- The state in which `dcd_pipe_control_xfer` is refused is returned unchanged. -/
theorem control_xfer_busy (b : build_t) (c dir buf len : Nat) (s : system_t)
    (h : (s.dcd_data.qhd_at 0).qtd_overlay.active ≠ 0 ∨
      (s.dcd_data.qhd_at 1).qtd_overlay.active ≠ 0) :
    dcd_pipe_control_xfer b c dir buf len s = (tusb_error_t.TUSB_ERROR_FAILED, s) := by
  unfold dcd_pipe_control_xfer
  dsimp only
  rw [if_pos h]

/-- The state after an accepted `dcd_pipe_control_xfer`. -/
theorem control_xfer_accepted (b : build_t) (c dir buf len : Nat) (s : system_t)
    (h : ¬ ((s.dcd_data.qhd_at 0).qtd_overlay.active ≠ 0 ∨
      (s.dcd_data.qhd_at 1).qtd_overlay.active ≠ 0)) :
    dcd_pipe_control_xfer b c dir buf len s =
      (tusb_error_t.TUSB_ERROR_NONE,
        { s with
          dcd_data :=
            control_status_phase b
              (if len ≠ 0 then
                control_data_phase b s.dcd_data (if dir = TUSB_DIR_DEV_TO_HOST then 1 else 0)
                  buf len
              else s.dcd_data)
              (if dir = TUSB_DIR_DEV_TO_HOST then 1 else 0)
          LPC_USB0 :=
            { s.LPC_USB0 with
              ENDPTPRIME := (s.LPC_USB0.ENDPTPRIME |||
                (BIT_ (edpt_phy2pos (1 - (if dir = TUSB_DIR_DEV_TO_HOST then 1 else 0))) |||
                  (if len ≠ 0 then
                    BIT_ (edpt_phy2pos (if dir = TUSB_DIR_DEV_TO_HOST then 1 else 0))
                  else 0))) % 2 ^ 32 } }) := by
  unfold dcd_pipe_control_xfer control_status_phase control_data_phase
  dsimp only
  rw [if_neg h]

/-- C14: `dcd_pipe_control_xfer` returns `TUSB_ERROR_FAILED` if and only if the overlay of
queue head 0 or of queue head 1 is active at the call; it then returns the state unchanged
(the whole pool, `ENDPTPRIME` and the other registers); otherwise it returns
`TUSB_ERROR_NONE`. -/
theorem C14_control_xfer_busy (b : build_t) (c dir buf len : Nat) (s : system_t) :
    ((dcd_pipe_control_xfer b c dir buf len s).1 = tusb_error_t.TUSB_ERROR_FAILED ↔
      ((s.dcd_data.qhd_at 0).qtd_overlay.active ≠ 0 ∨
        (s.dcd_data.qhd_at 1).qtd_overlay.active ≠ 0)) ∧
    ((dcd_pipe_control_xfer b c dir buf len s).1 = tusb_error_t.TUSB_ERROR_FAILED →
      (dcd_pipe_control_xfer b c dir buf len s).2 = s ∧
      (dcd_pipe_control_xfer b c dir buf len s).2.dcd_data = s.dcd_data ∧
      (dcd_pipe_control_xfer b c dir buf len s).2.LPC_USB0.ENDPTPRIME = s.LPC_USB0.ENDPTPRIME) ∧
    ((dcd_pipe_control_xfer b c dir buf len s).1 ≠ tusb_error_t.TUSB_ERROR_FAILED →
      (dcd_pipe_control_xfer b c dir buf len s).1 = tusb_error_t.TUSB_ERROR_NONE) := by
  by_cases h : (s.dcd_data.qhd_at 0).qtd_overlay.active ≠ 0 ∨
      (s.dcd_data.qhd_at 1).qtd_overlay.active ≠ 0
  · rw [control_xfer_busy b c dir buf len s h]
    exact ⟨⟨fun _ => h, fun _ => rfl⟩, fun _ => ⟨rfl, rfl, rfl⟩, fun hh => absurd rfl hh⟩
  · rw [control_xfer_accepted b c dir buf len s h]
    refine ⟨⟨fun hh => ?_, fun hh => absurd hh h⟩, fun hh => ?_, fun _ => rfl⟩
    · simp at hh
    · simp at hh
/-- A bit of the mask that is ORed into a 32-bit register is set afterwards. -/
theorem or_mask_bit_set (a m p : Nat) (hp : p < 32) (hm : m.testBit p = true) :
    BIT_TEST_ ((a ||| m) % 2 ^ 32) p = true := by
  apply BIT_TEST_of_testBit
  rw [Nat.testBit_mod_two_pow, Nat.testBit_or, hm]
  simp [hp]

/-- C15: an accepted control transfer with `length > 0` and direction `d` (1 =
device-to-host, 0 = host-to-device) builds the data descriptor in the reserved descriptor 0
(`qtd_init` with the buffer and the length) and attaches it to the overlay of queue head
`d`, builds the zero-length status descriptor in the reserved descriptor 1 and attaches it
to queue head `1 - d`, ORs both prime bits (bit 0 and bit 16) into `ENDPTPRIME` in one
write, and modifies no descriptor of the shared pool (index 2 and above). -/
theorem C15_control_xfer_with_data (b : build_t) (c d buf len : Nat) (s : system_t)
    (hqhd : s.dcd_data.qhd.length = DCD_QHD_MAX) (hqtd : s.dcd_data.qtd.length = DCD_QTD_MAX)
    (hidle : (s.dcd_data.qhd_at 0).qtd_overlay.active = 0 ∧
      (s.dcd_data.qhd_at 1).qtd_overlay.active = 0)
    (hlen : len ≠ 0)
    (hd : d = TUSB_DIR_HOST_TO_DEV ∨ d = TUSB_DIR_DEV_TO_HOST) :
    (dcd_pipe_control_xfer b c d buf len s).1 = tusb_error_t.TUSB_ERROR_NONE ∧
    (dcd_pipe_control_xfer b c d buf len s).2.dcd_data.qtd_at 0 = qtd_init buf len ∧
    ((dcd_pipe_control_xfer b c d buf len s).2.dcd_data.qhd_at d).qtd_overlay.next =
      qtd_ptr b 0 ∧
    (dcd_pipe_control_xfer b c d buf len s).2.dcd_data.qtd_at 1 = qtd_init 0 0 ∧
    ((dcd_pipe_control_xfer b c d buf len s).2.dcd_data.qhd_at (1 - d)).qtd_overlay.next =
      qtd_ptr b 1 ∧
    (dcd_pipe_control_xfer b c d buf len s).2.LPC_USB0.ENDPTPRIME =
      (s.LPC_USB0.ENDPTPRIME ||| (BIT_ 0 ||| BIT_ 16)) % 2 ^ 32 ∧
    BIT_TEST_ (dcd_pipe_control_xfer b c d buf len s).2.LPC_USB0.ENDPTPRIME 0 = true ∧
    BIT_TEST_ (dcd_pipe_control_xfer b c d buf len s).2.LPC_USB0.ENDPTPRIME 16 = true ∧
    ∀ j, 2 ≤ j →
      (dcd_pipe_control_xfer b c d buf len s).2.dcd_data.qtd_at j = s.dcd_data.qtd_at j := by
  have hacc : ¬ ((s.dcd_data.qhd_at 0).qtd_overlay.active ≠ 0 ∨
      (s.dcd_data.qhd_at 1).qtd_overlay.active ≠ 0) := by
    intro h
    rcases h with h | h
    · exact h hidle.1
    · exact h hidle.2
  have hE : (if d = TUSB_DIR_DEV_TO_HOST then 1 else 0) = d := by
    rcases hd with rfl | rfl <;> rfl
  have hd2 : d < 2 := by
    rcases hd with rfl | rfl <;> decide
  have hbits : BIT_ (edpt_phy2pos (1 - d)) ||| BIT_ (edpt_phy2pos d) = BIT_ 0 ||| BIT_ 16 := by
    rcases hd with rfl | rfl <;> decide
  have hq0 : 0 < s.dcd_data.qtd.length := by rw [hqtd]; decide
  have hq1 : 1 < s.dcd_data.qtd.length := by rw [hqtd]; decide
  have hhd : d < s.dcd_data.qhd.length := by
    rw [hqhd]; exact Nat.lt_of_lt_of_le hd2 (by decide)
  have hhs : 1 - d < s.dcd_data.qhd.length := by
    rw [hqhd]; exact Nat.lt_of_le_of_lt (Nat.sub_le 1 d) (by decide)
  have hprime : (dcd_pipe_control_xfer b c d buf len s).2.LPC_USB0.ENDPTPRIME =
      (s.LPC_USB0.ENDPTPRIME ||| (BIT_ 0 ||| BIT_ 16)) % 2 ^ 32 := by
    rw [control_xfer_accepted b c d buf len s hacc, hE, if_pos hlen]
    dsimp only
    rw [if_pos hlen, hbits]
  have hdata : (dcd_pipe_control_xfer b c d buf len s).2.dcd_data =
      control_status_phase b (control_data_phase b s.dcd_data d buf len) d := by
    rw [control_xfer_accepted b c d buf len s hacc, hE, if_pos hlen]
  refine ⟨?_, ?_, ?_, ?_, ?_, hprime, ?_, ?_, ?_⟩
  · rw [control_xfer_accepted b c d buf len s hacc]
  · rw [hdata, qtd_at_control_status, if_neg (fun hh => absurd hh.1 (by decide)),
      qtd_at_control_data, if_pos ⟨rfl, hq0⟩]
  · rw [hdata, qhd_at_control_status, if_neg (fun hh => by omega), qhd_at_control_data,
      if_pos ⟨rfl, hhd⟩]
  · rw [hdata, qtd_at_control_status,
      if_pos ⟨rfl, by rw [qtd_length_control_data]; exact hq1⟩]
  · rw [hdata, qhd_at_control_status,
      if_pos ⟨rfl, by rw [qhd_length_control_data]; exact hhs⟩]
  · rw [hprime]
    exact or_mask_bit_set _ _ 0 (by decide) (by decide)
  · rw [hprime]
    exact or_mask_bit_set _ _ 16 (by decide) (by decide)
  · intro j hj
    rw [hdata, qtd_at_control_status, if_neg (fun hh => by omega), qtd_at_control_data,
      if_neg (fun hh => by omega)]

/-- C15, witness: a device-to-host control transfer of 64 bytes after a bus reset. -/
theorem C15_control_xfer_with_data_witness :
    ex_opened.dcd_data.qhd.length = DCD_QHD_MAX ∧ ex_opened.dcd_data.qtd.length = DCD_QTD_MAX ∧
    ((ex_opened.dcd_data.qhd_at 0).qtd_overlay.active = 0 ∧
      (ex_opened.dcd_data.qhd_at 1).qtd_overlay.active = 0) ∧
    (64 : Nat) ≠ 0 ∧
    (dcd_pipe_control_xfer ex_build 0 TUSB_DIR_DEV_TO_HOST 0x10000100 64 ex_opened).1 =
      tusb_error_t.TUSB_ERROR_NONE ∧
    ((dcd_pipe_control_xfer ex_build 0 TUSB_DIR_DEV_TO_HOST 0x10000100 64
      ex_opened).2.dcd_data.qhd_at TUSB_DIR_DEV_TO_HOST).qtd_overlay.next = qtd_ptr ex_build 0 ∧
    (dcd_pipe_control_xfer ex_build 0 TUSB_DIR_DEV_TO_HOST 0x10000100 64
      ex_opened).2.LPC_USB0.ENDPTPRIME =
      (ex_opened.LPC_USB0.ENDPTPRIME ||| (BIT_ 0 ||| BIT_ 16)) % 2 ^ 32 :=
  ⟨by decide, by decide, by decide, by decide,
    (C15_control_xfer_with_data ex_build 0 TUSB_DIR_DEV_TO_HOST 0x10000100 64 ex_opened
      (by decide) (by decide) (by decide) (by decide) (Or.inr rfl)).1,
    (C15_control_xfer_with_data ex_build 0 TUSB_DIR_DEV_TO_HOST 0x10000100 64 ex_opened
      (by decide) (by decide) (by decide) (by decide) (Or.inr rfl)).2.2.1,
    (C15_control_xfer_with_data ex_build 0 TUSB_DIR_DEV_TO_HOST 0x10000100 64 ex_opened
      (by decide) (by decide) (by decide) (by decide) (Or.inr rfl)).2.2.2.2.2.1⟩
/-- C16 (as amended): an accepted control transfer with `length = 0` has no data phase
(descriptor 0 is left as it is) and builds the zero-length status descriptor in descriptor
1; the status descriptor is attached to the control queue head opposite to the direction
passed, and only the prime bit of that queue head is ORed into `ENDPTPRIME`: queue head 1
and bit 16 when the direction is not device-to-host, queue head 0 and bit 0 when it is. -/
theorem C16_control_xfer_without_data (b : build_t) (c dir buf : Nat) (s : system_t)
    (hqhd : s.dcd_data.qhd.length = DCD_QHD_MAX) (hqtd : s.dcd_data.qtd.length = DCD_QTD_MAX)
    (hidle : (s.dcd_data.qhd_at 0).qtd_overlay.active = 0 ∧
      (s.dcd_data.qhd_at 1).qtd_overlay.active = 0) :
    (dcd_pipe_control_xfer b c dir buf 0 s).1 = tusb_error_t.TUSB_ERROR_NONE ∧
    (dcd_pipe_control_xfer b c dir buf 0 s).2.dcd_data.qtd_at 0 = s.dcd_data.qtd_at 0 ∧
    (dcd_pipe_control_xfer b c dir buf 0 s).2.dcd_data.qtd_at 1 = qtd_init 0 0 ∧
    (dir ≠ TUSB_DIR_DEV_TO_HOST →
      ((dcd_pipe_control_xfer b c dir buf 0 s).2.dcd_data.qhd_at 1).qtd_overlay.next =
        qtd_ptr b 1 ∧
      (dcd_pipe_control_xfer b c dir buf 0 s).2.dcd_data.qhd_at 0 = s.dcd_data.qhd_at 0 ∧
      (dcd_pipe_control_xfer b c dir buf 0 s).2.LPC_USB0.ENDPTPRIME =
        (s.LPC_USB0.ENDPTPRIME ||| BIT_ 16) % 2 ^ 32) ∧
    (dir = TUSB_DIR_DEV_TO_HOST →
      ((dcd_pipe_control_xfer b c dir buf 0 s).2.dcd_data.qhd_at 0).qtd_overlay.next =
        qtd_ptr b 1 ∧
      (dcd_pipe_control_xfer b c dir buf 0 s).2.dcd_data.qhd_at 1 = s.dcd_data.qhd_at 1 ∧
      (dcd_pipe_control_xfer b c dir buf 0 s).2.LPC_USB0.ENDPTPRIME =
        (s.LPC_USB0.ENDPTPRIME ||| BIT_ 0) % 2 ^ 32) := by
  have hacc : ¬ ((s.dcd_data.qhd_at 0).qtd_overlay.active ≠ 0 ∨
      (s.dcd_data.qhd_at 1).qtd_overlay.active ≠ 0) := by
    intro h
    rcases h with h | h
    · exact h hidle.1
    · exact h hidle.2
  have hq1 : 1 < s.dcd_data.qtd.length := by rw [hqtd]; decide
  have hh0 : 0 < s.dcd_data.qhd.length := by rw [hqhd]; decide
  have hh1 : 1 < s.dcd_data.qhd.length := by rw [hqhd]; decide
  have hdata : (dcd_pipe_control_xfer b c dir buf 0 s).2.dcd_data =
      control_status_phase b s.dcd_data (if dir = TUSB_DIR_DEV_TO_HOST then 1 else 0) := by
    rw [control_xfer_accepted b c dir buf 0 s hacc,
      if_neg (show ¬ ((0 : Nat) ≠ 0) from fun hh => hh rfl)]
  have hprime : (dcd_pipe_control_xfer b c dir buf 0 s).2.LPC_USB0.ENDPTPRIME =
      (s.LPC_USB0.ENDPTPRIME |||
        BIT_ (edpt_phy2pos (1 - (if dir = TUSB_DIR_DEV_TO_HOST then 1 else 0)))) % 2 ^ 32 := by
    rw [control_xfer_accepted b c dir buf 0 s hacc]
    dsimp only
    rw [if_neg (show ¬ ((0 : Nat) ≠ 0) from fun hh => hh rfl), Nat.or_zero]
  refine ⟨?_, ?_, ?_, ?_, ?_⟩
  · rw [control_xfer_accepted b c dir buf 0 s hacc]
  · rw [hdata, qtd_at_control_status, if_neg (fun hh => absurd hh.1 (by decide))]
  · rw [hdata, qtd_at_control_status, if_pos ⟨rfl, hq1⟩]
  · intro hdir
    rw [hdata, hprime, if_neg hdir]
    refine ⟨?_, ?_, rfl⟩
    · rw [qhd_at_control_status, if_pos ⟨rfl, hh1⟩]
    · rw [qhd_at_control_status, if_neg (fun hh => absurd hh.1 (by decide))]
  · intro hdir
    rw [hdata, hprime, if_pos hdir]
    refine ⟨?_, ?_, rfl⟩
    · rw [qhd_at_control_status, if_pos ⟨rfl, hh0⟩]
    · rw [qhd_at_control_status, if_neg (fun hh => absurd hh.1 (by decide))]

/-- C16, witness: a host-to-device control transfer without data after a bus reset; only
bit 16 is added to `ENDPTPRIME`. -/
theorem C16_control_xfer_without_data_witness :
    ex_opened.dcd_data.qhd.length = DCD_QHD_MAX ∧ ex_opened.dcd_data.qtd.length = DCD_QTD_MAX ∧
    ((ex_opened.dcd_data.qhd_at 0).qtd_overlay.active = 0 ∧
      (ex_opened.dcd_data.qhd_at 1).qtd_overlay.active = 0) ∧
    (dcd_pipe_control_xfer ex_build 0 TUSB_DIR_HOST_TO_DEV 0 0 ex_opened).1 =
      tusb_error_t.TUSB_ERROR_NONE ∧
    (dcd_pipe_control_xfer ex_build 0 TUSB_DIR_HOST_TO_DEV 0 0 ex_opened).2.LPC_USB0.ENDPTPRIME =
      (ex_opened.LPC_USB0.ENDPTPRIME ||| BIT_ 16) % 2 ^ 32 :=
  ⟨by decide, by decide, by decide,
    (C16_control_xfer_without_data ex_build 0 TUSB_DIR_HOST_TO_DEV 0 ex_opened (by decide)
      (by decide) (by decide)).1,
    ((C16_control_xfer_without_data ex_build 0 TUSB_DIR_HOST_TO_DEV 0 ex_opened (by decide)
      (by decide) (by decide)).2.2.2.1 (by decide)).2.2⟩

/-- C16, counterexample to the claim as stated: an accepted control transfer with length 0
and direction device-to-host attaches the status descriptor to queue head 0 (control OUT),
leaves the overlay of queue head 1 as it was, and sets bit 0 of `ENDPTPRIME`, not bit 16. -/
theorem C16_counterexample_device_to_host :
    (dcd_pipe_control_xfer ex_build 0 TUSB_DIR_DEV_TO_HOST 0 0 ex_opened).1 =
      tusb_error_t.TUSB_ERROR_NONE ∧
    ((dcd_pipe_control_xfer ex_build 0 TUSB_DIR_DEV_TO_HOST 0 0 ex_opened).2.dcd_data.qhd_at
      0).qtd_overlay.next = qtd_ptr ex_build 1 ∧
    ((dcd_pipe_control_xfer ex_build 0 TUSB_DIR_DEV_TO_HOST 0 0 ex_opened).2.dcd_data.qhd_at
      1).qtd_overlay.next = QTD_NEXT_INVALID ∧
    ex_opened.LPC_USB0.ENDPTPRIME = 0 ∧
    (dcd_pipe_control_xfer ex_build 0 TUSB_DIR_DEV_TO_HOST 0 0 ex_opened).2.LPC_USB0.ENDPTPRIME =
      BIT_ 0 ∧
    BIT_TEST_
      (dcd_pipe_control_xfer ex_build 0 TUSB_DIR_DEV_TO_HOST 0 0 ex_opened).2.LPC_USB0.ENDPTPRIME
      16 = false := by
  decide
/-- The two forms of the direction offset: `dir ? 16 : 0` with `dir` computed from the
address. -/
theorem dir_shift_eq (a : Nat) :
    (if (if a &&& TUSB_DIR_DEV_TO_HOST_MASK ≠ 0 then 1 else 0) ≠ 0 then 16 else 0) =
      dir_shift a := by
  unfold dir_shift
  by_cases h : a &&& TUSB_DIR_DEV_TO_HOST_MASK ≠ 0
  · rw [if_pos h, if_pos h, if_pos (by decide)]
  · rw [if_neg h, if_neg h, if_neg (by decide)]

theorem dir_shift_cases (a : Nat) : dir_shift a = 0 ∨ dir_shift a = 16 := by
  unfold dir_shift
  by_cases h : a &&& TUSB_DIR_DEV_TO_HOST_MASK ≠ 0
  · right; rw [if_pos h]
  · left; rw [if_neg h]

/-- `dcd_pipe_open` refuses an isochronous endpoint and an endpoint that is enabled. -/
theorem dcd_pipe_open_refused (c cc : Nat) (desc : tusb_descriptor_endpoint_t) (s : system_t)
    (h : desc.bmAttributes_xfer = TUSB_XFER_ISOCHRONOUS ∨
      s.LPC_USB0.ENDPTCTRL.getD (desc.bEndpointAddress &&& 0x0f) 0 &&&
        (ENDPTCTRL_MASK_ENABLE <<< dir_shift desc.bEndpointAddress) ≠ 0) :
    dcd_pipe_open c desc cc s = (null_handle, s) := by
  unfold dcd_pipe_open
  dsimp only
  by_cases h1 : desc.bmAttributes_xfer = TUSB_XFER_ISOCHRONOUS
  · rw [if_pos h1]; rfl
  · rw [if_neg h1, dir_shift_eq, if_pos (h.resolve_left h1)]; rfl

/-- The handle and the state that `dcd_pipe_open` returns when it opens the endpoint. -/
theorem dcd_pipe_open_accepted (c cc : Nat) (desc : tusb_descriptor_endpoint_t) (s : system_t)
    (h1 : desc.bmAttributes_xfer ≠ TUSB_XFER_ISOCHRONOUS)
    (h2 : ¬ (s.LPC_USB0.ENDPTCTRL.getD (desc.bEndpointAddress &&& 0x0f) 0 &&&
        (ENDPTCTRL_MASK_ENABLE <<< dir_shift desc.bEndpointAddress) ≠ 0)) :
    dcd_pipe_open c desc cc s =
      ({ coreid := c, xfer_type := desc.bmAttributes_xfer,
         index := edpt_addr2phy desc.bEndpointAddress, class_code := cc },
       { s with
         dcd_data := s.dcd_data.set_qhd (edpt_addr2phy desc.bEndpointAddress)
           (opened_qhd desc cc)
         LPC_USB0 :=
           { s.LPC_USB0 with
             ENDPTCTRL := s.LPC_USB0.ENDPTCTRL.set (desc.bEndpointAddress &&& 0x0f)
               (opened_ctrl desc
                 (s.LPC_USB0.ENDPTCTRL.getD (desc.bEndpointAddress &&& 0x0f) 0)) } }) := by
  unfold dcd_pipe_open opened_ctrl
  dsimp only
  rw [if_neg h1, dir_shift_eq, if_neg h2]
  rfl

/-- A bit of `x` that is set makes `x &&& 2^k` different from 0. -/
theorem and_two_pow_ne_zero (x k : Nat) (h : x.testBit k = true) : x &&& 2 ^ k ≠ 0 := by
  intro h0
  have h1 : (x &&& 2 ^ k).testBit k = true := by
    rw [Nat.testBit_and, h, Nat.testBit_two_pow_self]; rfl
  rw [h0] at h1
  simp at h1

/-- A bit of `x` is clear when `x &&& 2^k` is 0. -/
theorem testBit_of_and_two_pow_eq_zero (x k : Nat) (h : x &&& 2 ^ k = 0) :
    x.testBit k = false := by
  have h1 : (x &&& 2 ^ k).testBit k = (x.testBit k && true) := by
    rw [Nat.testBit_and, Nat.testBit_two_pow_self]
  rw [h] at h1
  simpa using h1.symm

/-- The enable mask of a direction is one bit. -/
theorem enable_mask_shift (sh : Nat) : ENDPTCTRL_MASK_ENABLE <<< sh = 2 ^ (7 + sh) := by
  unfold ENDPTCTRL_MASK_ENABLE BIT_
  rw [Nat.one_shiftLeft, Nat.shiftLeft_eq, ← Nat.pow_add]

/-- The value written by `dcd_pipe_open` has the enable bit of the direction set. -/
theorem opened_ctrl_enabled (desc : tusb_descriptor_endpoint_t) (r : Nat) :
    (opened_ctrl desc r).testBit (7 + dir_shift desc.bEndpointAddress) = true := by
  unfold opened_ctrl
  have hlt : 7 + dir_shift desc.bEndpointAddress < 32 := by
    rcases dir_shift_cases desc.bEndpointAddress with h | h <;> rw [h] <;> decide
  rw [Nat.testBit_mod_two_pow, Nat.testBit_or, Nat.testBit_shiftLeft, Nat.testBit_or,
    Nat.testBit_or]
  have h7 : ENDPTCTRL_MASK_ENABLE.testBit 7 = true := by decide
  simp [hlt, h7]
/-- C17: `dcd_pipe_open` returns the null handle and leaves the state as it was (pool and
registers) if and only if the endpoint descriptor is isochronous or the enable bit of the
direction of the endpoint is set in its control register; and of two calls for the same
endpoint address (endpoint number 0..5) with nothing in between, the second one is refused
whenever the first descriptor is not isochronous or the second one is the same. -/
theorem C17_open_refused_iff (c cc : Nat) (desc : tusb_descriptor_endpoint_t) (s : system_t)
    (hctrl : s.LPC_USB0.ENDPTCTRL.length = 6) :
    (((dcd_pipe_open c desc cc s).1 = null_handle ∧ (dcd_pipe_open c desc cc s).2 = s) ↔
      (desc.bmAttributes_xfer = TUSB_XFER_ISOCHRONOUS ∨
        s.LPC_USB0.ENDPTCTRL.getD (desc.bEndpointAddress &&& 0x0f) 0 &&&
          (ENDPTCTRL_MASK_ENABLE <<< dir_shift desc.bEndpointAddress) ≠ 0)) ∧
    (desc.bEndpointAddress &&& 0x0f < 6 →
      ∀ (c2 cc2 : Nat) (desc2 : tusb_descriptor_endpoint_t),
        desc2.bEndpointAddress = desc.bEndpointAddress →
        (desc.bmAttributes_xfer ≠ TUSB_XFER_ISOCHRONOUS ∨ desc2 = desc) →
        dcd_pipe_open c2 desc2 cc2 (dcd_pipe_open c desc cc s).2 =
          (null_handle, (dcd_pipe_open c desc cc s).2)) := by
  constructor
  · constructor
    · intro hnull
      by_contra hcon
      have h1 : desc.bmAttributes_xfer ≠ TUSB_XFER_ISOCHRONOUS := fun hh => hcon (Or.inl hh)
      have h2 : ¬ (s.LPC_USB0.ENDPTCTRL.getD (desc.bEndpointAddress &&& 0x0f) 0 &&&
          (ENDPTCTRL_MASK_ENABLE <<< dir_shift desc.bEndpointAddress) ≠ 0) :=
        fun hh => hcon (Or.inr hh)
      rw [dcd_pipe_open_accepted c cc desc s h1 h2] at hnull
      obtain ⟨hh, hs⟩ := hnull
      -- the register of the endpoint gets its enable bit, which it did not have
      have hreg : (s.LPC_USB0.ENDPTCTRL.set (desc.bEndpointAddress &&& 0x0f)
          (opened_ctrl desc (s.LPC_USB0.ENDPTCTRL.getD (desc.bEndpointAddress &&& 0x0f) 0))) =
          s.LPC_USB0.ENDPTCTRL := by
        have := congrArg (fun t : system_t => t.LPC_USB0.ENDPTCTRL) hs
        exact this
      have hidx : edpt_addr2phy desc.bEndpointAddress = 0 := by
        have := congrArg (fun t : endpoint_handle_t => t.index) hh
        exact this
      have hn15 : desc.bEndpointAddress &&& 0x0f ≤ 15 := Nat.and_le_right
      have hn0 : desc.bEndpointAddress &&& 0x0f = 0 := by
        unfold edpt_addr2phy at hidx
        split at hidx <;> omega
      have hget := congrArg (fun l : List Nat => l.getD (desc.bEndpointAddress &&& 0x0f) 0) hreg
      dsimp only at hget
      rw [getD_set_eq, if_pos ⟨rfl, by rw [hn0, hctrl]; decide⟩] at hget
      have hbit := opened_ctrl_enabled desc
        (s.LPC_USB0.ENDPTCTRL.getD (desc.bEndpointAddress &&& 0x0f) 0)
      rw [hget] at hbit
      rw [enable_mask_shift] at h2
      exact h2 (and_two_pow_ne_zero _ _ hbit)
    · intro h
      rw [dcd_pipe_open_refused c cc desc s h]
      exact ⟨rfl, rfl⟩
  · intro hn c2 cc2 desc2 haddr hsame
    apply dcd_pipe_open_refused
    by_cases h1 : desc.bmAttributes_xfer = TUSB_XFER_ISOCHRONOUS
    · left
      rcases hsame with hsame | hsame
      · exact absurd h1 hsame
      · rw [hsame]; exact h1
    · right
      rw [haddr]
      by_cases h2 : s.LPC_USB0.ENDPTCTRL.getD (desc.bEndpointAddress &&& 0x0f) 0 &&&
          (ENDPTCTRL_MASK_ENABLE <<< dir_shift desc.bEndpointAddress) ≠ 0
      · rw [dcd_pipe_open_refused c cc desc s (Or.inr h2)]
        exact h2
      · rw [dcd_pipe_open_accepted c cc desc s h1 h2]
        dsimp only
        rw [getD_set_eq, if_pos ⟨rfl, by rw [hctrl]; exact hn⟩, enable_mask_shift]
        exact and_two_pow_ne_zero _ _ (opened_ctrl_enabled desc _)

/-- C17, witness: the bulk OUT endpoint 1 opened twice after a bus reset. -/
theorem C17_open_refused_iff_witness :
    ex_reset.LPC_USB0.ENDPTCTRL.length = 6 ∧
    ex_desc_out.bEndpointAddress &&& 0x0f < 6 ∧
    (dcd_pipe_open 0 ex_desc_out 3 ex_reset).1 ≠ null_handle ∧
    dcd_pipe_open 0 ex_desc_out 3 (dcd_pipe_open 0 ex_desc_out 3 ex_reset).2 =
      (null_handle, (dcd_pipe_open 0 ex_desc_out 3 ex_reset).2) :=
  ⟨by decide, by decide, by decide,
    (C17_open_refused_iff 0 3 ex_desc_out ex_reset (by decide)).2 (by decide) 0 3 ex_desc_out
      rfl (Or.inr rfl)⟩
/-- The physical slot of an endpoint address with endpoint number at most 5. -/
theorem edpt_addr2phy_eq (a : Nat) (hn : a &&& 0x0f ≤ 5) :
    edpt_addr2phy a = 2 * (a &&& 0x0f) + (if a &&& TUSB_DIR_DEV_TO_HOST_MASK ≠ 0 then 1 else 0) := by
  unfold edpt_addr2phy
  apply Nat.mod_eq_of_lt
  split <;> omega

/-- What `dcd_pipe_is_busy` computes: the overlay is active and not halted. -/
theorem dcd_pipe_is_busy_iff (hdl : endpoint_handle_t) (t : system_t) :
    dcd_pipe_is_busy hdl t = true ↔
      ((t.dcd_data.qhd_at hdl.index).qtd_overlay.active ≠ 0 ∧
        (t.dcd_data.qhd_at hdl.index).qtd_overlay.halted = 0) := by
  unfold dcd_pipe_is_busy
  simp only [Bool.and_eq_true, beq_iff_eq, bne_iff_ne, ne_eq]
  exact And.comm

/-- C18, scenario A: for every endpoint descriptor that is not isochronous, with endpoint
number `n` in 1..5, whose endpoint is not enabled yet: `dcd_pipe_open` returns a handle with
`index = 2n + (1 if IN else 0)`, which lies in `[2, 12)`; `dcd_pipe_is_busy` is true exactly
when the overlay is active and not halted; it is false right after the open and still false
after `dcd_pipe_stall`, which changes nothing but the control register of endpoint `n`, into
which it ORs the stall bit of the direction of the endpoint. -/
theorem C18_scenario_A_open_stall_busy (c cc : Nat) (desc : tusb_descriptor_endpoint_t)
    (s : system_t)
    (hqhd : s.dcd_data.qhd.length = DCD_QHD_MAX)
    (hiso : desc.bmAttributes_xfer ≠ TUSB_XFER_ISOCHRONOUS)
    (hn : 1 ≤ desc.bEndpointAddress &&& 0x0f ∧ desc.bEndpointAddress &&& 0x0f ≤ 5)
    (hdis : s.LPC_USB0.ENDPTCTRL.getD (desc.bEndpointAddress &&& 0x0f) 0 &&&
      (ENDPTCTRL_MASK_ENABLE <<< dir_shift desc.bEndpointAddress) = 0) :
    (dcd_pipe_open c desc cc s).1.index =
      2 * (desc.bEndpointAddress &&& 0x0f) +
        (if desc.bEndpointAddress &&& TUSB_DIR_DEV_TO_HOST_MASK ≠ 0 then 1 else 0) ∧
    2 ≤ (dcd_pipe_open c desc cc s).1.index ∧
    (dcd_pipe_open c desc cc s).1.index < DCD_QHD_MAX ∧
    (∀ (hdl : endpoint_handle_t) (t : system_t),
      dcd_pipe_is_busy hdl t = true ↔
        ((t.dcd_data.qhd_at hdl.index).qtd_overlay.active ≠ 0 ∧
          (t.dcd_data.qhd_at hdl.index).qtd_overlay.halted = 0)) ∧
    dcd_pipe_is_busy (dcd_pipe_open c desc cc s).1 (dcd_pipe_open c desc cc s).2 = false ∧
    (dcd_pipe_stall (dcd_pipe_open c desc cc s).1 (dcd_pipe_open c desc cc s).2).1 =
      tusb_error_t.TUSB_ERROR_NONE ∧
    dcd_pipe_is_busy (dcd_pipe_open c desc cc s).1
      (dcd_pipe_stall (dcd_pipe_open c desc cc s).1 (dcd_pipe_open c desc cc s).2).2 = false ∧
    (dcd_pipe_stall (dcd_pipe_open c desc cc s).1 (dcd_pipe_open c desc cc s).2).2 =
      { (dcd_pipe_open c desc cc s).2 with
        LPC_USB0 :=
          { (dcd_pipe_open c desc cc s).2.LPC_USB0 with
            ENDPTCTRL :=
              (dcd_pipe_open c desc cc s).2.LPC_USB0.ENDPTCTRL.set
                (desc.bEndpointAddress &&& 0x0f)
                (((dcd_pipe_open c desc cc s).2.LPC_USB0.ENDPTCTRL.getD
                    (desc.bEndpointAddress &&& 0x0f) 0 |||
                  (ENDPTCTRL_MASK_STALL <<< dir_shift desc.bEndpointAddress)) % 2 ^ 32) } } := by
  have h2 : ¬ (s.LPC_USB0.ENDPTCTRL.getD (desc.bEndpointAddress &&& 0x0f) 0 &&&
      (ENDPTCTRL_MASK_ENABLE <<< dir_shift desc.bEndpointAddress) ≠ 0) := not_not.2 hdis
  have hidx := edpt_addr2phy_eq desc.bEndpointAddress hn.2
  have hopen := dcd_pipe_open_accepted c cc desc s hiso h2
  have hlt : edpt_addr2phy desc.bEndpointAddress < 12 := by
    rw [hidx]; split <;> omega
  have hge : 2 ≤ edpt_addr2phy desc.bEndpointAddress := by
    rw [hidx]; omega
  have hlog : edpt_phy2log (edpt_addr2phy desc.bEndpointAddress) =
      desc.bEndpointAddress &&& 0x0f := by
    unfold edpt_phy2log
    rw [hidx]; split <;> omega
  have hodd : (if edpt_addr2phy desc.bEndpointAddress &&& 0x01 ≠ 0 then 16 else 0) =
      dir_shift desc.bEndpointAddress := by
    unfold dir_shift
    rw [Nat.and_one_is_mod, hidx]
    by_cases hd : desc.bEndpointAddress &&& TUSB_DIR_DEV_TO_HOST_MASK ≠ 0
    · rw [if_pos hd, if_pos hd, if_pos (by omega)]
    · rw [if_neg hd, if_neg hd, if_neg (by omega)]
  have hbusy : ∀ (t : system_t),
      t.dcd_data.qhd_at (edpt_addr2phy desc.bEndpointAddress) = opened_qhd desc cc →
      dcd_pipe_is_busy
        { coreid := c, xfer_type := desc.bmAttributes_xfer,
          index := edpt_addr2phy desc.bEndpointAddress, class_code := cc } t = false := by
    intro t ht
    unfold dcd_pipe_is_busy
    dsimp only
    rw [ht]
    rfl
  rw [hopen]
  dsimp only
  refine ⟨hidx, hge, hlt, dcd_pipe_is_busy_iff, ?_, rfl, ?_, ?_⟩
  · apply hbusy
    dsimp only
    rw [qhd_at_set_qhd, if_pos ⟨rfl, by rw [hqhd]; exact hlt⟩]
  · apply hbusy
    unfold dcd_pipe_stall
    dsimp only
    rw [qhd_at_set_qhd, if_pos ⟨rfl, by rw [hqhd]; exact hlt⟩]
  · unfold dcd_pipe_stall
    dsimp only
    rw [hlog, hodd]

/-- C18, witness: the bulk OUT endpoint with address 0x01 and max packet size 64, opened
after a bus reset, then stalled. -/
theorem C18_scenario_A_open_stall_busy_witness :
    ex_reset.dcd_data.qhd.length = DCD_QHD_MAX ∧
    ex_desc_out.bmAttributes_xfer ≠ TUSB_XFER_ISOCHRONOUS ∧
    (1 ≤ ex_desc_out.bEndpointAddress &&& 0x0f ∧ ex_desc_out.bEndpointAddress &&& 0x0f ≤ 5) ∧
    ex_reset.LPC_USB0.ENDPTCTRL.getD (ex_desc_out.bEndpointAddress &&& 0x0f) 0 &&&
      (ENDPTCTRL_MASK_ENABLE <<< dir_shift ex_desc_out.bEndpointAddress) = 0 ∧
    (dcd_pipe_open 0 ex_desc_out 3 ex_reset).1.index = 2 ∧
    dcd_pipe_is_busy (dcd_pipe_open 0 ex_desc_out 3 ex_reset).1
      (dcd_pipe_stall (dcd_pipe_open 0 ex_desc_out 3 ex_reset).1
        (dcd_pipe_open 0 ex_desc_out 3 ex_reset).2).2 = false :=
  ⟨by decide, by decide, by decide, by decide, by decide,
    (C18_scenario_A_open_stall_busy 0 3 ex_desc_out ex_reset (by decide) (by decide)
      (by decide) (by decide)).2.2.2.2.2.2.1⟩
/-- Reading a list of equal entries. -/
theorem getD_replicate_self {α : Type} (a : α) : ∀ (n j : Nat), (List.replicate n a).getD j a = a := by
  intro n
  induction n with
  | zero => intro j; rfl
  | succ n ih =>
    intro j
    cases j with
    | zero => rfl
    | succ j => exact ih j

/-- The descriptors after a bus reset. -/
theorem bus_reset_qtd_at (b : build_t) (c : Nat) (s : system_t) (j : Nat) :
    (bus_reset b c s).dcd_data.qtd_at j = dcd_qtd_t.zero := by
  unfold bus_reset
  dsimp only
  rw [qtd_at_set_qhd, qtd_at_set_qhd]
  exact getD_replicate_self _ _ _

/-- The queue heads of the non-control slots after a bus reset. -/
theorem bus_reset_qhd_at (b : build_t) (c : Nat) (s : system_t) (i : Nat) (hi : 2 ≤ i) :
    (bus_reset b c s).dcd_data.qhd_at i = dcd_qhd_t.zero := by
  unfold bus_reset
  dsimp only
  rw [qhd_at_set_qhd, if_neg (fun hh => by omega), qhd_at_set_qhd, if_neg (fun hh => by omega)]
  exact getD_replicate_self _ _ _

/-- The control registers of the endpoints 1..5 after a bus reset. -/
theorem bus_reset_ctrl (b : build_t) (c : Nat) (s : system_t)
    (hctrl : s.LPC_USB0.ENDPTCTRL.length = 6) (n : Nat) (h1 : 1 ≤ n) (h5 : n ≤ 5) :
    (bus_reset b c s).LPC_USB0.ENDPTCTRL.getD n 0 =
      ((TUSB_XFER_BULK <<< 2) ||| (TUSB_XFER_BULK <<< 18)) % 2 ^ 32 := by
  unfold bus_reset
  dsimp only
  simp only [getD_set_eq, List.length_set, hctrl]
  interval_cases n <;> simp
/-- C20: after `bus_reset` (its two polling loops being left), whatever the state before:
every descriptor is zero, in particular `used = 0`; the list of every queue head is empty;
every queue head of a non-control slot is zero; queue heads 0 and 1 have
`max_package_size = TUSB_CFG_DEVICE_CONTROL_ENDOINT_SIZE`, `zero_length_termination = 1` and
overlay `next = QTD_NEXT_INVALID`; `int_on_setup` is 1 on queue head 0 and 0 on queue head
1; the enable bits of both directions are clear in `ENDPTCTRL1` .. `ENDPTCTRL5`, and
`dcd_pipe_open` opens every endpoint 1..5 that is not isochronous. -/
theorem C20_bus_reset_state (b : build_t) (c : Nat) (s : system_t)
    (hctrl : s.LPC_USB0.ENDPTCTRL.length = 6)
    (hsize : b.TUSB_CFG_DEVICE_CONTROL_ENDOINT_SIZE < 2 ^ 11) :
    (∀ j, (bus_reset b c s).dcd_data.qtd_at j = dcd_qtd_t.zero ∧
      ((bus_reset b c s).dcd_data.qtd_at j).used = 0) ∧
    (∀ i, ((bus_reset b c s).dcd_data.qhd_at i).list_qtd_idx = [0, 0]) ∧
    (∀ i, 2 ≤ i → (bus_reset b c s).dcd_data.qhd_at i = dcd_qhd_t.zero) ∧
    ((bus_reset b c s).dcd_data.qhd.length = DCD_QHD_MAX ∧
      (bus_reset b c s).dcd_data.qtd.length = DCD_QTD_MAX) ∧
    (((bus_reset b c s).dcd_data.qhd_at 0).max_package_size =
        b.TUSB_CFG_DEVICE_CONTROL_ENDOINT_SIZE ∧
      ((bus_reset b c s).dcd_data.qhd_at 1).max_package_size =
        b.TUSB_CFG_DEVICE_CONTROL_ENDOINT_SIZE) ∧
    (((bus_reset b c s).dcd_data.qhd_at 0).zero_length_termination = 1 ∧
      ((bus_reset b c s).dcd_data.qhd_at 1).zero_length_termination = 1) ∧
    (((bus_reset b c s).dcd_data.qhd_at 0).qtd_overlay.next = QTD_NEXT_INVALID ∧
      ((bus_reset b c s).dcd_data.qhd_at 1).qtd_overlay.next = QTD_NEXT_INVALID) ∧
    (((bus_reset b c s).dcd_data.qhd_at 0).int_on_setup = 1 ∧
      ((bus_reset b c s).dcd_data.qhd_at 1).int_on_setup = 0) ∧
    (∀ n, 1 ≤ n → n ≤ 5 →
      (bus_reset b c s).LPC_USB0.ENDPTCTRL.getD n 0 &&& ENDPTCTRL_MASK_ENABLE = 0 ∧
      (bus_reset b c s).LPC_USB0.ENDPTCTRL.getD n 0 &&& (ENDPTCTRL_MASK_ENABLE <<< 16) = 0) ∧
    (∀ (c2 cc : Nat) (desc : tusb_descriptor_endpoint_t),
      desc.bmAttributes_xfer ≠ TUSB_XFER_ISOCHRONOUS →
      1 ≤ desc.bEndpointAddress &&& 0x0f → desc.bEndpointAddress &&& 0x0f ≤ 5 →
      (dcd_pipe_open c2 desc cc (bus_reset b c s)).1 =
        { coreid := c2, xfer_type := desc.bmAttributes_xfer,
          index := edpt_addr2phy desc.bEndpointAddress, class_code := cc }) := by
  have h01 : ∀ i, i < 2 → ((bus_reset b c s).dcd_data.qhd_at i).list_qtd_idx = [0, 0] := by
    intro i hi
    interval_cases i <;> rfl
  refine ⟨fun j => ?_, fun i => ?_, fun i hi => bus_reset_qhd_at b c s i hi, ⟨rfl, rfl⟩,
    ⟨?_, ?_⟩, ⟨rfl, rfl⟩, ⟨rfl, rfl⟩, ⟨rfl, rfl⟩, fun n h1 h5 => ?_, ?_⟩
  · rw [bus_reset_qtd_at]; exact ⟨rfl, rfl⟩
  · by_cases hi : 2 ≤ i
    · rw [bus_reset_qhd_at b c s i hi]; rfl
    · exact h01 i (by omega)
  · show b.TUSB_CFG_DEVICE_CONTROL_ENDOINT_SIZE % 2 ^ 11 = _
    exact Nat.mod_eq_of_lt hsize
  · show b.TUSB_CFG_DEVICE_CONTROL_ENDOINT_SIZE % 2 ^ 11 = _
    exact Nat.mod_eq_of_lt hsize
  · rw [bus_reset_ctrl b c s hctrl n h1 h5]
    exact ⟨by decide, by decide⟩
  · intro c2 cc desc hiso h1 h5
    rw [dcd_pipe_open_accepted c2 cc desc (bus_reset b c s) hiso]
    rw [bus_reset_ctrl b c s hctrl _ h1 h5]
    rcases dir_shift_cases desc.bEndpointAddress with h | h <;> rw [h] <;> decide

/-- C20, witness: a bus reset of the state in which two transfers are queued on endpoint 1
OUT. -/
theorem C20_bus_reset_state_witness :
    ex_two_queued.LPC_USB0.ENDPTCTRL.length = 6 ∧
    ex_build.TUSB_CFG_DEVICE_CONTROL_ENDOINT_SIZE < 2 ^ 11 ∧
    (ex_two_queued.dcd_data.qtd_at 2).used = 1 ∧
    (∀ j, (bus_reset ex_build 0 ex_two_queued).dcd_data.qtd_at j = dcd_qtd_t.zero ∧
      ((bus_reset ex_build 0 ex_two_queued).dcd_data.qtd_at j).used = 0) ∧
    (∀ i, ((bus_reset ex_build 0 ex_two_queued).dcd_data.qhd_at i).list_qtd_idx = [0, 0]) :=
  ⟨by decide, by decide, by decide,
    (C20_bus_reset_state ex_build 0 ex_two_queued (by decide) (by decide)).1,
    (C20_bus_reset_state ex_build 0 ex_two_queued (by decide) (by decide)).2.1⟩
/-- The invariant only depends on the lists and the `used` flags. -/
theorem pool_inv_of_same (d d1 : dcd_data_t) (h : pool_inv d)
    (hlen : d1.qtd.length = d.qtd.length)
    (hl : ∀ i, (d1.qhd_at i).list_qtd_idx = (d.qhd_at i).list_qtd_idx)
    (hu : ∀ j, (d1.qtd_at j).used = (d.qtd_at j).used) : pool_inv d1 := by
  obtain ⟨h0, h1, h2, h3⟩ := h
  refine ⟨by rw [hlen]; exact h0, fun i => ?_, fun i e he hne => ?_, fun i j hij e he hne => ?_⟩
  · rw [hl]; exact h1 i
  · rw [hl] at he; rw [hu]; exact h2 i e he hne
  · rw [hl] at he ⊢; exact h3 i j hij e he hne

/-- The invariant is kept when the lists only lose entries and the descriptors that are
still named stay used. -/
theorem pool_inv_of_sublists (d d1 : dcd_data_t) (h : pool_inv d)
    (hlen : d1.qtd.length = d.qtd.length)
    (hshape : ∀ i, ∃ a c, (d1.qhd_at i).list_qtd_idx = [a, c] ∧ (a = 0 → c = 0))
    (hsub : ∀ i, ∀ e ∈ (d1.qhd_at i).list_qtd_idx, e ≠ 0 → e ∈ (d.qhd_at i).list_qtd_idx)
    (hu : ∀ i, ∀ e ∈ (d1.qhd_at i).list_qtd_idx, e ≠ 0 → (d1.qtd_at e).used = 1) :
    pool_inv d1 := by
  obtain ⟨h0, _, _, h3⟩ := h
  refine ⟨by rw [hlen]; exact h0, hshape, hu, fun i j hij e he hne hej => ?_⟩
  exact h3 i j hij e (hsub i e he hne) hne (hsub j e hej hne)

/-- The invariant holds after a bus reset. -/
theorem pool_inv_bus_reset (b : build_t) (c : Nat) (s : system_t) :
    pool_inv (bus_reset b c s).dcd_data := by
  have hl : ∀ i, ((bus_reset b c s).dcd_data.qhd_at i).list_qtd_idx = [0, 0] := by
    intro i
    by_cases hi : 2 ≤ i
    · rw [bus_reset_qhd_at b c s i hi]; rfl
    · have : i < 2 := by omega
      interval_cases i <;> rfl
  refine ⟨rfl, fun i => ⟨0, 0, hl i, fun _ => rfl⟩, fun i e he hne => ?_,
    fun i j _ e he hne => ?_⟩
  · rw [hl] at he
    simp only [List.mem_cons, List.mem_singleton, List.not_mem_nil, or_false, or_self] at he
    exact absurd he hne
  · rw [hl] at he
    simp only [List.mem_cons, List.mem_singleton, List.not_mem_nil, or_false, or_self] at he
    exact absurd he hne

/-- The invariant is kept by `dcd_pipe_open`. -/
theorem pool_inv_open (c cc : Nat) (desc : tusb_descriptor_endpoint_t) (s : system_t)
    (h : pool_inv s.dcd_data) : pool_inv (dcd_pipe_open c desc cc s).2.dcd_data := by
  by_cases hr : desc.bmAttributes_xfer = TUSB_XFER_ISOCHRONOUS ∨
      s.LPC_USB0.ENDPTCTRL.getD (desc.bEndpointAddress &&& 0x0f) 0 &&&
        (ENDPTCTRL_MASK_ENABLE <<< dir_shift desc.bEndpointAddress) ≠ 0
  · rw [dcd_pipe_open_refused c cc desc s hr]; exact h
  · rw [dcd_pipe_open_accepted c cc desc s (fun hh => hr (Or.inl hh)) (fun hh => hr (Or.inr hh))]
    dsimp only
    have hl : ∀ i, ((s.dcd_data.set_qhd (edpt_addr2phy desc.bEndpointAddress)
        (opened_qhd desc cc)).qhd_at i).list_qtd_idx = [0, 0] ∨
        ((s.dcd_data.set_qhd (edpt_addr2phy desc.bEndpointAddress)
        (opened_qhd desc cc)).qhd_at i).list_qtd_idx = (s.dcd_data.qhd_at i).list_qtd_idx := by
      intro i
      rw [qhd_at_set_qhd]
      split
      · left; rfl
      · right; rfl
    have hsub : ∀ i, ∀ e ∈ ((s.dcd_data.set_qhd (edpt_addr2phy desc.bEndpointAddress)
        (opened_qhd desc cc)).qhd_at i).list_qtd_idx, e ≠ 0 →
        e ∈ (s.dcd_data.qhd_at i).list_qtd_idx := by
      intro i e he hne
      rcases hl i with h1 | h1
      · rw [h1] at he
        simp only [List.mem_cons, List.mem_singleton, List.not_mem_nil, or_false, or_self] at he
        exact absurd he hne
      · rw [h1] at he; exact he
    refine pool_inv_of_sublists s.dcd_data _ h rfl (fun i => ?_) hsub (fun i e he hne => ?_)
    · rcases hl i with h1 | h1
      · exact ⟨0, 0, h1, fun _ => rfl⟩
      · rw [h1]; exact h.2.1 i
    · rw [qtd_at_set_qhd]
      exact h.2.2.1 i e (hsub i e he hne) hne
/-- The `used` flags after a successful `pipe_add_xfer`: only the descriptor taken changes,
and it becomes used. -/
theorem used_after_add (b : build_t) (hdl : endpoint_handle_t) (buf len : Nat) (ioc : Bool)
    (s : system_t) (hlen : s.dcd_data.qtd.length = DCD_QTD_MAX)
    (hok : (pipe_add_xfer b hdl buf len ioc s).1 = tusb_error_t.TUSB_ERROR_NONE) (j : Nat) :
    ((pipe_add_xfer b hdl buf len ioc s).2.dcd_data.qtd_at j).used =
      if j = qtd_find_free hdl.coreid s.dcd_data then 1 else (s.dcd_data.qtd_at j).used := by
  obtain ⟨_, hq, _⟩ := (pipe_add_xfer_ok_iff b hdl buf len ioc s).1 hok
  obtain ⟨_, hq12, _, _⟩ := (qtd_find_free_spec hdl.coreid s.dcd_data).1 hq
  rw [pipe_add_xfer_ok_data b hdl buf len ioc s hok, used_add_linked, qtd_at_add_stored]
  by_cases hj : j = qtd_find_free hdl.coreid s.dcd_data
  · rw [if_pos ⟨hj.symm, by rw [hlen]; exact hq12⟩, if_pos hj]; exact add_qtd_used buf len ioc
  · rw [if_neg (fun hh => hj hh.1.symm), if_neg hj]

/-- The lists after a successful `pipe_add_xfer`: only the list of the queue head of the
handle changes, in the slot found free. -/
theorem list_after_add (b : build_t) (hdl : endpoint_handle_t) (buf len : Nat) (ioc : Bool)
    (s : system_t)
    (hok : (pipe_add_xfer b hdl buf len ioc s).1 = tusb_error_t.TUSB_ERROR_NONE) (i : Nat) :
    ((pipe_add_xfer b hdl buf len ioc s).2.dcd_data.qhd_at i).list_qtd_idx =
      if hdl.index = i ∧ hdl.index < s.dcd_data.qhd.length then
        (s.dcd_data.qhd_at hdl.index).list_qtd_idx.set
          (find_free_slot (s.dcd_data.qhd_at hdl.index).list_qtd_idx)
          (qtd_find_free hdl.coreid s.dcd_data)
      else (s.dcd_data.qhd_at i).list_qtd_idx := by
  rw [pipe_add_xfer_ok_data b hdl buf len ioc s hok, qhd_at_add_linked, qhd_at_add_stored]
  split <;> rfl

/-- The size of the descriptor array is kept by `pipe_add_xfer`. -/
theorem qtd_length_after_add (b : build_t) (hdl : endpoint_handle_t) (buf len : Nat)
    (ioc : Bool) (s : system_t) :
    (pipe_add_xfer b hdl buf len ioc s).2.dcd_data.qtd.length = s.dcd_data.qtd.length := by
  by_cases hok : (pipe_add_xfer b hdl buf len ioc s).1 = tusb_error_t.TUSB_ERROR_NONE
  · rw [pipe_add_xfer_ok_data b hdl buf len ioc s hok]
    unfold add_linked add_stored
    split
    · rw [qtd_length_set_qtd, qtd_length_set_qtd, qtd_length_set_qhd]
    · rw [qtd_length_set_qtd, qtd_length_set_qhd]
  · rw [pipe_add_xfer_fail_state b hdl buf len ioc s hok]

/-- A list `[a, c]` with its free slot filled by `q`: the shape is kept and every entry is
`q` or an entry of before. -/
theorem set_free_slot (a c q : Nat) (hq : q ≠ 0)
    (hk : find_free_slot [a, c] < DCD_QTD_PER_QHD_MAX) :
    (∃ a1 c1, [a, c].set (find_free_slot [a, c]) q = [a1, c1] ∧ (a1 = 0 → c1 = 0)) ∧
    ∀ e ∈ [a, c].set (find_free_slot [a, c]) q, e = q ∨ e ∈ [a, c] := by
  rw [find_free_slot_eq] at hk ⊢
  have e0 : [a, c].getD 0 0 = a := rfl
  have e1 : [a, c].getD 1 0 = c := rfl
  rw [e0, e1] at hk ⊢
  by_cases ha : a = 0
  · rw [if_pos ha]
    refine ⟨⟨q, c, rfl, fun h => absurd h hq⟩, fun e he => ?_⟩
    have he2 : e ∈ [q, c] := he
    simp only [List.mem_cons, List.mem_singleton, List.not_mem_nil, or_false] at he2 ⊢
    rcases he2 with h | h
    · left; exact h
    · right; right; exact h
  · rw [if_neg ha] at hk ⊢
    by_cases hc : c = 0
    · rw [if_pos hc]
      refine ⟨⟨a, q, rfl, fun h => absurd h ha⟩, fun e he => ?_⟩
      have he2 : e ∈ [a, q] := he
      simp only [List.mem_cons, List.mem_singleton, List.not_mem_nil, or_false] at he2 ⊢
      rcases he2 with h | h
      · right; left; exact h
      · left; exact h
    · rw [if_neg hc] at hk
      exact absurd hk (by decide)

/-- The invariant is kept by `pipe_add_xfer`. -/
theorem pool_inv_add (b : build_t) (hdl : endpoint_handle_t) (buf len : Nat) (ioc : Bool)
    (s : system_t) (h : pool_inv s.dcd_data) :
    pool_inv (pipe_add_xfer b hdl buf len ioc s).2.dcd_data := by
  by_cases hok : (pipe_add_xfer b hdl buf len ioc s).1 = tusb_error_t.TUSB_ERROR_NONE
  · obtain ⟨h0, h1, h2, h3⟩ := h
    obtain ⟨_, hq, hk⟩ := (pipe_add_xfer_ok_iff b hdl buf len ioc s).1 hok
    obtain ⟨_, _, hfree, _⟩ := (qtd_find_free_spec hdl.coreid s.dcd_data).1 hq
    have hU := used_after_add b hdl buf len ioc s h0 hok
    have hL := list_after_add b hdl buf len ioc s hok
    -- the descriptor taken is not named in any list
    have hF : ∀ i, qtd_find_free hdl.coreid s.dcd_data ∉ (s.dcd_data.qhd_at i).list_qtd_idx := by
      intro i hmem
      have := h2 i _ hmem hq
      rw [hfree] at this
      exact absurd this (by decide)
    obtain ⟨a, c, hl, _⟩ := h1 hdl.index
    rw [hl] at hk hL
    obtain ⟨hshape, hmem⟩ := set_free_slot a c _ hq hk
    have hP1 : ∀ i, ∀ e ∈ ((pipe_add_xfer b hdl buf len ioc s).2.dcd_data.qhd_at i).list_qtd_idx,
        e = qtd_find_free hdl.coreid s.dcd_data ∨ e ∈ (s.dcd_data.qhd_at i).list_qtd_idx := by
      intro i e he
      rw [hL] at he
      by_cases hc : hdl.index = i ∧ hdl.index < s.dcd_data.qhd.length
      · rw [if_pos hc] at he
        rw [← hc.1, hl]
        exact hmem e he
      · rw [if_neg hc] at he
        right; exact he
    have hP2 : ∀ i, i ≠ hdl.index →
        ((pipe_add_xfer b hdl buf len ioc s).2.dcd_data.qhd_at i).list_qtd_idx =
          (s.dcd_data.qhd_at i).list_qtd_idx := by
      intro i hi
      rw [hL, if_neg (fun hh => hi hh.1.symm)]
    refine ⟨by rw [qtd_length_after_add]; exact h0, fun i => ?_, fun i e he hne => ?_,
      fun i j hij e he hne hej => ?_⟩
    · rw [hL]
      by_cases hc : hdl.index = i ∧ hdl.index < s.dcd_data.qhd.length
      · rw [if_pos hc]; exact hshape
      · rw [if_neg hc]; exact h1 i
    · rw [hU]
      by_cases hq2 : e = qtd_find_free hdl.coreid s.dcd_data
      · rw [if_pos hq2]
      · rw [if_neg hq2]
        rcases hP1 i e he with h4 | h4
        · exact absurd h4 hq2
        · exact h2 i e h4 hne
    · by_cases hq2 : e = qtd_find_free hdl.coreid s.dcd_data
      · by_cases hi : i = hdl.index
        · have hj : j ≠ hdl.index := fun hh => hij (hi.trans hh.symm)
          rw [hP2 j hj, hq2] at hej
          exact hF j hej
        · rw [hP2 i hi, hq2] at he
          exact hF i he
      · rcases hP1 i e he with h4 | h4
        · exact absurd h4 hq2
        · rcases hP1 j e hej with h5 | h5
          · exact absurd h5 hq2
          · exact h3 i j hij e h4 hne h5
  · rw [pipe_add_xfer_fail_state b hdl buf len ioc s hok]; exact h
/-- The invariant is kept by `dcd_pipe_xfer`. -/
theorem pool_inv_xfer (b : build_t) (hdl : endpoint_handle_t) (buf len : Nat) (ioc : Bool)
    (s : system_t) (h : pool_inv s.dcd_data) :
    pool_inv (dcd_pipe_xfer b hdl buf len ioc s).2.dcd_data := by
  have hadd := pool_inv_add b hdl buf len ioc s h
  by_cases hok : (pipe_add_xfer b hdl buf len ioc s).1 = tusb_error_t.TUSB_ERROR_NONE
  · rw [dcd_pipe_xfer_ok_state b hdl buf len ioc s hok]
    dsimp only
    refine pool_inv_of_same _ _ hadd rfl (fun i => ?_) (fun j => ?_)
    · rw [qhd_at_set_qhd]
      split
      · next hc => rw [← hc.1]
      · rfl
    · rw [qtd_at_set_qhd]
  · have hst : (dcd_pipe_xfer b hdl buf len ioc s).2 = (pipe_add_xfer b hdl buf len ioc s).2 := by
      unfold dcd_pipe_xfer
      cases h2 : pipe_add_xfer b hdl buf len ioc s with
      | mk e s1 =>
        rw [h2] at hok
        cases e
        · exact absurd rfl hok
        · rfl
        · rfl
        · rfl
    rw [hst]; exact hadd

/-- The lists of the other queue heads are not touched by a retirement. -/
theorem list_retired_other (d : dcd_data_t) (ep_idx i : Nat) (h : i ≠ ep_idx) :
    (retired d ep_idx).qhd_at i = d.qhd_at i := by
  unfold retired
  rw [qhd_at_set_qhd, if_neg (fun hh => h hh.1.symm), qhd_at_set_qtd]

/-- The size of the descriptor array is kept by a retirement. -/
theorem qtd_length_retired (d : dcd_data_t) (ep_idx : Nat) :
    (retired d ep_idx).qtd.length = d.qtd.length := by
  unfold retired
  rw [qtd_length_set_qhd, qtd_length_set_qtd]

/-- The invariant is kept by the retirement of the head `D` of a list `[D, c]` with
`c ≠ D`. -/
theorem pool_inv_retired (d : dcd_data_t) (ep_idx D c : Nat) (h : pool_inv d)
    (hl : (d.qhd_at ep_idx).list_qtd_idx = [D, c]) (hD : D ≠ 0) (hc : c ≠ D) :
    pool_inv (retired d ep_idx) := by
  have hh : (d.qhd_at ep_idx).list_qtd_idx.getD 0 0 = D := by rw [hl]; rfl
  have hin := qhd_in_range d ep_idx (by rw [hh]; exact hD)
  have hl1 : ((retired d ep_idx).qhd_at ep_idx).list_qtd_idx = [c, c] := by
    rw [list_retired _ _ hin, hl]; rfl
  obtain ⟨_, h1, h2, h3⟩ := h
  have hDmem : D ∈ (d.qhd_at ep_idx).list_qtd_idx := by
    rw [hl]; exact List.mem_cons_self _ _
  have hcmem : c ∈ (d.qhd_at ep_idx).list_qtd_idx := by
    rw [hl]; exact List.mem_cons_of_mem _ (List.mem_cons_self _ _)
  have hsub : ∀ i, ∀ e ∈ ((retired d ep_idx).qhd_at i).list_qtd_idx, e ≠ 0 →
      e ∈ (d.qhd_at i).list_qtd_idx := by
    intro i e he _
    by_cases hi : i = ep_idx
    · rw [hi] at he ⊢
      rw [hl1] at he
      simp only [List.mem_cons, List.mem_singleton, List.not_mem_nil, or_false, or_self] at he
      rw [he]; exact hcmem
    · rw [list_retired_other d ep_idx i hi] at he; exact he
  refine pool_inv_of_sublists d _ ⟨‹_›, h1, h2, h3⟩ (qtd_length_retired d ep_idx)
    (fun i => ?_) hsub (fun i e he hne => ?_)
  · by_cases hi : i = ep_idx
    · rw [hi, hl1]; exact ⟨c, c, rfl, fun hh => hh⟩
    · rw [list_retired_other d ep_idx i hi]; exact h1 i
  · have heD : e ≠ D := by
      by_cases hi : i = ep_idx
      · rw [hi, hl1] at he
        simp only [List.mem_cons, List.mem_singleton, List.not_mem_nil, or_false, or_self] at he
        rw [he]; exact hc
      · rw [list_retired_other d ep_idx i hi] at he
        intro heq
        rw [heq] at he
        exact h3 ep_idx i (fun hh => hi hh.symm) D hDmem hD he
    rw [qtd_at_retired, hh, if_neg (fun hh2 => heD hh2.symm)]
    exact h2 i e (hsub i e he hne) hne

/-- The invariant holds in the state in which the retire loop of a queue head is left. -/
theorem pool_inv_retire_loop (ep_idx : Nat) (hdl : endpoint_handle_t) :
    ∀ (fuel : Nat) (s t : system_t), pool_inv s.dcd_data →
      retire_loop ep_idx hdl fuel s = some t → pool_inv t.dcd_data := by
  intro fuel
  induction fuel with
  | zero => intro s t _ h; exact absurd h (by simp [retire_loop])
  | succ n ih =>
    intro s t hinv hrun
    unfold retire_loop at hrun
    by_cases hleave : (s.dcd_data.qhd_at ep_idx).list_qtd_idx.getD 0 0 = 0 ∨
        (s.dcd_data.qtd_at ((s.dcd_data.qhd_at ep_idx).list_qtd_idx.getD 0 0)).active ≠ 0
    · rw [retire_body_leave ep_idx hdl s hleave] at hrun
      simp only [Option.some.injEq] at hrun
      rw [← hrun]; exact hinv
    · have h0 : (s.dcd_data.qhd_at ep_idx).list_qtd_idx.getD 0 0 ≠ 0 :=
        fun hh => hleave (Or.inl hh)
      have ha : (s.dcd_data.qtd_at ((s.dcd_data.qhd_at ep_idx).list_qtd_idx.getD 0 0)).active = 0 :=
        not_not.1 (fun hh => hleave (Or.inr hh))
      rw [retire_body_again ep_idx hdl s h0 ha] at hrun
      dsimp only at hrun
      obtain ⟨D, c, hl, _⟩ := hinv.2.1 ep_idx
      have hh : (s.dcd_data.qhd_at ep_idx).list_qtd_idx.getD 0 0 = D := by rw [hl]; rfl
      rw [hh] at h0 ha
      by_cases hc : c = D
      · -- the list is `[D, D]`: the loop cannot be left
        exfalso
        rw [hc] at hl
        have hin := qhd_in_range s.dcd_data ep_idx (by rw [hh]; exact h0)
        have hdiv := retire_loop_diverges ep_idx hdl D h0 n
          { s with
            dcd_data := retired s.dcd_data ep_idx
            calls := s.calls ++
              xfer_report hdl
                (s.dcd_data.qtd_at ((s.dcd_data.qhd_at ep_idx).list_qtd_idx.getD 0 0)) }
          D h0
          (by
            show ((retired s.dcd_data ep_idx).qhd_at ep_idx).list_qtd_idx = [D, D]
            rw [list_retired _ _ hin, hl]; rfl)
          (by
            show ((retired s.dcd_data ep_idx).qtd_at D).active = 0
            rw [active_retired]; exact ha)
          (by
            show ((retired s.dcd_data ep_idx).qtd_at D).active = 0
            rw [active_retired]; exact ha)
        rw [hdiv] at hrun
        exact absurd hrun (by simp)
      · exact ih _ t (pool_inv_retired s.dcd_data ep_idx D c hinv hl h0 hc) hrun
/-- The invariant holds in the state that a completion pass returns. -/
theorem pool_inv_complete (fuel c r : Nat) (s t : system_t) (h : pool_inv s.dcd_data)
    (hrun : xfer_complete_isr fuel c r s = some t) : pool_inv t.dcd_data := by
  have hfold : ∀ (l : List Nat) (s1 t1 : system_t), pool_inv s1.dcd_data →
      l.foldlM (fun s2 ep => xfer_complete_slot fuel c (r % 2 ^ 8) ep s2) s1 = some t1 →
      pool_inv t1.dcd_data := by
    intro l
    induction l with
    | nil =>
      intro s1 t1 h1 hr
      have : s1 = t1 := by simpa [List.foldlM] using hr
      rw [← this]; exact h1
    | cons a l ih =>
      intro s1 t1 h1 hr
      rw [List.foldlM_cons] at hr
      cases hs : xfer_complete_slot fuel c (r % 2 ^ 8) a s1 with
      | none => rw [hs] at hr; exact absurd hr (by simp)
      | some s2 =>
        rw [hs] at hr
        refine ih s2 t1 ?_ hr
        unfold xfer_complete_slot at hs
        split at hs
        · exact pool_inv_retire_loop a _ fuel s1 s2 h1 hs
        · simp only [Option.some.injEq] at hs
          rw [← hs]; exact h1
  unfold xfer_complete_isr at hrun
  dsimp only at hrun
  refine hfold _ _ t ?_ hrun
  split
  · exact h
  · exact h

/-- The invariant holds in every reachable state. -/
theorem pool_inv_reachable (b : build_t) (s : system_t) (h : reachable b s) :
    pool_inv s.dcd_data := by
  induction h with
  | by_reset c s0 => exact pool_inv_bus_reset b c s0
  | by_open c desc cc s _ ih => exact pool_inv_open c cc desc s ih
  | by_add hdl buf len ioc s _ ih => exact pool_inv_add b hdl buf len ioc s ih
  | by_queue hdl buf len s _ ih => exact pool_inv_add b hdl buf len false s ih
  | by_xfer hdl buf len ioc s _ ih => exact pool_inv_xfer b hdl buf len ioc s ih
  | by_complete fuel c r s t _ hrun ih => exact pool_inv_complete fuel c r s t ih hrun
  | by_hw s t _ hstep ih => exact pool_inv_of_same _ _ ih hstep.2.1 hstep.2.2.1 hstep.2.2.2

/-- The controller finishing a descriptor is a step of the controller. -/
theorem hw_step_qtd_done (i : Nat) (s : system_t) : hw_step s (hw_qtd_done i s) := by
  unfold hw_step hw_qtd_done
  dsimp only
  refine ⟨rfl, qtd_length_set_qtd _ _ _, fun _ => rfl, fun j => ?_⟩
  rw [qtd_at_set_qtd]
  split
  · next hc => rw [← hc.1]
  · rfl

/-- C19: in every state reachable from a bus reset through `dcd_pipe_open`,
`pipe_add_xfer`, `dcd_pipe_queue_xfer`, `dcd_pipe_xfer`, completion passes of
`xfer_complete_isr` that return and steps of the controller (which touch neither the lists
nor the `used` flags), the list of every queue head has `DCD_QTD_PER_QHD_MAX` slots, an
empty slot is followed only by empty slots, and every non-zero entry names a descriptor
whose `used` flag is 1. -/
theorem C19_queue_invariant (b : build_t) (s : system_t) (h : reachable b s) (i : Nat) :
    (s.dcd_data.qhd_at i).list_qtd_idx.length = DCD_QTD_PER_QHD_MAX ∧
    (∀ k k1, k < k1 → (s.dcd_data.qhd_at i).list_qtd_idx.getD k 0 = 0 →
      (s.dcd_data.qhd_at i).list_qtd_idx.getD k1 0 = 0) ∧
    (∀ k, (s.dcd_data.qhd_at i).list_qtd_idx.getD k 0 ≠ 0 →
      (s.dcd_data.qtd_at ((s.dcd_data.qhd_at i).list_qtd_idx.getD k 0)).used = 1) := by
  obtain ⟨_, h1, h2, _⟩ := pool_inv_reachable b s h
  obtain ⟨a, c, hl, hac⟩ := h1 i
  have hmem : ∀ k, (s.dcd_data.qhd_at i).list_qtd_idx.getD k 0 ≠ 0 →
      (s.dcd_data.qhd_at i).list_qtd_idx.getD k 0 ∈ (s.dcd_data.qhd_at i).list_qtd_idx := by
    intro k hk
    rw [hl] at hk ⊢
    match k with
    | 0 => exact List.mem_cons_self _ _
    | 1 => exact List.mem_cons_of_mem _ (List.mem_cons_self _ _)
    | k + 2 => exact absurd rfl hk
  refine ⟨by rw [hl]; rfl, fun k k1 hk h0 => ?_, fun k hk => h2 i _ (hmem k hk) hk⟩
  rw [hl] at h0 ⊢
  match k, k1, hk with
  | 0, 1, _ => exact hac h0
  | 0, k1 + 2, _ => rfl
  | k + 1, k1 + 2, _ => rfl
  | k + 1, 1, hk => omega
  | k, 0, hk => omega

/-- C19, witness: the state reached by a bus reset, the opening of the endpoints 1 OUT and
1 IN, two transfers on endpoint 1 OUT, the end of the first one and the completion pass
that retires it; the list of endpoint 1 OUT is then `[3, 3]`, descriptor 3 being used. -/
theorem C19_queue_invariant_witness :
    ∃ s, reachable ex_build s ∧ xfer_complete_isr 2 0 (BIT_ (edpt_phy2pos 2)) ex_first_done = some s ∧
      (s.dcd_data.qhd_at 2).list_qtd_idx.length = DCD_QTD_PER_QHD_MAX ∧
      (∀ k, (s.dcd_data.qhd_at 2).list_qtd_idx.getD k 0 ≠ 0 →
        (s.dcd_data.qtd_at ((s.dcd_data.qhd_at 2).list_qtd_idx.getD k 0)).used = 1) := by
  have hr : reachable ex_build ex_first_done :=
    reachable.by_hw _ _
      (reachable.by_xfer ex_ep1_out 0x10000300 512 true _
        (reachable.by_queue ex_ep1_out 0x10000100 512 _
          (reachable.by_open 0 ex_desc_in 3 _
            (reachable.by_open 0 ex_desc_out 3 _ (reachable.by_reset 0 _)))))
      (hw_step_qtd_done 2 ex_two_queued)
  cases hs : xfer_complete_isr 2 0 (BIT_ (edpt_phy2pos 2)) ex_first_done with
  | none => exact absurd hs (by decide)
  | some s =>
    have hr2 : reachable ex_build s := reachable.by_complete 2 0 _ _ s hr hs
    exact ⟨s, hr2, rfl, (C19_queue_invariant ex_build s hr2 2).1,
      (C19_queue_invariant ex_build s hr2 2).2.2⟩
/-- Counting after one more element satisfies the predicate. -/
theorem countP_one_more (p p1 : Nat → Bool) (q : Nat) :
    ∀ (l : List Nat), l.Nodup → q ∈ l → p q = false → p1 q = true →
      (∀ j, j ≠ q → p1 j = p j) → l.countP p1 = l.countP p + 1 := by
  intro l
  induction l with
  | nil => intro _ hm; exact absurd hm (List.not_mem_nil _)
  | cons a l ih =>
    intro hnd hm hp hp1 hsame
    rw [List.nodup_cons] at hnd
    by_cases ha : a = q
    · subst ha
      rw [List.countP_cons_of_pos _ _ hp1, List.countP_cons_of_neg _ _ (by rw [hp]; decide)]
      congr 1
      apply List.countP_congr
      intro x hx
      have hxa : x ≠ a := fun hh => hnd.1 (hh ▸ hx)
      rw [hsame x hxa]
    · have hm2 : q ∈ l := by
        rcases List.mem_cons.1 hm with h1 | h1
        · exact absurd h1.symm ha
        · exact h1
      have hih := ih hnd.2 hm2 hp hp1 hsame
      by_cases hpa : p a = true
      · rw [List.countP_cons_of_pos _ _ hpa,
          List.countP_cons_of_pos _ _ (by rw [hsame a ha]; exact hpa), hih]
      · rw [List.countP_cons_of_neg _ _ hpa,
          List.countP_cons_of_neg _ _ (by rw [hsame a ha]; exact hpa), hih]

/-- A successful `pipe_add_xfer` takes one more descriptor of the shared pool. -/
theorem used_count_after_add (b : build_t) (hdl : endpoint_handle_t) (buf len : Nat)
    (ioc : Bool) (s : system_t) (hlen : s.dcd_data.qtd.length = DCD_QTD_MAX)
    (hok : (pipe_add_xfer b hdl buf len ioc s).1 = tusb_error_t.TUSB_ERROR_NONE) :
    used_count (pipe_add_xfer b hdl buf len ioc s).2.dcd_data = used_count s.dcd_data + 1 := by
  obtain ⟨_, hq, _⟩ := (pipe_add_xfer_ok_iff b hdl buf len ioc s).1 hok
  obtain ⟨hq2, hq12, hfree, _⟩ := (qtd_find_free_spec hdl.coreid s.dcd_data).1 hq
  have hU := used_after_add b hdl buf len ioc s hlen hok
  unfold used_count
  apply countP_one_more _ _ (qtd_find_free hdl.coreid s.dcd_data) _ (List.nodup_range' _ _)
  · rw [List.mem_range'_1]
    simp only [DCD_QTD_MAX] at hq12 ⊢
    omega
  · rw [hfree]; rfl
  · rw [hU, if_pos rfl]; rfl
  · intro j hj
    rw [hU, if_neg hj]

/-- When the ten descriptors of the shared pool are in use, none is free. -/
theorem find_free_of_count (c : Nat) (d : dcd_data_t) (h : used_count d = DCD_QTD_MAX - 2) :
    qtd_find_free c d = 0 := by
  rw [(qtd_find_free_spec c d).2]
  intro j h2 h12
  unfold used_count at h
  have hall := (List.countP_eq_length).1
    (h.trans (List.length_range' 2 1 (DCD_QTD_MAX - 2)).symm) j
    (by rw [List.mem_range'_1]; simp only [DCD_QTD_MAX] at h12 ⊢; omega)
  simpa using hall

/-- With no free descriptor `pipe_add_xfer` fails with `TUSB_ERROR_DCD_NOT_ENOUGH_QTD` for
every handle that is not isochronous. -/
theorem pipe_add_xfer_no_qtd (b : build_t) (hdl : endpoint_handle_t) (buf len : Nat)
    (ioc : Bool) (s : system_t) (hiso : hdl.xfer_type ≠ TUSB_XFER_ISOCHRONOUS)
    (hq : qtd_find_free hdl.coreid s.dcd_data = 0) :
    (pipe_add_xfer b hdl buf len ioc s).1 = tusb_error_t.TUSB_ERROR_DCD_NOT_ENOUGH_QTD := by
  unfold pipe_add_xfer
  dsimp only
  rw [if_neg hiso, if_pos hq]

/-- A handle returned by `dcd_pipe_open` is never isochronous. -/
theorem open_handle_not_iso (c cc : Nat) (desc : tusb_descriptor_endpoint_t) (u : system_t) :
    (dcd_pipe_open c desc cc u).1.xfer_type ≠ TUSB_XFER_ISOCHRONOUS := by
  by_cases hr : desc.bmAttributes_xfer = TUSB_XFER_ISOCHRONOUS ∨
      u.LPC_USB0.ENDPTCTRL.getD (desc.bEndpointAddress &&& 0x0f) 0 &&&
        (ENDPTCTRL_MASK_ENABLE <<< dir_shift desc.bEndpointAddress) ≠ 0
  · rw [dcd_pipe_open_refused c cc desc u hr]
    show null_handle.xfer_type ≠ TUSB_XFER_ISOCHRONOUS
    decide
  · rw [dcd_pipe_open_accepted c cc desc u (fun hh => hr (Or.inl hh)) (fun hh => hr (Or.inr hh))]
    exact fun hh => hr (Or.inl hh)

/-- The descriptors are not touched by a sequence of `dcd_pipe_open` calls, and the state
reached is reachable. -/
theorem open_all_facts (b : build_t) :
    ∀ (opens : List (Nat × tusb_descriptor_endpoint_t × Nat)) (s : system_t),
      reachable b s →
      reachable b (open_all opens s) ∧ (open_all opens s).dcd_data.qtd = s.dcd_data.qtd := by
  intro opens
  induction opens with
  | nil => intro s h; exact ⟨h, rfl⟩
  | cons o rest ih =>
    intro s h
    obtain ⟨c, desc, cc⟩ := o
    have h1 := ih (dcd_pipe_open c desc cc s).2 (reachable.by_open c desc cc s h)
    refine ⟨h1.1, h1.2.trans ?_⟩
    by_cases hr : desc.bmAttributes_xfer = TUSB_XFER_ISOCHRONOUS ∨
        s.LPC_USB0.ENDPTCTRL.getD (desc.bEndpointAddress &&& 0x0f) 0 &&&
          (ENDPTCTRL_MASK_ENABLE <<< dir_shift desc.bEndpointAddress) ≠ 0
    · rw [dcd_pipe_open_refused c cc desc s hr]
    · rw [dcd_pipe_open_accepted c cc desc s (fun hh => hr (Or.inl hh))
        (fun hh => hr (Or.inr hh))]
      rfl

/-- A sequence of successful `pipe_add_xfer` calls takes as many descriptors as it has
calls, and the state reached is reachable. -/
theorem enqueue_all_facts (b : build_t) :
    ∀ (reqs : List (endpoint_handle_t × Nat × Nat × Bool)) (s t : system_t),
      reachable b s → enqueue_all b reqs s = some t →
      reachable b t ∧ used_count t.dcd_data = used_count s.dcd_data + reqs.length := by
  intro reqs
  induction reqs with
  | nil =>
    intro s t h hrun
    have : s = t := by simpa [enqueue_all] using hrun
    rw [← this]; exact ⟨h, rfl⟩
  | cons r rest ih =>
    intro s t h hrun
    obtain ⟨hdl, buf, len, ioc⟩ := r
    unfold enqueue_all at hrun
    by_cases hok : (pipe_add_xfer b hdl buf len ioc s).1 = tusb_error_t.TUSB_ERROR_NONE
    · rw [if_pos hok] at hrun
      obtain ⟨h1, h2⟩ := ih _ t (reachable.by_add hdl buf len ioc s h) hrun
      refine ⟨h1, ?_⟩
      rw [h2, used_count_after_add b hdl buf len ioc s (pool_inv_reachable b s h).1 hok,
        List.length_cons]
      omega
    · rw [if_neg hok] at hrun
      exact absurd hrun (by simp)
/-- An option that is some value is the value that `getD` reads. -/
theorem some_getD_of_isSome {α : Type} (o : Option α) (d : α) (h : o.isSome = true) :
    o = some (o.getD d) := by
  cases o with
  | none => exact absurd h (by simp)
  | some v => rfl

/-- The count of used descriptors depends on the `used` flags only. -/
theorem used_count_congr (d1 d2 : dcd_data_t)
    (h : ∀ j, (d1.qtd_at j).used = (d2.qtd_at j).used) : used_count d1 = used_count d2 := by
  unfold used_count
  apply List.countP_congr
  intro x _
  rw [h x]

/-- No descriptor of the shared pool is in use after a bus reset. -/
theorem used_count_bus_reset (b : build_t) (c : Nat) (s0 : system_t) :
    used_count (bus_reset b c s0).dcd_data = 0 := by
  unfold used_count
  rw [List.countP_eq_zero]
  intro j _
  rw [bus_reset_qtd_at]
  decide

/-- When exactly one descriptor of the shared pool is free, a successful `pipe_add_xfer`
takes it and none is left. -/
theorem last_descriptor_taken (b : build_t) (hdl : endpoint_handle_t) (buf len : Nat)
    (ioc : Bool) (t : system_t) (d c : Nat) (hlen : t.dcd_data.qtd.length = DCD_QTD_MAX)
    (hothers : ∀ j, 2 ≤ j → j < DCD_QTD_MAX → j ≠ d → (t.dcd_data.qtd_at j).used ≠ 0)
    (hok : (pipe_add_xfer b hdl buf len ioc t).1 = tusb_error_t.TUSB_ERROR_NONE) :
    qtd_find_free c (pipe_add_xfer b hdl buf len ioc t).2.dcd_data = 0 := by
  obtain ⟨_, hq, _⟩ := (pipe_add_xfer_ok_iff b hdl buf len ioc t).1 hok
  obtain ⟨hq2, hq12, hfree, _⟩ := (qtd_find_free_spec hdl.coreid t.dcd_data).1 hq
  have hqd : qtd_find_free hdl.coreid t.dcd_data = d := by
    by_contra hne
    exact hothers _ hq2 hq12 hne hfree
  rw [(qtd_find_free_spec c _).2]
  intro j h2 h12
  rw [used_after_add b hdl buf len ioc t hlen hok j, hqd]
  by_cases hj : j = d
  · rw [if_pos hj]; decide
  · rw [if_neg hj]; exact hothers j h2 h12 hj
/-- C11 (Scenario E): start from a bus reset followed by any sequence of `dcd_pipe_open`
calls, and let ten (`DCD_QTD_MAX - 2`) `pipe_add_xfer` calls succeed with no retirement in
between, reaching the state `s`. Then `pipe_add_xfer` on any handle that `dcd_pipe_open`
returns fails in `s` with `TUSB_ERROR_DCD_NOT_ENOUGH_QTD`. If, after steps of the
controller, a completion pass returns a state `t` in which exactly one descriptor `d` of
the shared pool is free (the pass retired exactly one descriptor), then one
`pipe_add_xfer` on a handle whose queue has a free slot succeeds, and the next
`pipe_add_xfer` on any handle fails again with `TUSB_ERROR_DCD_NOT_ENOUGH_QTD`. -/
theorem C11_scenario_E_pool_exhaustion (b : build_t) (c : Nat) (s0 s : system_t)
    (opens : List (Nat × tusb_descriptor_endpoint_t × Nat))
    (reqs : List (endpoint_handle_t × Nat × Nat × Bool))
    (hn : reqs.length = DCD_QTD_MAX - 2)
    (hrun : enqueue_all b reqs (open_all opens (bus_reset b c s0)) = some s) :
    (∀ co desc cc u buf len ioc,
      (pipe_add_xfer b (dcd_pipe_open co desc cc u).1 buf len ioc s).1 =
        tusb_error_t.TUSB_ERROR_DCD_NOT_ENOUGH_QTD) ∧
    (∀ s1 fuel c2 r t d, hw_step s s1 → xfer_complete_isr fuel c2 r s1 = some t →
      2 ≤ d → d < DCD_QTD_MAX → (t.dcd_data.qtd_at d).used = 0 →
      (∀ j, 2 ≤ j → j < DCD_QTD_MAX → j ≠ d → (t.dcd_data.qtd_at j).used ≠ 0) →
      ∀ co desc cc u buf len ioc,
        find_free_slot (t.dcd_data.qhd_at (dcd_pipe_open co desc cc u).1.index).list_qtd_idx <
          DCD_QTD_PER_QHD_MAX →
        (pipe_add_xfer b (dcd_pipe_open co desc cc u).1 buf len ioc t).1 =
          tusb_error_t.TUSB_ERROR_NONE ∧
        ∀ co2 desc2 cc2 u2 buf2 len2 ioc2,
          (pipe_add_xfer b (dcd_pipe_open co2 desc2 cc2 u2).1 buf2 len2 ioc2
            (pipe_add_xfer b (dcd_pipe_open co desc cc u).1 buf len ioc t).2).1 =
            tusb_error_t.TUSB_ERROR_DCD_NOT_ENOUGH_QTD) := by
  obtain ⟨hr0, hq0⟩ := open_all_facts b opens _ (reachable.by_reset c s0)
  obtain ⟨hrs, hcount⟩ := enqueue_all_facts b reqs _ s hr0 hrun
  have hstart : used_count (open_all opens (bus_reset b c s0)).dcd_data = 0 := by
    rw [used_count_congr _ (bus_reset b c s0).dcd_data
      (fun j => by unfold dcd_data_t.qtd_at; rw [hq0])]
    exact used_count_bus_reset b c s0
  rw [hstart, hn, Nat.zero_add] at hcount
  refine ⟨fun co desc cc u buf len ioc =>
    pipe_add_xfer_no_qtd b _ buf len ioc s (open_handle_not_iso co cc desc u)
      (find_free_of_count _ _ hcount), ?_⟩
  intro s1 fuel c2 r t d hstep hpass hd2 hd12 hfree hothers co desc cc u buf len ioc hslot
  have hrt : reachable b t := reachable.by_complete fuel c2 r s1 t (reachable.by_hw s s1 hrs hstep) hpass
  have hlen := (pool_inv_reachable b t hrt).1
  have hfind : qtd_find_free (dcd_pipe_open co desc cc u).1.coreid t.dcd_data ≠ 0 := by
    intro h0
    exact (qtd_find_free_spec _ _).2.1 h0 d hd2 hd12 hfree
  have hok := (pipe_add_xfer_ok_iff b (dcd_pipe_open co desc cc u).1 buf len ioc t).2
    ⟨open_handle_not_iso co cc desc u, hfind, hslot⟩
  refine ⟨hok, fun co2 desc2 cc2 u2 buf2 len2 ioc2 => ?_⟩
  exact pipe_add_xfer_no_qtd b _ buf2 len2 ioc2 _ (open_handle_not_iso co2 cc2 desc2 u2)
    (last_descriptor_taken b _ buf len ioc t d _ hlen hothers hok)

set_option maxRecDepth 8192 in
/-- C11, witness: ten endpoints opened after a bus reset and one transfer enqueued on each
of them; enqueueing on endpoint 1 IN then fails. After the controller finished
descriptor 2 and the completion pass for endpoint 1 OUT retired it, one more transfer on
endpoint 1 OUT is accepted and the next one, on endpoint 1 IN, is refused. -/
theorem C11_scenario_E_pool_exhaustion_witness :
    ex_ten_reqs.length = DCD_QTD_MAX - 2 ∧
    (pipe_add_xfer ex_build ex_ep1_in 0x10002000 512 true ex_pool_full).1 =
      tusb_error_t.TUSB_ERROR_DCD_NOT_ENOUGH_QTD ∧
    (pipe_add_xfer ex_build ex_ep1_out 0x10002000 512 true ex_pool_one_free).1 =
      tusb_error_t.TUSB_ERROR_NONE ∧
    (pipe_add_xfer ex_build ex_ep1_in 0x10002200 512 true
      (pipe_add_xfer ex_build ex_ep1_out 0x10002000 512 true ex_pool_one_free).2).1 =
      tusb_error_t.TUSB_ERROR_DCD_NOT_ENOUGH_QTD := by
  have h := C11_scenario_E_pool_exhaustion ex_build 0
    { dcd_data := dcd_data_t.zero, LPC_USB0 := ex_regs, calls := [] } ex_pool_full
    ex_ten_opens ex_ten_reqs (by decide) (some_getD_of_isSome _ _ (by decide))
  have h2 := h.2 (hw_qtd_done 2 ex_pool_full) 2 0 (BIT_ (edpt_phy2pos 2)) ex_pool_one_free 2
    (hw_step_qtd_done 2 ex_pool_full) (some_getD_of_isSome _ _ (by decide))
    (by decide) (by decide) (by decide)
    (by intro j h2 h12 hj; simp only [DCD_QTD_MAX] at h12; interval_cases j <;> first | exact absurd rfl hj | decide)
    0 ex_desc_out 3 ex_reset 0x10002000 512 true (by decide)
  exact ⟨by decide,
    h.1 0 ex_desc_in 3 (dcd_pipe_open 0 ex_desc_out 3 ex_reset).2 0x10002000 512 true,
    h2.1,
    h2.2 0 ex_desc_in 3 (dcd_pipe_open 0 ex_desc_out 3 ex_reset).2 0x10002200 512 true⟩
/-- C21: the slot/bit translators are mutually inverse. For every bit position `pos` in
0..5 or 16..21, `edpt_phy2pos (edpt_pos2phy pos) = pos`; for every physical slot `p` in
0..11, `edpt_pos2phy (edpt_phy2pos p) = p`; and for every endpoint address `a` whose
endpoint number `n = a & 0x0F` is in 0..5, `edpt_addr2phy a` is `2n + 1` for a
device-to-host address and `2n` otherwise, `edpt_phy2log` of that slot is `n`, and
`edpt_phy2pos` of that slot is `n + 16` for device-to-host (IN) and `n` otherwise (OUT). -/
theorem C21_translators_inverse :
    (∀ pos, (pos < DCD_QHD_MAX / 2 ∨ (16 ≤ pos ∧ pos < 16 + DCD_QHD_MAX / 2)) →
      edpt_phy2pos (edpt_pos2phy pos) = pos) ∧
    (∀ p, p < DCD_QHD_MAX → edpt_pos2phy (edpt_phy2pos p) = p) ∧
    (∀ a, a &&& 0x0F ≤ 5 →
      edpt_addr2phy a =
        2 * (a &&& 0x0F) + (if a &&& TUSB_DIR_DEV_TO_HOST_MASK ≠ 0 then 1 else 0) ∧
      edpt_phy2log (edpt_addr2phy a) = a &&& 0x0F ∧
      edpt_phy2pos (edpt_addr2phy a) =
        (a &&& 0x0F) + (if a &&& TUSB_DIR_DEV_TO_HOST_MASK ≠ 0 then 16 else 0)) := by
  refine ⟨fun pos h => ?_, fun p h => ?_, fun a h => ?_⟩
  · simp only [DCD_QHD_MAX] at h
    rcases h with h | ⟨h1, h2⟩
    · interval_cases pos <;> rfl
    · interval_cases pos <;> rfl
  · simp only [DCD_QHD_MAX] at h
    interval_cases p <;> rfl
  · rw [edpt_addr2phy_eq a h]
    refine ⟨rfl, ?_, ?_⟩
    · unfold edpt_phy2log
      split <;> omega
    · unfold edpt_phy2pos
      generalize a &&& 0x0F = n at h ⊢
      by_cases hd : a &&& TUSB_DIR_DEV_TO_HOST_MASK ≠ 0
      · rw [if_pos hd, if_pos hd]
        interval_cases n <;> rfl
      · rw [if_neg hd, if_neg hd]
        interval_cases n <;> rfl

/-- C21, witness: bit position 17 and the physical slot 3 are translated into each other,
and the address `0x81` (endpoint 1 IN) has slot 3, endpoint number 1 and bit position 17. -/
theorem C21_translators_inverse_witness :
    edpt_phy2pos (edpt_pos2phy 17) = 17 ∧ edpt_pos2phy (edpt_phy2pos 3) = 3 ∧
    edpt_addr2phy 0x81 = 3 ∧ edpt_phy2log (edpt_addr2phy 0x81) = 1 ∧
    edpt_phy2pos (edpt_addr2phy 0x81) = 17 :=
  ⟨C21_translators_inverse.1 17 (Or.inr (by decide)),
    C21_translators_inverse.2.1 3 (by decide),
    (C21_translators_inverse.2.2 0x81 (by decide)).1,
    (C21_translators_inverse.2.2 0x81 (by decide)).2.1,
    (C21_translators_inverse.2.2 0x81 (by decide)).2.2⟩
/-- The five page pointers that `qtd_init` stores for a buffer address that is not null. -/
theorem qtd_init_buffer (a len : Nat) (ha0 : a ≠ 0) (ha : a < 2 ^ 32) :
    (qtd_init a len).buffer =
      [a, (align4k a + 4096) % 2 ^ 32, (align4k a + 4096 * 2) % 2 ^ 32,
        (align4k a + 4096 * 3) % 2 ^ 32, (align4k a + 4096 * 4) % 2 ^ 32] := by
  unfold qtd_init
  dsimp only
  rw [if_pos ha0]
  show qtd_init_pages 4 1 (([0, 0, 0, 0, 0] : List Nat).set 0 (a % 2 ^ 32)) = _
  simp only [qtd_init_pages, List.set, List.getD, List.get?, Option.getD, Nat.zero_or,
    Nat.sub_self, Nat.add_sub_cancel, Nat.reduceAdd, Nat.reduceSub, List.getElem?_cons_zero,
    List.getElem?_cons_succ]
  unfold align4k
  simp only [List.cons.injEq, and_true]
  refine ⟨by omega, by omega, by omega, by omega, by omega⟩

/-- C24: for every buffer address `a` that is not null and fits 32 bits, after `qtd_init`
the page pointers are `buffer[0] = a` and, for `i` in 1..4,
`buffer[i] = (align4k a + 4096 * i) mod 2^32`, `align4k` clearing the low 12 bits; hence
every `buffer[i]` with `i ≥ 1` is a multiple of 4096, and each of them is the one before
it, rounded down to its page, plus 4096 modulo 2^32 (consecutive 4 KiB pages). -/
theorem C24_page_pointers (a len : Nat) (ha0 : a ≠ 0) (ha : a < 2 ^ 32) :
    (qtd_init a len).buffer.length = 5 ∧
    (qtd_init a len).buffer.getD 0 0 = a ∧
    (∀ i, 1 ≤ i → i ≤ 4 →
      (qtd_init a len).buffer.getD i 0 = (align4k a + 4096 * i) % 2 ^ 32 ∧
      (qtd_init a len).buffer.getD i 0 % 4096 = 0 ∧
      (qtd_init a len).buffer.getD i 0 =
        (align4k ((qtd_init a len).buffer.getD (i - 1) 0) + 4096) % 2 ^ 32) ∧
    align4k a % 4096 = 0 ∧ align4k a ≤ a ∧ a < align4k a + 4096 := by
  rw [qtd_init_buffer a len ha0 ha]
  refine ⟨rfl, rfl, fun i h1 h4 => ?_, ?_⟩
  · interval_cases i
    all_goals
      simp only [List.getD, List.get?, Option.getD, Nat.reduceSub, List.getElem?_cons_zero,
        List.getElem?_cons_succ]
      unfold align4k
      simp only [true_and, and_true]
      omega
  · unfold align4k
    omega

/-- C24, witness: the buffer address `0x10000100`; the page pointers are `0x10000100`,
`0x10001000`, `0x10002000`, `0x10003000` and `0x10004000`. -/
theorem C24_page_pointers_witness :
    (qtd_init 0x10000100 512).buffer.getD 0 0 = 0x10000100 ∧
    (qtd_init 0x10000100 512).buffer.getD 1 0 = (align4k 0x10000100 + 4096 * 1) % 2 ^ 32 ∧
    (qtd_init 0x10000100 512).buffer.getD 4 0 % 4096 = 0 :=
  ⟨(C24_page_pointers 0x10000100 512 (by decide) (by decide)).2.1,
    ((C24_page_pointers 0x10000100 512 (by decide) (by decide)).2.2.1 1 (by decide)
      (by decide)).1,
    ((C24_page_pointers 0x10000100 512 (by decide) (by decide)).2.2.1 4 (by decide)
      (by decide)).2.1⟩
/-- The slot that `pipe_add_xfer` fills in a list `[a, c]` of the invariant: slot 0 when the
list is empty, slot 1 (after the tail `a`) when one descriptor is queued. -/
theorem free_slot_cases (a c : Nat) (hac : a = 0 → c = 0)
    (hk : find_free_slot [a, c] < DCD_QTD_PER_QHD_MAX) :
    (a = 0 ∧ c = 0 ∧ find_free_slot [a, c] = 0) ∨ (a ≠ 0 ∧ c = 0 ∧ find_free_slot [a, c] = 1) := by
  rw [find_free_slot_eq] at hk ⊢
  change (if a = 0 then 0 else if c = 0 then 1 else 2) < 2 at hk
  change (a = 0 ∧ c = 0 ∧ (if a = 0 then 0 else if c = 0 then 1 else 2) = 0) ∨
    (a ≠ 0 ∧ c = 0 ∧ (if a = 0 then 0 else if c = 0 then 1 else 2) = 1)
  by_cases ha : a = 0
  · left; exact ⟨ha, hac ha, by rw [if_pos ha]⟩
  · right
    rw [if_neg ha] at hk ⊢
    by_cases hc : c = 0
    · exact ⟨ha, hc, by rw [if_pos hc]⟩
    · rw [if_neg hc] at hk; omega

/-- The descriptors after a successful `pipe_add_xfer` in a state of the invariant: the
allocated descriptor holds the prepared one, the tail of the queue (when there is one) gets
the address of the allocated descriptor as next pointer, every other descriptor is left as
it is. -/
theorem qtd_after_add (b : build_t) (hdl : endpoint_handle_t) (buf len : Nat) (ioc : Bool)
    (s : system_t) (hqhd : hdl.index < s.dcd_data.qhd.length) (hinv : pool_inv s.dcd_data)
    (hok : (pipe_add_xfer b hdl buf len ioc s).1 = tusb_error_t.TUSB_ERROR_NONE) (j : Nat) :
    (pipe_add_xfer b hdl buf len ioc s).2.dcd_data.qtd_at j =
      if j = qtd_find_free hdl.coreid s.dcd_data then add_qtd buf len ioc
      else if 0 < find_free_slot (s.dcd_data.qhd_at hdl.index).list_qtd_idx ∧
          j = (s.dcd_data.qhd_at hdl.index).list_qtd_idx.getD
            (find_free_slot (s.dcd_data.qhd_at hdl.index).list_qtd_idx - 1) 0 then
        { s.dcd_data.qtd_at j with next := qtd_ptr b (qtd_find_free hdl.coreid s.dcd_data) }
      else s.dcd_data.qtd_at j := by
  obtain ⟨_, hq, hk⟩ := (pipe_add_xfer_ok_iff b hdl buf len ioc s).1 hok
  obtain ⟨hq2, hq12, hfree, _⟩ := (qtd_find_free_spec hdl.coreid s.dcd_data).1 hq
  obtain ⟨hlen, hlists, hused, _⟩ := hinv
  obtain ⟨a, c, hl, hac⟩ := hlists hdl.index
  have hlenq : (add_stored s.dcd_data hdl.index
      (find_free_slot (s.dcd_data.qhd_at hdl.index).list_qtd_idx)
      (qtd_find_free hdl.coreid s.dcd_data) (add_qtd buf len ioc)).qtd.length = DCD_QTD_MAX := by
    unfold add_stored
    rw [qtd_length_set_qtd, qtd_length_set_qhd, hlen]
  have hlist : ((add_stored s.dcd_data hdl.index
      (find_free_slot (s.dcd_data.qhd_at hdl.index).list_qtd_idx)
      (qtd_find_free hdl.coreid s.dcd_data) (add_qtd buf len ioc)).qhd_at
        hdl.index).list_qtd_idx =
      (s.dcd_data.qhd_at hdl.index).list_qtd_idx.set
        (find_free_slot (s.dcd_data.qhd_at hdl.index).list_qtd_idx)
        (qtd_find_free hdl.coreid s.dcd_data) := by
    rw [qhd_at_add_stored, if_pos ⟨rfl, hqhd⟩]
  rw [pipe_add_xfer_ok_data b hdl buf len ioc s hok, qtd_at_add_linked, hlist, hlenq,
    qtd_at_add_stored, hlen]
  rw [hl] at hk ⊢
  generalize qtd_find_free hdl.coreid s.dcd_data = q at hq hq2 hq12 hfree ⊢
  rcases free_slot_cases a c hac hk with ⟨ha, hc, hk0⟩ | ⟨ha, hc, hk1⟩
  · rw [hk0]
    simp only [Nat.lt_irrefl, false_and, if_false]
    by_cases hj : j = q
    · rw [if_pos hj, if_pos ⟨hj.symm, hq12⟩]
    · rw [if_neg hj, if_neg (fun hh => hj hh.1.symm)]
  · rw [hk1]
    have haq : a ≠ q := by
      intro hh
      have := hused hdl.index a (by rw [hl]; exact List.mem_cons_self _ _) ha
      rw [hh, hfree] at this
      exact absurd this (by decide)
    have halt : a < DCD_QTD_MAX := by
      by_contra hge
      have h1 := hused hdl.index a (by rw [hl]; exact List.mem_cons_self _ _) ha
      have h0 : s.dcd_data.qtd_at a = dcd_qtd_t.zero := by
        unfold dcd_data_t.qtd_at
        rw [List.getD_eq_default _ _ (by rw [hlen]; omega)]
      rw [h0] at h1
      exact absurd h1 (by decide)
    have htail : ([a, c].set 1 q).getD (1 - 1) 0 = a := rfl
    have htail2 : ([a, c] : List Nat).getD (1 - 1) 0 = a := rfl
    rw [htail, htail2]
    by_cases hj : j = q
    · rw [if_pos hj,
        if_neg (show ¬ (0 < 1 ∧ a = j ∧ a < DCD_QTD_MAX) from fun hh => haq (hh.2.1.trans hj)),
        if_pos (show q = j ∧ q < DCD_QTD_MAX from ⟨hj.symm, hq12⟩)]
    · rw [if_neg hj]
      by_cases hja : j = a
      · rw [if_pos (show 0 < 1 ∧ a = j ∧ a < DCD_QTD_MAX from ⟨by decide, hja.symm, halt⟩),
          if_neg (show ¬ (q = j ∧ q < DCD_QTD_MAX) from fun hh => hj hh.1.symm),
          if_pos (show 0 < 1 ∧ j = a from ⟨by decide, hja⟩)]
      · rw [if_neg (show ¬ (0 < 1 ∧ a = j ∧ a < DCD_QTD_MAX) from fun hh => hja hh.2.1.symm),
          if_neg (show ¬ (q = j ∧ q < DCD_QTD_MAX) from fun hh => hj hh.1.symm),
          if_neg (show ¬ (0 < 1 ∧ j = a) from fun hh => hja hh.2)]
/-- The queue heads after a successful `pipe_add_xfer` on a handle inside the array: the
queue head of the handle gets the allocated descriptor in the free slot of its list, every
other queue head is left as it is. -/
theorem qhd_after_add (b : build_t) (hdl : endpoint_handle_t) (buf len : Nat) (ioc : Bool)
    (s : system_t) (hqhd : hdl.index < s.dcd_data.qhd.length)
    (hok : (pipe_add_xfer b hdl buf len ioc s).1 = tusb_error_t.TUSB_ERROR_NONE) (i : Nat) :
    (pipe_add_xfer b hdl buf len ioc s).2.dcd_data.qhd_at i =
      if hdl.index = i then
        { s.dcd_data.qhd_at hdl.index with
          list_qtd_idx := (s.dcd_data.qhd_at hdl.index).list_qtd_idx.set
            (find_free_slot (s.dcd_data.qhd_at hdl.index).list_qtd_idx)
            (qtd_find_free hdl.coreid s.dcd_data) }
      else s.dcd_data.qhd_at i := by
  rw [pipe_add_xfer_ok_data b hdl buf len ioc s hok, qhd_at_add_linked, qhd_at_add_stored]
  by_cases hi : hdl.index = i
  · rw [if_pos ⟨hi, hqhd⟩, if_pos hi]
  · rw [if_neg (fun hh => hi hh.1), if_neg hi]

/-- C23: a successful `pipe_add_xfer` in a state of the queue invariant (12 queue heads, the
invariant `pool_inv` of the reachable states), on a handle inside the queue-head array whose
queue has `k` occupied slots, `q` being the allocated descriptor: `k` is 0 or 1 and `q` is a
free descriptor of the shared pool; afterwards slot `k` of the list holds `q` and the other
slots are unchanged; descriptor `q` is the one `qtd_init` builds from the buffer and the
length, with `int_on_complete` set to the argument and `next = QTD_NEXT_INVALID`; if
`k > 0` the tail descriptor (slot `k - 1`) has the address of descriptor `q` as `next` and
is otherwise unchanged; no other descriptor changes, no other queue head changes, the queue
head of the handle changes in its list only, and registers and calls are unchanged. -/
theorem C23_add_xfer_links_tail (b : build_t) (hdl : endpoint_handle_t) (buf len : Nat)
    (ioc : Bool) (s : system_t) (k q : Nat)
    (hqhd : s.dcd_data.qhd.length = DCD_QHD_MAX) (hinv : pool_inv s.dcd_data)
    (hidx : hdl.index < DCD_QHD_MAX)
    (hk : k = find_free_slot (s.dcd_data.qhd_at hdl.index).list_qtd_idx)
    (hq : q = qtd_find_free hdl.coreid s.dcd_data)
    (hok : (pipe_add_xfer b hdl buf len ioc s).1 = tusb_error_t.TUSB_ERROR_NONE) :
    (k < DCD_QTD_PER_QHD_MAX ∧
      (∀ m, m < k → (s.dcd_data.qhd_at hdl.index).list_qtd_idx.getD m 0 ≠ 0) ∧
      (∀ m, k ≤ m → (s.dcd_data.qhd_at hdl.index).list_qtd_idx.getD m 0 = 0)) ∧
    (2 ≤ q ∧ q < DCD_QTD_MAX ∧ (s.dcd_data.qtd_at q).used = 0) ∧
    (((pipe_add_xfer b hdl buf len ioc s).2.dcd_data.qhd_at hdl.index).list_qtd_idx.getD k 0
        = q ∧
      ∀ m, m ≠ k →
        ((pipe_add_xfer b hdl buf len ioc s).2.dcd_data.qhd_at hdl.index).list_qtd_idx.getD m 0
          = (s.dcd_data.qhd_at hdl.index).list_qtd_idx.getD m 0) ∧
    ((pipe_add_xfer b hdl buf len ioc s).2.dcd_data.qtd_at q =
        { qtd_init buf len with int_on_complete := if ioc then 1 else 0 } ∧
      ((pipe_add_xfer b hdl buf len ioc s).2.dcd_data.qtd_at q).next = QTD_NEXT_INVALID ∧
      ((pipe_add_xfer b hdl buf len ioc s).2.dcd_data.qtd_at q).int_on_complete =
        (if ioc then 1 else 0)) ∧
    (0 < k →
      (pipe_add_xfer b hdl buf len ioc s).2.dcd_data.qtd_at
          ((s.dcd_data.qhd_at hdl.index).list_qtd_idx.getD (k - 1) 0) =
        { s.dcd_data.qtd_at ((s.dcd_data.qhd_at hdl.index).list_qtd_idx.getD (k - 1) 0) with
          next := qtd_ptr b q }) ∧
    (∀ j, j ≠ q →
      ¬ (0 < k ∧ j = (s.dcd_data.qhd_at hdl.index).list_qtd_idx.getD (k - 1) 0) →
      (pipe_add_xfer b hdl buf len ioc s).2.dcd_data.qtd_at j = s.dcd_data.qtd_at j) ∧
    (∀ i, i ≠ hdl.index →
      (pipe_add_xfer b hdl buf len ioc s).2.dcd_data.qhd_at i = s.dcd_data.qhd_at i) ∧
    (pipe_add_xfer b hdl buf len ioc s).2.dcd_data.qhd_at hdl.index =
      { s.dcd_data.qhd_at hdl.index with
        list_qtd_idx :=
          ((pipe_add_xfer b hdl buf len ioc s).2.dcd_data.qhd_at hdl.index).list_qtd_idx } ∧
    (pipe_add_xfer b hdl buf len ioc s).2.LPC_USB0 = s.LPC_USB0 ∧
    (pipe_add_xfer b hdl buf len ioc s).2.calls = s.calls := by
  have hin : hdl.index < s.dcd_data.qhd.length := by rw [hqhd]; exact hidx
  obtain ⟨_, hq0, hk2⟩ := (pipe_add_xfer_ok_iff b hdl buf len ioc s).1 hok
  obtain ⟨hq2, hq12, hfree, _⟩ := (qtd_find_free_spec hdl.coreid s.dcd_data).1 hq0
  have hD := qtd_after_add b hdl buf len ioc s hin hinv hok
  have hH := qhd_after_add b hdl buf len ioc s hin hok
  obtain ⟨a, c, hl, hac⟩ := hinv.2.1 hdl.index
  have hown := hH hdl.index
  rw [if_pos rfl] at hown
  rw [← hk, ← hq] at hD hH hown
  rw [← hq] at hq2 hq12 hfree
  rw [← hk] at hk2
  have htail : ∀ j, 0 < k ∧ j = (s.dcd_data.qhd_at hdl.index).list_qtd_idx.getD (k - 1) 0 →
      j ≠ q := by
    intro j hj hjq
    have hkk := hk
    rw [hl] at hkk hj
    rw [hkk] at hj hk2
    rcases free_slot_cases a c hac hk2 with ⟨_, _, h0⟩ | ⟨ha, _, h1⟩
    · rw [h0] at hj; exact absurd hj.1 (by decide)
    · rw [h1] at hj
      have hja : j = a := hj.2
      have := hinv.2.2.1 hdl.index a (by rw [hl]; exact List.mem_cons_self _ _) ha
      rw [← hja, hjq, hfree] at this
      exact absurd this (by decide)
  refine ⟨?_, ⟨hq2, hq12, hfree⟩, ?_, ?_, ?_, ?_, ?_, ?_, pipe_add_xfer_regs b hdl buf len ioc s,
    pipe_add_xfer_calls b hdl buf len ioc s⟩
  · have hkk := hk
    rw [hl] at hkk ⊢
    rw [hkk] at hk2
    rcases free_slot_cases a c hac hk2 with ⟨ha, hc, h0⟩ | ⟨ha, hc, h1⟩
    · rw [hkk, h0, ha, hc]
      refine ⟨by decide, fun m hm => absurd hm (by omega), fun m _ => ?_⟩
      match m with
      | 0 => rfl
      | 1 => rfl
      | m + 2 => rfl
    · rw [hkk, h1, hc]
      refine ⟨by decide, fun m hm => ?_, fun m hm => ?_⟩
      · have : m = 0 := by omega
        rw [this]; exact ha
      · match m, hm with
        | 1, _ => rfl
        | m + 2, _ => rfl
  · rw [hown]
    dsimp only
    have hkk := hk
    rw [hl] at hkk ⊢
    rw [hkk] at hk2
    rcases free_slot_cases a c hac hk2 with ⟨_, _, h0⟩ | ⟨_, _, h1⟩
    · rw [hkk, h0]
      refine ⟨rfl, fun m hm => ?_⟩
      match m, hm with
      | 1, _ => rfl
      | m + 2, _ => rfl
    · rw [hkk, h1]
      refine ⟨rfl, fun m hm => ?_⟩
      match m, hm with
      | 0, _ => rfl
      | m + 2, _ => rfl
  · have h1 := hD q
    rw [if_pos rfl] at h1
    rw [h1]
    refine ⟨rfl, ?_, (add_qtd_fields buf len ioc).1⟩
    unfold add_qtd qtd_init
    dsimp only
    split <;> rfl
  · intro hk0
    rw [hD, if_neg (htail _ ⟨hk0, rfl⟩), if_pos ⟨hk0, rfl⟩]
  · intro j hj hnt
    rw [hD, if_neg hj, if_neg hnt]
  · intro i hi
    rw [hH, if_neg (fun hh => hi hh.symm)]
  · rw [hown]

/-- C23, witness: a second transfer on endpoint 1 OUT, whose queue holds descriptor 2; the
call takes descriptor 3, puts it in slot 1 of the list and stores its address in `next` of
descriptor 2. -/
theorem C23_add_xfer_links_tail_witness :
    ((pipe_add_xfer ex_build ex_ep1_out 0x10000300 512 true
      ex_one_queued).2.dcd_data.qhd_at ex_ep1_out.index).list_qtd_idx.getD 1 0 = 3 ∧
    (pipe_add_xfer ex_build ex_ep1_out 0x10000300 512 true ex_one_queued).2.dcd_data.qtd_at
        ((ex_one_queued.dcd_data.qhd_at ex_ep1_out.index).list_qtd_idx.getD (1 - 1) 0) =
      { ex_one_queued.dcd_data.qtd_at
          ((ex_one_queued.dcd_data.qhd_at ex_ep1_out.index).list_qtd_idx.getD (1 - 1) 0) with
        next := qtd_ptr ex_build 3 } :=
  have h := C23_add_xfer_links_tail ex_build ex_ep1_out 0x10000300 512 true ex_one_queued 1 3
    (by decide)
    (pool_inv_reachable ex_build ex_one_queued
      (reachable.by_queue ex_ep1_out 0x10000100 512 _
        (reachable.by_open 0 ex_desc_in 3 _
          (reachable.by_open 0 ex_desc_out 3 _ (reachable.by_reset 0 _)))))
    (by decide) (by decide) (by decide) (by decide)
  ⟨h.2.2.1.1, h.2.2.2.2.1 (by decide)⟩
/-- One run of the body of the retire loop leaves the overlay of every queue head as it
is. -/
theorem overlay_retired (d : dcd_data_t) (ep_idx i : Nat) :
    ((retired d ep_idx).qhd_at i).qtd_overlay = (d.qhd_at i).qtd_overlay := by
  unfold retired
  rw [qhd_at_set_qhd]
  split
  · next h => rw [← h.1]
  · rw [qhd_at_set_qtd]

/-- The calls that the retire loop reports hold no call of `usbd_setup_received_isr`. -/
theorem xfer_report_no_setup (hdl : endpoint_handle_t) (q : dcd_qtd_t) :
    ∀ x ∈ xfer_report hdl q, is_setup_call x = false := by
  intro x hx
  unfold xfer_report at hx
  split at hx
  · rw [List.mem_singleton] at hx
    rw [hx]; rfl
  · exact absurd hx (List.not_mem_nil _)

/-- The retire loop of a queue head, when it is left, has kept the overlay of every queue
head and has added calls other than `usbd_setup_received_isr` only. -/
theorem retire_loop_keeps (ep_idx : Nat) (hdl : endpoint_handle_t) :
    ∀ (fuel : Nat) (s t : system_t), retire_loop ep_idx hdl fuel s = some t →
      (∀ i, (t.dcd_data.qhd_at i).qtd_overlay = (s.dcd_data.qhd_at i).qtd_overlay) ∧
      ∃ rest, t.calls = s.calls ++ rest ∧ ∀ x ∈ rest, is_setup_call x = false := by
  intro fuel
  induction fuel with
  | zero => intro s t h; exact absurd h (by simp [retire_loop])
  | succ n ih =>
    intro s t hrun
    unfold retire_loop at hrun
    by_cases hleave : (s.dcd_data.qhd_at ep_idx).list_qtd_idx.getD 0 0 = 0 ∨
        (s.dcd_data.qtd_at ((s.dcd_data.qhd_at ep_idx).list_qtd_idx.getD 0 0)).active ≠ 0
    · rw [retire_body_leave ep_idx hdl s hleave] at hrun
      simp only [Option.some.injEq] at hrun
      rw [← hrun]
      exact ⟨fun _ => rfl, [], (List.append_nil _).symm, fun x hx => absurd hx (List.not_mem_nil _)⟩
    · have h0 : (s.dcd_data.qhd_at ep_idx).list_qtd_idx.getD 0 0 ≠ 0 :=
        fun hh => hleave (Or.inl hh)
      have ha : (s.dcd_data.qtd_at ((s.dcd_data.qhd_at ep_idx).list_qtd_idx.getD 0 0)).active = 0 :=
        not_not.1 (fun hh => hleave (Or.inr hh))
      rw [retire_body_again ep_idx hdl s h0 ha] at hrun
      dsimp only at hrun
      obtain ⟨hov, rest, hcalls, hrest⟩ := ih _ t hrun
      refine ⟨fun i => (hov i).trans (overlay_retired s.dcd_data ep_idx i),
        xfer_report hdl
          (s.dcd_data.qtd_at ((s.dcd_data.qhd_at ep_idx).list_qtd_idx.getD 0 0)) ++ rest,
        ?_, ?_⟩
      · rw [hcalls]
        exact List.append_assoc _ _ _
      · intro x hx
        rcases List.mem_append.1 hx with h1 | h1
        · exact xfer_report_no_setup _ _ x h1
        · exact hrest x h1

/-- A completion pass that returns has kept the overlay of every queue head and the
registers, and has added calls other than `usbd_setup_received_isr` only. -/
theorem xfer_complete_isr_keeps (fuel c r : Nat) (s t : system_t)
    (hrun : xfer_complete_isr fuel c r s = some t) :
    (∀ i, (t.dcd_data.qhd_at i).qtd_overlay = (s.dcd_data.qhd_at i).qtd_overlay) ∧
    ∃ rest, t.calls = s.calls ++ rest ∧ ∀ x ∈ rest, is_setup_call x = false := by
  have hfold : ∀ (l : List Nat) (s1 t1 : system_t),
      l.foldlM (fun s2 ep => xfer_complete_slot fuel c (r % 2 ^ 8) ep s2) s1 = some t1 →
      (∀ i, (t1.dcd_data.qhd_at i).qtd_overlay = (s1.dcd_data.qhd_at i).qtd_overlay) ∧
      ∃ rest, t1.calls = s1.calls ++ rest ∧ ∀ x ∈ rest, is_setup_call x = false := by
    intro l
    induction l with
    | nil =>
      intro s1 t1 hr
      have : s1 = t1 := by simpa [List.foldlM] using hr
      rw [← this]
      exact ⟨fun _ => rfl, [], (List.append_nil _).symm, fun x hx => absurd hx (List.not_mem_nil _)⟩
    | cons a l ih =>
      intro s1 t1 hr
      rw [List.foldlM_cons] at hr
      cases hs : xfer_complete_slot fuel c (r % 2 ^ 8) a s1 with
      | none => rw [hs] at hr; exact absurd hr (by simp)
      | some s2 =>
        rw [hs] at hr
        obtain ⟨hov, rest, hcalls, hrest⟩ := ih s2 t1 hr
        have hstep : (∀ i, (s2.dcd_data.qhd_at i).qtd_overlay = (s1.dcd_data.qhd_at i).qtd_overlay) ∧
            ∃ rest, s2.calls = s1.calls ++ rest ∧ ∀ x ∈ rest, is_setup_call x = false := by
          unfold xfer_complete_slot at hs
          split at hs
          · exact retire_loop_keeps a _ fuel s1 s2 hs
          · simp only [Option.some.injEq] at hs
            rw [← hs]
            exact ⟨fun _ => rfl, [], (List.append_nil _).symm,
              fun x hx => absurd hx (List.not_mem_nil _)⟩
        obtain ⟨hov1, rest1, hcalls1, hrest1⟩ := hstep
        refine ⟨fun i => (hov i).trans (hov1 i), rest1 ++ rest, ?_, ?_⟩
        · rw [hcalls, hcalls1, List.append_assoc]
        · intro x hx
          rcases List.mem_append.1 hx with h1 | h1
          · exact hrest1 x h1
          · exact hrest x h1
  unfold xfer_complete_isr at hrun
  dsimp only at hrun
  obtain ⟨hov, rest, hcalls, hrest⟩ := hfold _ _ t hrun
  by_cases hb : r % 2 ^ 8 &&& BIT_ (3 + 16) ≠ 0
  · rw [if_pos hb] at hov hcalls
    refine ⟨hov, call_t.hal_debugger_breakpoint :: rest, ?_, ?_⟩
    · rw [hcalls]
      show (s.calls ++ [call_t.hal_debugger_breakpoint]) ++ rest = _
      rw [List.append_assoc]; rfl
    · intro x hx
      rcases List.mem_cons.1 hx with h1 | h1
      · rw [h1]; rfl
      · exact hrest x h1
  · rw [if_neg hb] at hov hcalls
    exact ⟨hov, rest, hcalls, hrest⟩
/-- Writing back what was read clears a register whose bits are cleared by writing one. -/
theorem w1c_self (x : Nat) : w1c x x = 0 := by
  unfold w1c
  rw [Nat.and_self, Nat.xor_self]

/-- After the setup part of `dcd_isr` with a setup packet pending, the overlays of both
control queue heads are inactive. -/
theorem dcd_isr_setup_idle (c : Nat) (s : system_t) (hqhd : 2 ≤ s.dcd_data.qhd.length)
    (hsetup : s.LPC_USB0.ENDPTSETUPSTAT ≠ 0) :
    ((dcd_isr_setup c s).dcd_data.qhd_at 0).qtd_overlay.active = 0 ∧
    ((dcd_isr_setup c s).dcd_data.qhd_at 1).qtd_overlay.active = 0 := by
  unfold dcd_isr_setup
  rw [if_pos hsetup]
  dsimp only
  by_cases hbusy : (s.dcd_data.qhd_at 0).qtd_overlay.active ≠ 0 ∨
      (s.dcd_data.qhd_at 1).qtd_overlay.active ≠ 0
  · rw [if_pos hbusy]
    dsimp only
    constructor
    · rw [qhd_at_set_qhd, if_pos ⟨rfl, by rw [qhd_length_set_qhd]; omega⟩]
    · rw [qhd_at_set_qhd, if_neg (fun hh => absurd hh.1 (by decide)), qhd_at_set_qhd,
        if_pos ⟨rfl, by omega⟩]
  · rw [if_neg hbusy]
    exact ⟨not_not.1 (fun hh => hbusy (Or.inl hh)), not_not.1 (fun hh => hbusy (Or.inr hh))⟩

/-- The completion part of `dcd_isr`, when it returns, has kept the overlay of every queue
head and has added calls other than `usbd_setup_received_isr` only; it returns when no
completion is pending. -/
theorem dcd_isr_complete_keeps (fuel c : Nat) (s : system_t) :
    (s.LPC_USB0.ENDPTCOMPLETE = 0 → dcd_isr_complete fuel c s = some s) ∧
    ∀ t, dcd_isr_complete fuel c s = some t →
      (∀ i, (t.dcd_data.qhd_at i).qtd_overlay = (s.dcd_data.qhd_at i).qtd_overlay) ∧
      ∃ rest, t.calls = s.calls ++ rest ∧ ∀ x ∈ rest, is_setup_call x = false := by
  unfold dcd_isr_complete
  constructor
  · intro h0
    rw [if_neg (not_not.2 h0)]
  · intro t hrun
    split at hrun
    · dsimp only at hrun
      have hk := xfer_complete_isr_keeps fuel c _ _ t hrun
      exact hk
    · simp only [Option.some.injEq] at hrun
      rw [← hrun]
      exact ⟨fun _ => rfl, [], (List.append_nil _).symm,
        fun x hx => absurd hx (List.not_mem_nil _)⟩

/-- The interrupt handler when a bus reset is pending and enabled: the reset acknowledges
the setup packets and the completions, so that the handler returns after reporting the
reset. -/
theorem dcd_isr_reset (b : build_t) (fuel c : Nat) (s : system_t)
    (hreset : s.LPC_USB0.USBSTS_D &&& s.LPC_USB0.USBINTR_D &&& INT_MASK_RESET ≠ 0) :
    dcd_isr b fuel c s = some (isr_reset_done b c s) := by
  have h0 : s.LPC_USB0.USBSTS_D &&& s.LPC_USB0.USBINTR_D ≠ 0 := by
    intro h
    rw [h, Nat.zero_and] at hreset
    exact hreset rfl
  have hs : dcd_isr_setup c (isr_reset_done b c s) = isr_reset_done b c s := by
    unfold dcd_isr_setup
    rw [if_neg (not_not.2 (by
      show w1c _ _ = 0
      exact w1c_self _))]
  have hc : dcd_isr_complete fuel c (isr_reset_done b c s) = some (isr_reset_done b c s) :=
    (dcd_isr_complete_keeps fuel c _).1 (by
      show w1c _ _ = 0
      exact w1c_self _)
  unfold dcd_isr
  dsimp only
  rw [if_neg h0, if_pos hreset]
  split
  · show dcd_isr_complete fuel c (dcd_isr_setup c (isr_reset_done b c s)) = _
    rw [hs, hc]
  · rfl
/-- C22: whenever `dcd_isr` runs with the USB transaction interrupt pending and enabled and
`ENDPTSETUPSTAT` not zero (the flush polling loops being left), in a pool with its 12 queue
heads: the handler returns when no completion is pending or a bus reset is; and in every
state in which it returns the overlays of queue heads 0 and 1 are inactive, so that a
`dcd_pipe_control_xfer` that follows is accepted; every `usbd_setup_received_isr` call the
handler made carries `qhd[0].setup_request` as it was at the entry; and when no bus reset is
pending the handler made exactly one such call, before any other call. -/
theorem C22_setup_invalidates_control (b : build_t) (fuel c : Nat) (s : system_t)
    (hqhd : s.dcd_data.qhd.length = DCD_QHD_MAX)
    (husb : s.LPC_USB0.USBSTS_D &&& s.LPC_USB0.USBINTR_D &&& INT_MASK_USB ≠ 0)
    (hsetup : s.LPC_USB0.ENDPTSETUPSTAT ≠ 0) :
    ((s.LPC_USB0.ENDPTCOMPLETE = 0 ∨
        s.LPC_USB0.USBSTS_D &&& s.LPC_USB0.USBINTR_D &&& INT_MASK_RESET ≠ 0) →
      ∃ t, dcd_isr b fuel c s = some t) ∧
    ∀ t, dcd_isr b fuel c s = some t →
      (t.dcd_data.qhd_at 0).qtd_overlay.active = 0 ∧
      (t.dcd_data.qhd_at 1).qtd_overlay.active = 0 ∧
      (∀ c2 dir buf len,
        (dcd_pipe_control_xfer b c2 dir buf len t).1 = tusb_error_t.TUSB_ERROR_NONE) ∧
      (∃ rest, t.calls = s.calls ++ rest ∧
        ∀ x ∈ rest, is_setup_call x = true →
          x = call_t.usbd_setup_received_isr c (s.dcd_data.qhd_at 0).setup_request) ∧
      (s.LPC_USB0.USBSTS_D &&& s.LPC_USB0.USBINTR_D &&& INT_MASK_RESET = 0 →
        ∃ rest, t.calls =
            s.calls ++
              call_t.usbd_setup_received_isr c (s.dcd_data.qhd_at 0).setup_request :: rest ∧
          ∀ x ∈ rest, is_setup_call x = false) := by
  have hfinish : ∀ t : system_t, (t.dcd_data.qhd_at 0).qtd_overlay.active = 0 →
      (t.dcd_data.qhd_at 1).qtd_overlay.active = 0 →
      ∀ c2 dir buf len,
        (dcd_pipe_control_xfer b c2 dir buf len t).1 = tusb_error_t.TUSB_ERROR_NONE := by
    intro t h0 h1 c2 dir buf len
    rw [control_xfer_accepted b c2 dir buf len t (fun hh => hh.elim (fun h => h h0) (fun h => h h1))]
  by_cases hreset : s.LPC_USB0.USBSTS_D &&& s.LPC_USB0.USBINTR_D &&& INT_MASK_RESET = 0
  · have hisr : dcd_isr b fuel c s = dcd_isr_complete fuel c (dcd_isr_setup c (isr_acked s)) :=
      dcd_isr_usb b fuel c s husb hreset
    have hidle := dcd_isr_setup_idle c (isr_acked s)
      (by show 2 ≤ s.dcd_data.qhd.length; rw [hqhd]; decide) hsetup
    have hcalls : (dcd_isr_setup c (isr_acked s)).calls =
        s.calls ++ [call_t.usbd_setup_received_isr c (s.dcd_data.qhd_at 0).setup_request] := by
      rw [dcd_isr_setup_calls, if_pos (show (isr_acked s).LPC_USB0.ENDPTSETUPSTAT ≠ 0 from hsetup)]
      rfl
    rw [hisr]
    constructor
    · intro h
      rcases h with h | h
      · exact ⟨_, (dcd_isr_complete_keeps fuel c _).1
          ((dcd_isr_setup_complete c (isr_acked s)).trans h)⟩
      · exact absurd hreset h
    · intro t hrun
      obtain ⟨hov, rest, hc, hrest⟩ := (dcd_isr_complete_keeps fuel c _).2 t hrun
      have h0 : (t.dcd_data.qhd_at 0).qtd_overlay.active = 0 := by rw [hov 0]; exact hidle.1
      have h1 : (t.dcd_data.qhd_at 1).qtd_overlay.active = 0 := by rw [hov 1]; exact hidle.2
      have hall : t.calls = s.calls ++
          call_t.usbd_setup_received_isr c (s.dcd_data.qhd_at 0).setup_request :: rest := by
        rw [hc, hcalls, List.append_assoc]; rfl
      refine ⟨h0, h1, hfinish t h0 h1, ⟨_, hall, ?_⟩, fun _ => ⟨rest, hall, hrest⟩⟩
      intro x hx hset
      rcases List.mem_cons.1 hx with hx1 | hx1
      · exact hx1
      · rw [hrest x hx1] at hset
        exact absurd hset (by decide)
  · rw [dcd_isr_reset b fuel c s hreset]
    refine ⟨fun _ => ⟨_, rfl⟩, fun t ht => ?_⟩
    simp only [Option.some.injEq] at ht
    rw [← ht]
    have h0 : ((isr_reset_done b c s).dcd_data.qhd_at 0).qtd_overlay.active = 0 := rfl
    have h1 : ((isr_reset_done b c s).dcd_data.qhd_at 1).qtd_overlay.active = 0 := rfl
    refine ⟨h0, h1, hfinish _ h0 h1, ⟨[call_t.usbd_bus_reset c], rfl, ?_⟩,
      fun h => absurd h hreset⟩
    intro x hx hset
    rw [List.mem_singleton] at hx
    rw [hx] at hset
    exact absurd hset (by simp [is_setup_call])

/-- C22, witness: a control transfer is in flight (a further `dcd_pipe_control_xfer` is
refused) when a new setup packet arrives; `dcd_isr` returns, both control overlays are
inactive, a control transfer is accepted again, and the call of `usbd_setup_received_isr`
carries the request captured in queue head 0. -/
theorem C22_setup_invalidates_control_witness :
    (dcd_pipe_control_xfer ex_build 0 TUSB_DIR_DEV_TO_HOST 0x10000200 18 ex_setup_pending).1 =
      tusb_error_t.TUSB_ERROR_FAILED ∧
    dcd_isr ex_build 0 0 ex_setup_pending = some ex_setup_handled ∧
    (ex_setup_handled.dcd_data.qhd_at 0).qtd_overlay.active = 0 ∧
    (ex_setup_handled.dcd_data.qhd_at 1).qtd_overlay.active = 0 ∧
    (dcd_pipe_control_xfer ex_build 0 TUSB_DIR_DEV_TO_HOST 0x10000200 18 ex_setup_handled).1 =
      tusb_error_t.TUSB_ERROR_NONE ∧
    ex_setup_handled.calls = [call_t.usbd_setup_received_isr 0 ex_request] := by
  have hrun : dcd_isr ex_build 0 0 ex_setup_pending = some ex_setup_handled :=
    some_getD_of_isSome _ _ (by decide)
  have h := (C22_setup_invalidates_control ex_build 0 0 ex_setup_pending (by decide)
    (by decide) (by decide)).2 ex_setup_handled hrun
  exact ⟨by decide, hrun, h.1, h.2.1, h.2.2.1 0 TUSB_DIR_DEV_TO_HOST 0x10000200 18, by decide⟩
/-- C25, evaluated at the failing input: after a bus reset, the successful opening of the
endpoints 1 OUT and 1 IN, two successful enqueues on endpoint 1 OUT (descriptors 2 and 3),
the end of the first transfer and the completion pass for physical slot 2, which returns,
the state is reachable and the list of queue head 2 is `[3, 3]`: descriptor 3, which is
in use, occurs at two queue positions. -/
theorem C25_descriptor_referenced_twice :
    (dcd_pipe_open 0 ex_desc_out 3 ex_reset).1 ≠ null_handle ∧
    (dcd_pipe_open 0 ex_desc_in 3 (dcd_pipe_open 0 ex_desc_out 3 ex_reset).2).1 ≠ null_handle ∧
    (dcd_pipe_queue_xfer ex_build ex_ep1_out 0x10000100 512 ex_opened).1 =
      tusb_error_t.TUSB_ERROR_NONE ∧
    (dcd_pipe_xfer ex_build ex_ep1_out 0x10000300 512 true ex_one_queued).1 =
      tusb_error_t.TUSB_ERROR_NONE ∧
    (ex_two_queued.dcd_data.qhd_at 2).list_qtd_idx = [2, 3] ∧
    xfer_complete_isr 2 0 (BIT_ (edpt_phy2pos 2)) ex_first_done = some ex_first_retired ∧
    reachable ex_build ex_first_retired ∧
    (ex_first_retired.dcd_data.qhd_at 2).list_qtd_idx = [3, 3] ∧
    (ex_first_retired.dcd_data.qhd_at 2).list_qtd_idx.getD 0 0 =
      (ex_first_retired.dcd_data.qhd_at 2).list_qtd_idx.getD 1 0 ∧
    (ex_first_retired.dcd_data.qtd_at 3).used = 1 ∧
    (ex_first_retired.dcd_data.qtd_at 2).used = 0 := by
  have hrun : xfer_complete_isr 2 0 (BIT_ (edpt_phy2pos 2)) ex_first_done =
      some ex_first_retired := some_getD_of_isSome _ _ (by decide)
  have hr : reachable ex_build ex_first_done :=
    reachable.by_hw _ _
      (reachable.by_xfer ex_ep1_out 0x10000300 512 true _
        (reachable.by_queue ex_ep1_out 0x10000100 512 _
          (reachable.by_open 0 ex_desc_in 3 _
            (reachable.by_open 0 ex_desc_out 3 _ (reachable.by_reset 0 _)))))
      (hw_step_qtd_done 2 ex_two_queued)
  exact ⟨by decide, by decide, by decide, by decide, by decide, hrun,
    reachable.by_complete 2 0 _ _ _ hr hrun, by decide, by decide, by decide, by decide⟩
/-- The retire loop is determined by the runs of its body: with `fuel + 1` evaluations it
returns the state after `fuel` runs of the body when the loop is left there, and it does not
return otherwise. -/
theorem retire_loop_eq_steps (ep_idx : Nat) (hdl : endpoint_handle_t) :
    ∀ (fuel : Nat) (s : system_t),
      retire_loop ep_idx hdl (fuel + 1) s =
        if retire_body ep_idx hdl (retire_steps ep_idx hdl fuel s) = iter_t.leave then
          some (retire_steps ep_idx hdl fuel s)
        else none := by
  intro fuel
  induction fuel with
  | zero =>
    intro s
    unfold retire_loop
    show _ = if retire_body ep_idx hdl s = iter_t.leave then some s else none
    cases hb : retire_body ep_idx hdl s with
    | leave => rfl
    | again s1 => rfl
  | succ n ih =>
    intro s
    unfold retire_loop retire_steps
    cases hb : retire_body ep_idx hdl s with
    | leave =>
      dsimp only
      rw [hb, if_pos rfl]
    | again s1 =>
      dsimp only
      exact ih s1

/-- The completion pass when the only completion bit set is the one of an OUT slot: it is the
retire loop of that slot, run with the handle that the pass builds for the slot. -/
theorem xfer_complete_isr_out_slot (fuel c idx : Nat) (t : system_t)
    (hidx : idx < 12 ∧ 2 ≤ idx ∧ idx % 2 = 0) :
    xfer_complete_isr fuel c (BIT_ (edpt_phy2pos idx)) t =
      retire_loop idx
        { coreid := c, xfer_type := (t.dcd_data.qhd_at idx).xfer_type, index := idx,
          class_code := (t.dcd_data.qhd_at idx).class_code } fuel t := by
  obtain ⟨_, hbp, hbit, hoth⟩ := out_slot_bits idx hidx.1 hidx.2.1 hidx.2.2
  unfold xfer_complete_isr
  dsimp only
  rw [if_neg (not_not.2 hbp)]
  rw [fold_slots_one fuel c _ idx _ t (List.nodup_range' _ _)
    (by rw [List.mem_range'_1]; simp only [DCD_QHD_MAX]; omega)
    (fun ep hep hne => hoth ep (by
      rw [List.mem_range'_1] at hep; simp only [DCD_QHD_MAX] at hep; omega) hne)]
  unfold xfer_complete_slot
  rw [if_pos hbit]

/-- The runs of the body of the retire loop of a queue head whose list is `[D, D]`, the
descriptor `D` being inactive and reported by one call: every run retires `D` again and
adds the same call again, and the loop is never left. -/
theorem retire_steps_repeat (ep_idx : Nat) (hdl : endpoint_handle_t) (D : Nat) (x : call_t)
    (hD : D ≠ 0) :
    ∀ (n : Nat) (s : system_t),
      (s.dcd_data.qhd_at ep_idx).list_qtd_idx = [D, D] →
      (s.dcd_data.qtd_at D).active = 0 →
      xfer_report hdl (s.dcd_data.qtd_at D) = [x] →
      (retire_steps ep_idx hdl n s).calls = s.calls ++ List.replicate n x ∧
      ((retire_steps ep_idx hdl n s).dcd_data.qhd_at ep_idx).list_qtd_idx = [D, D] ∧
      retire_body ep_idx hdl (retire_steps ep_idx hdl n s) ≠ iter_t.leave := by
  intro n
  induction n with
  | zero =>
    intro s hl ha _
    have hh : (s.dcd_data.qhd_at ep_idx).list_qtd_idx.getD 0 0 = D := by rw [hl]; rfl
    refine ⟨(List.append_nil _).symm, hl, ?_⟩
    show retire_body ep_idx hdl s ≠ iter_t.leave
    rw [retire_body_again ep_idx hdl s (by rw [hh]; exact hD) (by rw [hh]; exact ha)]
    exact fun h => iter_t.noConfusion h
  | succ n ih =>
    intro s hl ha hx
    have hh : (s.dcd_data.qhd_at ep_idx).list_qtd_idx.getD 0 0 = D := by rw [hl]; rfl
    have hstep : retire_steps ep_idx hdl (n + 1) s =
        retire_steps ep_idx hdl n
          { s with
            dcd_data := retired s.dcd_data ep_idx
            calls := s.calls ++ xfer_report hdl (s.dcd_data.qtd_at D) } := by
      conv => lhs; unfold retire_steps
      rw [retire_body_again ep_idx hdl s (by rw [hh]; exact hD) (by rw [hh]; exact ha), hh]
    have hin := qhd_in_range s.dcd_data ep_idx (by rw [hh]; exact hD)
    have hq : (retired s.dcd_data ep_idx).qtd_at D = { s.dcd_data.qtd_at D with used := 0 } := by
      rw [qtd_at_retired, if_pos hh]
    obtain ⟨h1, h3, h2⟩ := ih
      { s with
        dcd_data := retired s.dcd_data ep_idx
        calls := s.calls ++ xfer_report hdl (s.dcd_data.qtd_at D) }
      (by
        show ((retired s.dcd_data ep_idx).qhd_at ep_idx).list_qtd_idx = [D, D]
        rw [list_retired _ _ hin, hl]; rfl)
      (by
        show ((retired s.dcd_data ep_idx).qtd_at D).active = 0
        rw [active_retired]; exact ha)
      (by
        show xfer_report hdl ((retired s.dcd_data ep_idx).qtd_at D) = [x]
        rw [hq]; exact hx)
    rw [hstep]
    refine ⟨?_, h3, h2⟩
    rw [h1]
    show (s.calls ++ xfer_report hdl (s.dcd_data.qtd_at D)) ++ List.replicate n x = _
    rw [hx, List.append_assoc]
    rfl

/-- C4, the code at the failing inputs. Endpoint 1 OUT holds the descriptors 2 and 3
(`[D1, D2] = [2, 3]`, descriptor 2 enqueued first), both with `int_on_complete` and both
finished: the completion pass for the bit of the endpoint is the retire loop of slot 2 and
never returns; its first run of the loop body frees descriptor 2 and reports it while
descriptor 3 is still used, its second run frees descriptor 3 and reports it and leaves the
list `[3, 3]`, and every further run frees and reports descriptor 3 again (after `n + 1`
runs the calls are the report of descriptor 2 followed by `n` reports of descriptor 3).
Endpoint 1 IN holds the descriptors 2 and 3 in the same way, with its completion bit (bit
17) raised: `dcd_isr` returns with both descriptors still used, the list unchanged and no
call made. -/
theorem C4_pass_does_not_retire_both_once (fuel n : Nat) :
    (ex_two_notified.dcd_data.qhd_at 2).list_qtd_idx = [2, 3] ∧
    ((ex_two_notified.dcd_data.qtd_at 2).active = 0 ∧
      (ex_two_notified.dcd_data.qtd_at 3).active = 0) ∧
    ((ex_two_notified.dcd_data.qtd_at 2).int_on_complete = 1 ∧
      (ex_two_notified.dcd_data.qtd_at 3).int_on_complete = 1) ∧
    xfer_complete_isr fuel 0 (BIT_ (edpt_phy2pos 2)) ex_two_notified = none ∧
    xfer_complete_isr (fuel + 1) 0 (BIT_ (edpt_phy2pos 2)) ex_two_notified =
      (if retire_body 2 ex_ep1_out (retire_steps 2 ex_ep1_out fuel ex_two_notified) =
          iter_t.leave then
        some (retire_steps 2 ex_ep1_out fuel ex_two_notified)
      else none) ∧
    retire_body 2 ex_ep1_out (retire_steps 2 ex_ep1_out n ex_two_notified) ≠ iter_t.leave ∧
    (((retire_steps 2 ex_ep1_out 1 ex_two_notified).dcd_data.qtd_at 2).used = 0 ∧
      ((retire_steps 2 ex_ep1_out 1 ex_two_notified).dcd_data.qtd_at 3).used = 1 ∧
      (retire_steps 2 ex_ep1_out 1 ex_two_notified).calls =
        [call_t.usbd_xfer_isr ex_ep1_out tusb_event_t.TUSB_EVENT_XFER_COMPLETE 512]) ∧
    (((retire_steps 2 ex_ep1_out 2 ex_two_notified).dcd_data.qtd_at 3).used = 0 ∧
      ((retire_steps 2 ex_ep1_out 2 ex_two_notified).dcd_data.qhd_at 2).list_qtd_idx = [3, 3] ∧
      (retire_steps 2 ex_ep1_out 2 ex_two_notified).calls =
        [call_t.usbd_xfer_isr ex_ep1_out tusb_event_t.TUSB_EVENT_XFER_COMPLETE 512,
          call_t.usbd_xfer_isr ex_ep1_out tusb_event_t.TUSB_EVENT_XFER_COMPLETE 256]) ∧
    (retire_steps 2 ex_ep1_out (n + 1) ex_two_notified).calls =
      call_t.usbd_xfer_isr ex_ep1_out tusb_event_t.TUSB_EVENT_XFER_COMPLETE 512 ::
        List.replicate n
          (call_t.usbd_xfer_isr ex_ep1_out tusb_event_t.TUSB_EVENT_XFER_COMPLETE 256) ∧
    ((ex_in_two_done.dcd_data.qhd_at 3).list_qtd_idx = [2, 3] ∧
      (ex_in_two_done.dcd_data.qtd_at 2).active = 0 ∧
      (ex_in_two_done.dcd_data.qtd_at 3).active = 0 ∧
      BIT_TEST_ ex_in_two_done.LPC_USB0.ENDPTCOMPLETE (edpt_phy2pos 3) = true ∧
      ex_in_two_done.LPC_USB0.USBSTS_D &&& ex_in_two_done.LPC_USB0.USBINTR_D &&&
        INT_MASK_USB ≠ 0 ∧
      (dcd_isr ex_build fuel 0 ex_in_two_done).map
        (fun t => ((t.dcd_data.qhd_at 3).list_qtd_idx, (t.dcd_data.qtd_at 2).used,
          (t.dcd_data.qtd_at 3).used, t.calls)) = some ([2, 3], 1, 1, [])) := by
  have hpass : ∀ f, xfer_complete_isr f 0 (BIT_ (edpt_phy2pos 2)) ex_two_notified =
      retire_loop 2 ex_ep1_out f ex_two_notified := by
    intro f
    rw [xfer_complete_isr_out_slot f 0 2 ex_two_notified (by decide)]
    rfl
  have hrep := retire_steps_repeat 2 ex_ep1_out 3
    (call_t.usbd_xfer_isr ex_ep1_out tusb_event_t.TUSB_EVENT_XFER_COMPLETE 256) (by decide)
  have hadd : ∀ m, retire_steps 2 ex_ep1_out (m + 1) ex_two_notified =
      retire_steps 2 ex_ep1_out m (retire_steps 2 ex_ep1_out 1 ex_two_notified) := by
    intro m
    rw [Nat.add_comm, retire_steps_add]
  refine ⟨by decide, ⟨by decide, by decide⟩, ⟨by decide, by decide⟩, ?_, ?_, ?_,
    ⟨by decide, by decide, by decide⟩, ⟨by decide, by decide, by decide⟩, ?_,
    ⟨by decide, by decide, by decide, by decide, by decide, rfl⟩⟩
  · rw [hpass]
    exact retire_loop_diverges 2 _ 3 (by decide) fuel ex_two_notified 2 (by decide) (by decide)
      (by decide) (by decide)
  · rw [hpass, retire_loop_eq_steps]
  · cases n with
    | zero => decide
    | succ m =>
      rw [hadd]
      exact (hrep m _ (by decide) (by decide) (by decide)).2.2
  · rw [hadd, (hrep n _ (by decide) (by decide) (by decide)).1]
    rfl

/-- C5, the code at the failing input: endpoint 1 OUT holds the descriptors 2 (without
`int_on_complete`) and 3 (with `int_on_complete`, 512 bytes), both finished. The completion
pass for the bit of the endpoint is the retire loop of slot 2 and never returns; it retires
descriptor 2 without a call, and then retires descriptor 3 in every further run of the loop
body, each time with a call of `usbd_xfer_isr`: after `n + 1` runs of the body `n` calls
have been made for descriptor 3. -/
theorem C5_descriptor_reported_repeatedly (fuel n : Nat) :
    (ex_both_done.dcd_data.qhd_at 2).list_qtd_idx = [2, 3] ∧
    ((ex_both_done.dcd_data.qtd_at 2).active = 0 ∧
      (ex_both_done.dcd_data.qtd_at 3).active = 0) ∧
    ((ex_both_done.dcd_data.qtd_at 2).int_on_complete = 0 ∧
      (ex_both_done.dcd_data.qtd_at 3).int_on_complete = 1) ∧
    xfer_complete_isr fuel 0 (BIT_ (edpt_phy2pos 2)) ex_both_done = none ∧
    xfer_complete_isr (fuel + 1) 0 (BIT_ (edpt_phy2pos 2)) ex_both_done =
      (if retire_body 2 ex_ep1_out (retire_steps 2 ex_ep1_out fuel ex_both_done) =
          iter_t.leave then
        some (retire_steps 2 ex_ep1_out fuel ex_both_done)
      else none) ∧
    retire_body 2 ex_ep1_out (retire_steps 2 ex_ep1_out n ex_both_done) ≠ iter_t.leave ∧
    ((retire_steps 2 ex_ep1_out (n + 1) ex_both_done).dcd_data.qhd_at 2).list_qtd_idx.getD 0 0 =
      3 ∧
    (retire_steps 2 ex_ep1_out (n + 1) ex_both_done).calls =
      List.replicate n
        (call_t.usbd_xfer_isr ex_ep1_out tusb_event_t.TUSB_EVENT_XFER_COMPLETE 512) ∧
    (retire_steps 2 ex_ep1_out 3 ex_both_done).calls =
      [call_t.usbd_xfer_isr ex_ep1_out tusb_event_t.TUSB_EVENT_XFER_COMPLETE 512,
        call_t.usbd_xfer_isr ex_ep1_out tusb_event_t.TUSB_EVENT_XFER_COMPLETE 512] := by
  have hpass : ∀ f, xfer_complete_isr f 0 (BIT_ (edpt_phy2pos 2)) ex_both_done =
      retire_loop 2 ex_ep1_out f ex_both_done := by
    intro f
    rw [xfer_complete_isr_out_slot f 0 2 ex_both_done (by decide)]
    rfl
  have hrep := retire_steps_repeat 2 ex_ep1_out 3
    (call_t.usbd_xfer_isr ex_ep1_out tusb_event_t.TUSB_EVENT_XFER_COMPLETE 512) (by decide)
  have hadd : ∀ m, retire_steps 2 ex_ep1_out (m + 1) ex_both_done =
      retire_steps 2 ex_ep1_out m (retire_steps 2 ex_ep1_out 1 ex_both_done) := by
    intro m
    rw [Nat.add_comm, retire_steps_add]
  refine ⟨by decide, ⟨by decide, by decide⟩, ⟨by decide, by decide⟩, ?_, ?_, ?_, ?_, ?_,
    by decide⟩
  · rw [hpass]
    exact retire_loop_diverges 2 _ 3 (by decide) fuel ex_both_done 2 (by decide) (by decide)
      (by decide) (by decide)
  · rw [hpass, retire_loop_eq_steps]
  · cases n with
    | zero => decide
    | succ m =>
      rw [hadd]
      exact (hrep m _ (by decide) (by decide) (by decide)).2.2
  · rw [hadd, (hrep n _ (by decide) (by decide) (by decide)).2.1]
    rfl
  · rw [hadd, (hrep n _ (by decide) (by decide) (by decide)).1]
    rfl
end DcdLpc43xx
